import Mathlib

/-!
# pico-lora: the SX127x driver of `src/lora.c` and the number printing of `src/print.c`

A shallow embedding of the radio driver.  The driver talks to the chip only
through `lora_single_transfer`, one chip-select frame of two bytes, so the
chip is a parameter of every driver function: a `Device` gives the response
and the next chip state of one frame.  The driver state `St` holds the
driver context (`lora_ctx_t`), the chip state and, as a ghost field, the
list of register writes issued so far (address without the write bit, value).

C integers: `uint8_t` values are naturals reduced `% 256`, `int` values are
`Int`, `int8_t` wraps into `-128..127`, `size_t` and `unsigned long` are 32
bits wide (RP2040), `char` is unsigned.

The print functions write through `putchar`; standard output is a parameter
of them (`Stdout`), and `console` is the one that takes every character.
-/

namespace PicoLora

/-! ## Constants of `lora.h` -/

def MAX_PKT_LENGTH : Nat := 255

def REG_FIFO : Nat := 0x00
def REG_OP_MODE : Nat := 0x01
def REG_FRF_MSB : Nat := 0x06
def REG_FRF_MID : Nat := 0x07
def REG_FRF_LSB : Nat := 0x08
def REG_PA_CONFIG : Nat := 0x09
def REG_LNA : Nat := 0x0c
def REG_FIFO_ADDR_PTR : Nat := 0x0d
def REG_FIFO_TX_BASE_ADDR : Nat := 0x0e
def REG_FIFO_RX_BASE_ADDR : Nat := 0x0f
def REG_FIFO_RX_CURRENT_ADDR : Nat := 0x10
def REG_IRQ_FLAGS : Nat := 0x12
def REG_RX_NB_BYTES : Nat := 0x13
def REG_PKT_SNR_VALUE : Nat := 0x19
def REG_PKT_RSSI_VALUE : Nat := 0x1a
def REG_MODEM_CONFIG_1 : Nat := 0x1d
def REG_MODEM_CONFIG_2 : Nat := 0x1e
def REG_PREAMBLE_MSB : Nat := 0x20
def REG_PREAMBLE_LSB : Nat := 0x21
def REG_PAYLOAD_LENGTH : Nat := 0x22
def REG_MODEM_CONFIG_3 : Nat := 0x26
def REG_FREQ_ERROR_MSB : Nat := 0x28
def REG_FREQ_ERROR_MID : Nat := 0x29
def REG_FREQ_ERROR_LSB : Nat := 0x2a
def REG_RSSI_WIDEBAND : Nat := 0x2c
def REG_DETECTION_OPTIMIZE : Nat := 0x31
def REG_DETECTION_THRESHOLD : Nat := 0x37
def REG_SYNC_WORD : Nat := 0x39
def REG_DIO_MAPPING_1 : Nat := 0x40
def REG_VERSION : Nat := 0x42
def REG_PA_DAC : Nat := 0x4d
def REG_INVERTIQ : Nat := 0x33
def REG_INVERTIQ2 : Nat := 0x3b
def REG_OCP : Nat := 0x0b

def MODE_LONG_RANGE_MODE : Nat := 0x80
def MODE_SLEEP : Nat := 0x00
def MODE_STDBY : Nat := 0x01
def MODE_TX : Nat := 0x03
def MODE_RX_CONTINUOUS : Nat := 0x05
def MODE_RX_SINGLE : Nat := 0x06
def MODE_CAD : Nat := 0x07

def PA_BOOST : Nat := 0x80
def PA_OUTPUT_RFO_PIN : Int := 0
def PA_OUTPUT_PA_BOOST_PIN : Int := 1

def IRQ_TX_DONE_MASK : Nat := 0x08
def IRQ_PAYLOAD_CRC_ERROR_MASK : Nat := 0x20
def IRQ_RX_DONE_MASK : Nat := 0x40

/-! ## Driver state -/

/-- The fields of `lora_ctx_t` (and of its `config`) that the driver logic
reads or writes. -/
structure Ctx where
  frequency : Nat
  dio0_pin : Nat
  initialized : Bool
  implicit_header_mode : Int
  packet_index : Int
deriving DecidableEq, Repr

/-- The transport and the chip behind it.  `xfer c address data` is one
chip-select frame: the address byte (bit 7 set for a write), then one data
byte; it gives the byte the chip answers and the chip state afterwards.
`reset` is the pulse on the reset pin. -/
structure Device (σ : Type) where
  xfer : σ → Nat → Nat → Nat × σ
  reset : σ → σ

/-- Driver context, chip state, and the register writes issued so far. -/
structure St (σ : Type) where
  ctx : Ctx
  chip : σ
  writes : List (Nat × Nat)

/-- Conversion of a C `int` to `int8_t` (twos-complement wrap). -/
def toInt8 (x : Int) : Int := (x + 128) % 256 - 128

/-- Width of `size_t` on the target. -/
def SIZE_BITS : Nat := 32

variable {σ : Type}

/-! ## Low-level SPI and register access -/

/-- The function `lora_single_transfer`: the address byte, then the value for
a write frame or a dummy zero byte for a read frame; the response is a
`uint8_t`. -/
def lora_single_transfer (d : Device σ) (s : St σ) (address value : Nat) : Nat × St σ :=
  if address &&& 0x80 ≠ 0 then
    let r := d.xfer s.chip address value
    (r.1 % 256, { s with chip := r.2, writes := s.writes ++ [(address &&& 0x7f, value)] })
  else
    let r := d.xfer s.chip address 0
    (r.1 % 256, { s with chip := r.2 })

/-- The function `read_register`. -/
def read_register (d : Device σ) (s : St σ) (address : Nat) : Nat × St σ :=
  lora_single_transfer d s (address &&& 0x7f) 0x00

/-- The function `write_register`; the value parameter is a `uint8_t`. -/
def write_register (d : Device σ) (s : St σ) (address value : Nat) : St σ :=
  (lora_single_transfer d s ((address ||| 0x80) % 256) (value % 256)).2

/-! ## Modes -/

/-- The function `lora_idle`. -/
def lora_idle (d : Device σ) (s : St σ) : St σ :=
  write_register d s REG_OP_MODE (MODE_LONG_RANGE_MODE ||| MODE_STDBY)

/-- The function `lora_sleep`. -/
def lora_sleep (d : Device σ) (s : St σ) : St σ :=
  write_register d s REG_OP_MODE (MODE_LONG_RANGE_MODE ||| MODE_SLEEP)

/-- The function `explicit_header_mode`. -/
def explicit_header_mode (d : Device σ) (s : St σ) : St σ :=
  let s1 : St σ := { s with ctx := { s.ctx with implicit_header_mode := 0 } }
  let r := read_register d s1 REG_MODEM_CONFIG_1
  write_register d r.2 REG_MODEM_CONFIG_1 (r.1 &&& 0xfe)

/-- The function `implicit_header_mode`. -/
def implicit_header_mode (d : Device σ) (s : St σ) : St σ :=
  let s1 : St σ := { s with ctx := { s.ctx with implicit_header_mode := 1 } }
  let r := read_register d s1 REG_MODEM_CONFIG_1
  write_register d r.2 REG_MODEM_CONFIG_1 (r.1 ||| 0x01)

/-- The function `is_transmitting`. -/
def is_transmitting (d : Device σ) (s : St σ) : Bool × St σ :=
  let r := read_register d s REG_OP_MODE
  if r.1 &&& MODE_TX = MODE_TX then (true, r.2)
  else
    let q := read_register d r.2 REG_IRQ_FLAGS
    if q.1 &&& IRQ_TX_DONE_MASK ≠ 0 then
      (false, write_register d q.2 REG_IRQ_FLAGS IRQ_TX_DONE_MASK)
    else (false, q.2)

/-! ## Configuration -/

/-- The function `lora_set_frequency`: the 64-bit product cannot overflow
for a 32-bit frequency; the three casts keep the low byte. -/
def lora_set_frequency (d : Device σ) (s : St σ) (frequency : Nat) : St σ :=
  let s0 : St σ := { s with ctx := { s.ctx with frequency := frequency } }
  let frf := ((frequency <<< 19) % 2 ^ 64) / 32000000
  let s1 := write_register d s0 REG_FRF_MSB ((frf >>> 16) % 256)
  let s2 := write_register d s1 REG_FRF_MID ((frf >>> 8) % 256)
  write_register d s2 REG_FRF_LSB ((frf >>> 0) % 256)

/-- The function `get_spreading_factor`. -/
def get_spreading_factor (d : Device σ) (s : St σ) : Nat × St σ :=
  let r := read_register d s REG_MODEM_CONFIG_2
  (r.1 >>> 4, r.2)

/-- The function `get_signal_bandwidth`; the `double` constants are whole
numbers of hertz. -/
def get_signal_bandwidth (d : Device σ) (s : St σ) : Nat × St σ :=
  let r := read_register d s REG_MODEM_CONFIG_1
  let bw := (r.1 >>> 4) % 256
  (match bw with
    | 0 => 7800
    | 1 => 10400
    | 2 => 15600
    | 3 => 20800
    | 4 => 31250
    | 5 => 41700
    | 6 => 62500
    | 7 => 125000
    | 8 => 250000
    | 9 => 500000
    | _ => 0, r.2)

/-- The function `set_ldo_flag`.  The division by `bandwidth / 1000` is
undefined in C when the bandwidth index read back is not one of `0..9`
(`get_signal_bandwidth` then gives `0`): that outcome is `Except.error`,
carrying the state reached when the division is evaluated. -/
def set_ldo_flag (d : Device σ) (s : St σ) : Except (St σ) (St σ) :=
  let b := get_signal_bandwidth d s
  let f := get_spreading_factor d b.2
  if b.1 / 1000 = 0 then Except.error f.2
  else
    let symbol_duration := ((1000 * (1 <<< f.1)) / (b.1 / 1000)) % 2 ^ 32
    let ldo_on : Bool := decide (symbol_duration > 16)
    let c := read_register d f.2 REG_MODEM_CONFIG_3
    let config3 := if ldo_on then c.1 ||| 0x08 else c.1 &&& 0xf7
    Except.ok (write_register d c.2 REG_MODEM_CONFIG_3 config3)

/-- The state an outcome of `set_ldo_flag` (and of the two setters that end
with it) has reached. -/
def reached : Except (St σ) (St σ) → St σ
  | Except.ok s => s
  | Except.error s => s

/-- The function `lora_set_spreading_factor`. -/
def lora_set_spreading_factor (d : Device σ) (s : St σ) (sf : Int) : Except (St σ) (St σ) :=
  let sf : Int := if sf < 6 then 6 else if sf > 12 then 12 else sf
  let s2 :=
    if sf = 6 then
      write_register d (write_register d s REG_DETECTION_OPTIMIZE 0xc5) REG_DETECTION_THRESHOLD 0x0c
    else
      write_register d (write_register d s REG_DETECTION_OPTIMIZE 0xc3) REG_DETECTION_THRESHOLD 0x0a
  let r := read_register d s2 REG_MODEM_CONFIG_2
  let s3 := write_register d r.2 REG_MODEM_CONFIG_2 ((r.1 &&& 0x0f) ||| ((sf.toNat <<< 4) &&& 0xf0))
  set_ldo_flag d s3

/-- The bandwidth index chosen by the comparison chain of
`lora_set_signal_bandwidth`. -/
def bw_index (sbw : Nat) : Nat :=
  if sbw ≤ 7800 then 0
  else if sbw ≤ 10400 then 1
  else if sbw ≤ 15600 then 2
  else if sbw ≤ 20800 then 3
  else if sbw ≤ 31250 then 4
  else if sbw ≤ 41700 then 5
  else if sbw ≤ 62500 then 6
  else if sbw ≤ 125000 then 7
  else if sbw ≤ 250000 then 8
  else 9

/-- The function `lora_set_signal_bandwidth`. -/
def lora_set_signal_bandwidth (d : Device σ) (s : St σ) (sbw : Nat) : Except (St σ) (St σ) :=
  let bw := bw_index sbw
  let r := read_register d s REG_MODEM_CONFIG_1
  let s1 := write_register d r.2 REG_MODEM_CONFIG_1 ((r.1 &&& 0x0f) ||| (bw <<< 4))
  set_ldo_flag d s1

/-- The function `lora_set_ocp`; `current` is a `uint8_t`, the arithmetic is
done in `int` (division truncates) and the result is stored in a `uint8_t`. -/
def lora_set_ocp (d : Device σ) (s : St σ) (current : Nat) : St σ :=
  let current : Int := ((current % 256 : Nat) : Int)
  let ocp_trim : Int :=
    if current ≤ 120 then (Int.tdiv (current - 45) 5) % 256
    else if current ≤ 240 then (Int.tdiv (current + 30) 10) % 256
    else 27
  write_register d s REG_OCP (0x20 ||| (0x1F &&& ocp_trim.toNat))

/-- The function `lora_set_tx_power`.  After the clamps `level` is in
`0..14` on the RFO path and `level - 2` is in `0..15` on the PA_BOOST path,
so the bitwise OR is taken on naturals. -/
def lora_set_tx_power (d : Device σ) (s : St σ) (level output_pin : Int) : St σ :=
  if PA_OUTPUT_RFO_PIN = output_pin then
    let level : Int := if level < 0 then 0 else if level > 14 then 14 else level
    write_register d s REG_PA_CONFIG (0x70 ||| level.toNat)
  else
    if level > 17 then
      let level : Int := if level > 20 then 20 else level
      let level := level - 3
      let s1 := write_register d s REG_PA_DAC 0x87
      let s2 := lora_set_ocp d s1 140
      write_register d s2 REG_PA_CONFIG (PA_BOOST ||| (level - 2).toNat)
    else
      let level : Int := if level < 2 then 2 else level
      let s1 := write_register d s REG_PA_DAC 0x84
      let s2 := lora_set_ocp d s1 100
      write_register d s2 REG_PA_CONFIG (PA_BOOST ||| (level - 2).toNat)

/-! ## Life cycle -/

/-- The function `lora_begin`.  Pin set-up and diagnostics do not reach the
chip registers; the reset pulse is `Device.reset`. -/
def lora_begin (d : Device σ) (s : St σ) (frequency : Nat) : Bool × St σ :=
  let s0 : St σ := { s with chip := d.reset s.chip }
  let v := read_register d s0 REG_VERSION
  if v.1 ≠ 0x12 then (false, v.2)
  else
    let s1 := lora_sleep d v.2
    let s2 := lora_set_frequency d s1 frequency
    let s3 := write_register d s2 REG_FIFO_TX_BASE_ADDR 0
    let s4 := write_register d s3 REG_FIFO_RX_BASE_ADDR 0
    let l := read_register d s4 REG_LNA
    let s5 := write_register d l.2 REG_LNA (l.1 ||| 0x03)
    let s6 := write_register d s5 REG_MODEM_CONFIG_3 0x04
    let s7 := lora_set_tx_power d s6 17 PA_OUTPUT_PA_BOOST_PIN
    let s8 := lora_idle d s7
    (true, { s8 with ctx := { s8.ctx with initialized := true } })

/-- The function `lora_end`. -/
def lora_end (d : Device σ) (s : St σ) : St σ :=
  let s1 := lora_sleep d s
  { s1 with ctx := { s1.ctx with initialized := false } }

/-! ## Packets -/

/-- The function `lora_begin_packet`. -/
def lora_begin_packet (d : Device σ) (s : St σ) (implicit_header : Bool) : Bool × St σ :=
  let t := is_transmitting d s
  if t.1 then (false, t.2)
  else
    let s1 := lora_idle d t.2
    let s2 := if implicit_header then implicit_header_mode d s1 else explicit_header_mode d s1
    let s3 := write_register d s2 REG_FIFO_ADDR_PTR 0
    let s4 := write_register d s3 REG_PAYLOAD_LENGTH 0
    (true, s4)

/-- The busy-wait loop of the synchronous `lora_end_packet`: polls the IRQ
flags until the transmit-done bit shows; `none` when the fuel runs out. -/
def wait_tx_done (d : Device σ) : Nat → St σ → Option (St σ)
  | 0, _ => none
  | fuel + 1, s =>
    let q := read_register d s REG_IRQ_FLAGS
    if q.1 &&& IRQ_TX_DONE_MASK = 0 then wait_tx_done d fuel q.2 else some q.2

/-- The function `lora_end_packet`; `fuel` bounds the polls of the
synchronous wait and is not looked at when `async` is true. -/
def lora_end_packet (d : Device σ) (fuel : Nat) (s : St σ) (async : Bool) :
    Option (Bool × St σ) :=
  let s1 := if async && decide (s.ctx.dio0_pin > 0) then
      write_register d s REG_DIO_MAPPING_1 0x40 else s
  let s2 := write_register d s1 REG_OP_MODE (MODE_LONG_RANGE_MODE ||| MODE_TX)
  if !async then
    match wait_tx_done d fuel s2 with
    | none => none
    | some s3 => some (true, write_register d s3 REG_IRQ_FLAGS IRQ_TX_DONE_MASK)
  else some (true, s2)

/-- The function `lora_parse_packet`. -/
def lora_parse_packet (d : Device σ) (s : St σ) (size : Int) : Int × St σ :=
  let q := read_register d s REG_IRQ_FLAGS
  let irq_flags := q.1
  let s1 := if size > 0 then
      write_register d (implicit_header_mode d q.2) REG_PAYLOAD_LENGTH (size.toNat &&& 0xff)
    else explicit_header_mode d q.2
  let s2 := write_register d s1 REG_IRQ_FLAGS irq_flags
  if irq_flags &&& IRQ_RX_DONE_MASK ≠ 0 ∧ irq_flags &&& IRQ_PAYLOAD_CRC_ERROR_MASK = 0 then
    let s3 : St σ := { s2 with ctx := { s2.ctx with packet_index := 0 } }
    let len := if s3.ctx.implicit_header_mode ≠ 0 then read_register d s3 REG_PAYLOAD_LENGTH
      else read_register d s3 REG_RX_NB_BYTES
    let a := read_register d len.2 REG_FIFO_RX_CURRENT_ADDR
    let s4 := write_register d a.2 REG_FIFO_ADDR_PTR a.1
    ((len.1 : Int), lora_idle d s4)
  else
    let m := read_register d s2 REG_OP_MODE
    if m.1 ≠ (MODE_LONG_RANGE_MODE ||| MODE_RX_SINGLE) then
      let s3 := write_register d m.2 REG_FIFO_ADDR_PTR 0
      (0, write_register d s3 REG_OP_MODE (MODE_LONG_RANGE_MODE ||| MODE_RX_SINGLE))
    else (0, m.2)

/-- The function `lora_write`: `buffer` holds the bytes of the caller and `size`
is the byte count passed with it; the sum is taken in `size_t`. -/
def lora_write (d : Device σ) (s : St σ) (buffer : List Nat) (size : Nat) : Nat × St σ :=
  let r := read_register d s REG_PAYLOAD_LENGTH
  let current_length := r.1
  let size := if (current_length + size) % 2 ^ SIZE_BITS > MAX_PKT_LENGTH then
      MAX_PKT_LENGTH - current_length else size
  let s1 := (buffer.take size).foldl (fun t b => write_register d t REG_FIFO b) r.2
  let s2 := write_register d s1 REG_PAYLOAD_LENGTH (current_length + size)
  (size, s2)

/-- The function `lora_available`. -/
def lora_available (d : Device σ) (s : St σ) : Int × St σ :=
  let r := read_register d s REG_RX_NB_BYTES
  ((r.1 : Int) - s.ctx.packet_index, r.2)

/-- The function `lora_read`; `packet_index` is an `int8_t`. -/
def lora_read (d : Device σ) (s : St σ) : Int × St σ :=
  let a := lora_available d s
  if a.1 = 0 then (-1, a.2)
  else
    let s1 : St σ := { a.2 with ctx :=
      { a.2.ctx with packet_index := toInt8 (a.2.ctx.packet_index + 1) } }
    let r := read_register d s1 REG_FIFO
    ((r.1 : Int), r.2)

/-- The function `lora_peek`. -/
def lora_peek (d : Device σ) (s : St σ) : Int × St σ :=
  let a := lora_available d s
  if a.1 = 0 then (-1, a.2)
  else
    let p := read_register d a.2 REG_FIFO_ADDR_PTR
    let b := read_register d p.2 REG_FIFO
    ((b.1 : Int), write_register d b.2 REG_FIFO_ADDR_PTR p.1)

/-! ## Telemetry and coding rate -/

/-- Conversion of a C `int` to `int16_t` (twos-complement wrap). -/
def toInt16 (x : Int) : Int := (x + 32768) % 65536 - 32768

/-- The function `lora_rssi`; the stored frequency is compared with the
whole number `868E6`, the result is an `int16_t`. -/
def lora_rssi (d : Device σ) (s : St σ) : Int × St σ :=
  let r := read_register d s REG_PKT_RSSI_VALUE
  (toInt16 ((r.1 : Int) - (if s.ctx.frequency < 868000000 then 164 else 157)), r.2)

/-- The function `lora_set_coding_rate4`.  After the clamp `denominator - 4`
is in `1..4`, so the shift and the bitwise OR are taken on naturals. -/
def lora_set_coding_rate4 (d : Device σ) (s : St σ) (denominator : Int) : St σ :=
  let denominator : Int :=
    if denominator < 5 then 5 else if denominator > 8 then 8 else denominator
  let cr : Int := denominator - 4
  let r := read_register d s REG_MODEM_CONFIG_1
  write_register d r.2 REG_MODEM_CONFIG_1 ((r.1 &&& 0xf1) ||| (cr.toNat <<< 1))

/-- A value brought into the range of `int32_t`. -/
def toInt32 (x : Int) : Int := (x + 2147483648) % 4294967296 - 2147483648

/-- The integer part of `lora_packet_frequency_error`: the value of the local
`freq_error` when the floating-point scaling starts, with the state after the
four register reads.  The scaling itself is not part of this definition. -/
def lora_packet_frequency_error_raw (d : Device σ) (s : St σ) : Int × St σ :=
  let r1 := read_register d s REG_FREQ_ERROR_MSB
  let e1 : Int := toInt32 ((r1.1 &&& 0x7 : Nat) : Int)
  let e2 : Int := toInt32 (e1 * 2 ^ 8)
  let r2 := read_register d r1.2 REG_FREQ_ERROR_MID
  let e3 : Int := toInt32 (e2 + (r2.1 : Int))
  let e4 : Int := toInt32 (e3 * 2 ^ 8)
  let r3 := read_register d r2.2 REG_FREQ_ERROR_LSB
  let e5 : Int := toInt32 (e4 + (r3.1 : Int))
  let r4 := read_register d r3.2 REG_FREQ_ERROR_MSB
  let e6 : Int := if r4.1 &&& 0x8 ≠ 0 then toInt32 (e5 - 524288) else e5
  (e6, r4.2)

/-! ## The print library (`print.c`) -/

/-- Width in bits of `long` on the target (`8 * sizeof(long)` on the RP2040). -/
def LONG_BITS : Nat := 32

/-- Standard output as `putchar` sees it: `putchar o c` is the output after
the character `c`, or `none` when `putchar` returns `EOF`. -/
structure Stdout (ρ : Type) where
  putchar : ρ → Nat → Option ρ

/-- The print context `print_ctx_t` as `print_init` leaves it: the error flag
and, behind the function pointers (the stdout writers), the state of standard
output. -/
structure PrintCtx (ρ : Type) where
  write_error : Int
  out : ρ
deriving DecidableEq

variable {ρ : Type}

/-- The function `stdout_write_byte`. -/
def stdout_write_byte (io : Stdout ρ) (ctx : PrintCtx ρ) (b : Nat) : Nat × PrintCtx ρ :=
  match io.putchar ctx.out b with
  | none => (0, { ctx with write_error := 1 })
  | some o => (1, { ctx with out := o })

/-- The function `stdout_write_buffer`; the list holds the `size` bytes at
`buffer`. -/
def stdout_write_buffer (io : Stdout ρ) : PrintCtx ρ → List Nat → Nat × PrintCtx ρ
  | ctx, [] => (0, ctx)
  | ctx, b :: bs =>
    match io.putchar ctx.out b with
    | none => (0, { ctx with write_error := 1 })
    | some o =>
      let r := stdout_write_buffer io { ctx with out := o } bs
      (r.1 + 1, r.2)

/-- The function `print_write_buffer`; `ctx->write_buffer` is
`stdout_write_buffer`. -/
def print_write_buffer (io : Stdout ρ) (ctx : PrintCtx ρ) (buffer : List Nat) :
    Nat × PrintCtx ρ :=
  stdout_write_buffer io ctx buffer

/-- The function `print_write_str`: `none` is the null pointer, `some str` a
pointer to the bytes `str`; `strlen` counts the bytes before the first NUL. -/
def print_write_str (io : Stdout ρ) (ctx : PrintCtx ρ) : Option (List Nat) → Nat × PrintCtx ρ
  | none => (0, ctx)
  | some str => print_write_buffer io ctx (str.takeWhile (fun c => c ≠ 0))

/-- The function `print_char`; `ctx->write_byte` is `stdout_write_byte`. -/
def print_char (io : Stdout ρ) (ctx : PrintCtx ρ) (c : Nat) : Nat × PrintCtx ρ :=
  stdout_write_byte io ctx (c % 256)

/-- The do-while loop of `print_number`.  `str` holds the bytes from the
pointer `str` to the end of `buf`, `room` is the number of bytes of `buf` in
front of `str`; the outcome is `none` when the loop would store in front of
`buf`.  A `char` is unsigned on the target. -/
def print_number_loop (base : Nat) : Nat → Nat → List Nat → Option (List Nat)
  | 0, _, _ => none
  | room + 1, n, str =>
    let c := (n % base) % 256
    let n1 := n / base
    let str1 := ((if c < 10 then c + 48 else c + 65 - 10) % 256) :: str
    if n1 ≠ 0 then print_number_loop base room n1 str1 else some str1

/-- The function `print_number`: `n` is an `unsigned long`, `base` a `uint8_t`;
`buf` has `8 * sizeof(long) + 1` bytes, the last one the NUL. -/
def print_number (io : Stdout ρ) (ctx : PrintCtx ρ) (n base : Nat) :
    Option (Nat × PrintCtx ρ) :=
  let n := n % 2 ^ LONG_BITS
  let base := base % 256
  let base := if base < 2 then 10 else base
  match print_number_loop base LONG_BITS n [0] with
  | none => none
  | some str => some (print_write_str io ctx (some str))

/-- The function `print_ulong`; `base` is an `int`, converted to `uint8_t` in
the call of `print_number`. -/
def print_ulong (io : Stdout ρ) (ctx : PrintCtx ρ) (n : Nat) (base : Int) :
    Option (Nat × PrintCtx ρ) :=
  if base = 0 then some (stdout_write_byte io ctx (n % 256))
  else print_number io ctx n (base % 256).toNat

/-- The first loop of `print_ull_number`, `while (th16 < top)`, on the
`uint16_t` `th16` and the `uint8_t` `innerLoops`; `none` when the fuel runs
out. -/
def th16_loop (base top : Nat) : Nat → Nat → Nat → Option (Nat × Nat)
  | 0, _, _ => none
  | fuel + 1, th16, innerLoops =>
    if th16 < top then th16_loop base top fuel ((th16 * base) % 65536) ((innerLoops + 1) % 256)
    else some (th16, innerLoops)

/-- The `for` loop of `print_ull_number` over the `uint16_t` remainder `r`:
`innerLoops` digits are appended to `buf`. -/
def chunk_digits (base : Nat) : Nat → Nat → List Nat → List Nat
  | 0, _, buf => buf
  | j + 1, r, buf => chunk_digits base j (r / base) (buf ++ [(r - (r / base) * base) % 256])

/-- The loop `while (n64 > th16)` of `print_ull_number`; the outcome is the
last `n64` and `buf`, `none` when the fuel runs out. -/
def ull_chunks (base th16 innerLoops : Nat) : Nat → Nat → List Nat → Option (Nat × List Nat)
  | 0, _, _ => none
  | fuel + 1, n64, buf =>
    if n64 > th16 then
      ull_chunks base th16 innerLoops fuel (n64 / th16)
        (chunk_digits base innerLoops ((n64 - (n64 / th16) * th16) % 65536) buf)
    else some (n64, buf)

/-- The loop `while (n16 > 0)` of `print_ull_number`; `none` when the fuel runs
out. -/
def n16_loop (base : Nat) : Nat → Nat → List Nat → Option (List Nat)
  | 0, _, _ => none
  | fuel + 1, n16, buf =>
    if n16 > 0 then n16_loop base fuel (n16 / base) (buf ++ [(n16 - (n16 / base) * base) % 256])
    else some buf

/-- The last loop of `print_ull_number`: the digits of `buf` from index
`i - 1` down to 0, handed over in that order, are printed with `print_char`. -/
def print_digits (io : Stdout ρ) : PrintCtx ρ → List Nat → PrintCtx ρ
  | ctx, [] => ctx
  | ctx, d :: ds =>
    print_digits io (print_char io ctx ((if d < 10 then 48 + d else 65 + d - 10) % 256)).2 ds

/-- The function `print_ull_number`: `n64` is an `unsigned long long`, `base` a
`uint8_t`.  `buf` is the list of the digits stored so far, `buf[0]` first; the
outcome is `none` when a loop runs out of fuel or when more than the 64 bytes
of `buf` are stored. -/
def print_ull_number (io : Stdout ρ) (ctx : PrintCtx ρ) (n64 base : Nat) :
    Option (Nat × PrintCtx ρ) :=
  let n64 := n64 % 2 ^ 64
  let base := base % 256
  let base := if base < 2 then 10 else base
  let top := (0xFFFF / base) % 65536
  match th16_loop base top 17 1 0 with
  | none => none
  | some (th16, innerLoops) =>
    match ull_chunks base th16 innerLoops 65 n64 [] with
    | none => none
    | some (n64, buf) =>
      match n16_loop base 17 (n64 % 65536) buf with
      | none => none
      | some buf =>
        if buf.length > 64 then none
        else some (buf.length, print_digits io ctx buf.reverse)

/-- The function `print_ulonglong`. -/
def print_ulonglong (io : Stdout ρ) (ctx : PrintCtx ρ) (n : Nat) (base : Int) :
    Option (Nat × PrintCtx ρ) :=
  if base = 0 then some (stdout_write_byte io ctx (n % 256))
  else print_ull_number io ctx n (base % 256).toNat

/-! ## A register-file model of the chip -/

/-- A chip as a register file plus the 256-byte FIFO memory. -/
structure Chip where
  regs : Nat → Nat
  fifo : Nat → Nat

/-- Overwrite one cell of a register file or memory. -/
def setAt (m : Nat → Nat) (a v x : Nat) : Nat := if x = a then v else m x

/-- One frame on the register-file chip: every register is plain storage,
except that an access to `REG_FIFO` reads or writes the FIFO memory at
`REG_FIFO_ADDR_PTR` and then increments that pointer (an 8-bit register). -/
def Chip.xfer (c : Chip) (address data : Nat) : Nat × Chip :=
  let a := address &&& 0x7f
  let p := c.regs REG_FIFO_ADDR_PTR
  if address &&& 0x80 ≠ 0 then
    if a = REG_FIFO then
      (0, { regs := setAt c.regs REG_FIFO_ADDR_PTR ((p + 1) % 256), fifo := setAt c.fifo p data })
    else (0, { c with regs := setAt c.regs a data })
  else
    if a = REG_FIFO then
      (c.fifo p, { c with regs := setAt c.regs REG_FIFO_ADDR_PTR ((p + 1) % 256) })
    else (c.regs a, c)

/-- The register-file chip as a device; its registers keep their contents
across a reset pulse, so that every start state can be quantified over. -/
def regfile : Device Chip where
  xfer := Chip.xfer
  reset := fun c => c

/-- Runs `n` calls of `lora_read` in a row: the values returned, in order, and
the final state. -/
def read_times (d : Device σ) : Nat → St σ → List Int × St σ
  | 0, s => ([], s)
  | n + 1, s =>
    let r := lora_read d s
    let rest := read_times d n r.2
    (r.1 :: rest.1, rest.2)

/-! ## Scenario data used by the statements -/

/-- A register file and FIFO memory filled with zeros. -/
def chip0 : Chip := { regs := fun _ => 0, fifo := fun _ => 0 }

/-- The context after `lora_init` (all fields zero). -/
def ctx0 : Ctx :=
  { frequency := 0, dio0_pin := 0, initialized := false, implicit_header_mode := 0,
    packet_index := 0 }

/-- The zeroed driver over the zeroed register-file chip, nothing written yet. -/
def st0 : St Chip := { ctx := ctx0, chip := chip0, writes := [] }

/-- The ten bandwidth thresholds in hertz, ascending (the table of the
specification, section 3). -/
def bw_threshold : List Nat :=
  [7800, 10400, 15600, 20800, 31250, 41700, 62500, 125000, 250000, 500000]

/-- Scenario: `lora_set_spreading_factor` and then
`lora_set_signal_bandwidth`; a fault of the first call ends the run. -/
def set_sf_then_bw (d : Device σ) (s : St σ) (sf : Int) (sbw : Nat) : Except (St σ) (St σ) :=
  match lora_set_spreading_factor d s sf with
  | Except.ok t => lora_set_signal_bandwidth d t sbw
  | Except.error t => Except.error t

/-- Scenario: `lora_set_signal_bandwidth` and then
`lora_set_spreading_factor`. -/
def set_bw_then_sf (d : Device σ) (s : St σ) (sbw : Nat) (sf : Int) : Except (St σ) (St σ) :=
  match lora_set_signal_bandwidth d s sbw with
  | Except.ok t => lora_set_spreading_factor d t sf
  | Except.error t => Except.error t

/-- Bit 3 of REG_MODEM_CONFIG_3 (as the mask value `0` or `8`) in the state a
run over the register-file chip returned; `none` when the run faulted. -/
def ldo_bit : Except (St Chip) (St Chip) → Option Nat
  | Except.ok t => some (t.chip.regs REG_MODEM_CONFIG_3 &&& 0x08)
  | Except.error _ => none

/-- The zeroed driver over a register file whose mode register holds
Transmit (0x83). -/
def st_tx : St Chip :=
  { st0 with chip := { chip0 with regs := setAt chip0.regs REG_OP_MODE 0x83 } }

/-- The zeroed driver over a register file whose mode register holds CAD
(0x87). -/
def st_cad : St Chip :=
  { st0 with chip := { chip0 with regs := setAt chip0.regs REG_OP_MODE 0x87 } }

/-- The zeroed driver over a register file in Standby (0x81) with a latent
transmit-done flag in REG_IRQ_FLAGS. -/
def st_latent : St Chip :=
  { st0 with chip := { chip0 with
      regs := setAt (setAt chip0.regs REG_OP_MODE 0x81) REG_IRQ_FLAGS 0x08 } }

/-- A simulated receive-done event of `n` bytes on the register-file chip:
RX-done set and CRC error clear in REG_IRQ_FLAGS, REG_RX_NB_BYTES = `n`,
REG_FIFO_RX_CURRENT_ADDR = 0; the FIFO memory is kept. -/
def rx_done_event (n : Nat) (c : Chip) : Chip :=
  { c with regs := setAt (setAt (setAt c.regs REG_IRQ_FLAGS IRQ_RX_DONE_MASK)
      REG_RX_NB_BYTES n) REG_FIFO_RX_CURRENT_ADDR 0 }

/-- Scenario: a packet of three bytes begun and written on the zeroed
register-file chip. -/
def st_written : St Chip :=
  (lora_write regfile (lora_begin_packet regfile st0 false).2 [0x48, 0x69, 0x21] 3).2

/-- The zeroed driver over a register file that announces a received packet
of 128 bytes (REG_RX_NB_BYTES = 128), the cursor at 0. -/
def st_rx128 : St Chip :=
  { st0 with chip := { chip0 with regs := setAt chip0.regs REG_RX_NB_BYTES 128 } }

/-- The zeroed driver over a register file whose mode register holds
RX-continuous (0x85), no IRQ flag set. -/
def st_rxcont : St Chip :=
  { st0 with chip := { chip0 with regs := setAt chip0.regs REG_OP_MODE 0x85 } }

/-- The zeroed driver over a register file whose IRQ flags show receive-done
(0x40) without CRC error. -/
def st_rxdone : St Chip :=
  { st0 with chip := { chip0 with regs := setAt chip0.regs REG_IRQ_FLAGS 0x40 } }

/-- The zeroed driver over a register file whose RSSI register holds 200. -/
def st_rssi : St Chip :=
  { st0 with chip := { chip0 with regs := setAt chip0.regs REG_PKT_RSSI_VALUE 200 } }

/-- The six defined mode codes of `lora.h`. -/
def mode_codes : List Nat :=
  [ MODE_SLEEP, MODE_STDBY, MODE_TX, MODE_RX_CONTINUOUS, MODE_RX_SINGLE, MODE_CAD]

/-- A mode-register value of the form long-range flag combined with one
defined mode code. -/
def is_mode_value (v : Nat) : Bool :=
  mode_codes.any (fun m => v == (MODE_LONG_RANGE_MODE ||| m))

/-- The writes `t` has issued on top of those of `s` exist and every one of
them that goes to REG_OP_MODE carries a defined mode value. -/
def mode_writes_ok (s t : St σ) : Prop :=
  ∃ tail, t.writes = s.writes ++ tail ∧
    ∀ x ∈ tail, x.1 = REG_OP_MODE → is_mode_value x.2 = true

/-- A property `I` of the chip state that the device keeps across the reset
pulse and across every frame other than a write of an undefined mode value to
REG_OP_MODE. -/
structure Keeps (d : Device σ) (I : σ → Prop) : Prop where
  frame : ∀ c a v, I c →
    (a &&& 0x80 ≠ 0 → a &&& 0x7f = REG_OP_MODE → is_mode_value v = true) → I (d.xfer c a v).2
  reset : ∀ c, I c → I (d.reset c)

/-- One or more driver steps from `s` to `t`: the writes to REG_OP_MODE are
defined mode values and the chip property is kept. -/
def mode_step (I : σ → Prop) (s t : St σ) : Prop :=
  mode_writes_ok s t ∧ (I s.chip → I t.chip)

/-- The enumerated bandwidth in hertz of a bandwidth index (`0` for an index
that is not in `0..9`), read from the table `bw_threshold`. -/
def bw_hz (index : Nat) : Nat := bw_threshold.getD index 0

/-- The low-data-rate condition as the specification words it: the integer
quotient of `1000 * 2^SF` by `BW_Hz div 1000` exceeds 16. -/
def ldo_condition (sf bw : Nat) : Bool := decide ((1000 * 2 ^ sf) / (bw / 1000) > 16)

/-- The signed value of a 20-bit word in two's complement. -/
def twos_complement20 (w : Nat) : Int :=
  if w % 1048576 < 524288 then (w % 1048576 : Nat) else ((w % 1048576 : Nat) : Int) - 1048576

/-- The 5-bit trim code `lora_set_ocp` programs for a requested current: the
low five bits of the byte it writes to REG_OCP, on the zeroed register-file
chip (the call reads nothing, so the prior state plays no part). -/
def ocp_trim_code (current : Nat) : Option Nat :=
  (lora_set_ocp regfile st0 current).writes.getLast?.map (fun w => w.2 &&& 0x1F)

/-- A chip that also records every SPI frame it is sent, in order: the address
byte (bit 7 set for a write, clear for a read) and the data byte. -/
def traced (d : Device σ) : Device (σ × List (Nat × Nat)) where
  xfer := fun c address data =>
    ((d.xfer c.1 address data).1, ((d.xfer c.1 address data).2, c.2 ++ [(address, data)]))
  reset := fun c => (d.reset c.1, c.2)

/-- The chip state after the frames `frames`, sent in order to the chip in
state `c`. -/
def replay (d : Device σ) (c : σ) (frames : List (Nat × Nat)) : σ :=
  frames.foldl (fun c f => (d.xfer c f.1 f.2).2) c

/-- The zeroed driver over a traced register file in Standby (0x81), no IRQ
flag set, no frame recorded. -/
def st_traced_stdby : St (Chip × List (Nat × Nat)) :=
  { ctx := ctx0, chip := ({ chip0 with regs := setAt chip0.regs REG_OP_MODE 0x81 }, []),
    writes := [] }

/-- The zeroed driver over a traced register file in RX-single (0x86), no IRQ
flag set, no frame recorded. -/
def st_traced_rx : St (Chip × List (Nat × Nat)) :=
  { ctx := ctx0, chip := ({ chip0 with regs := setAt chip0.regs REG_OP_MODE 0x86 }, []),
    writes := [] }

/-- A standard output that takes every character: the characters written so
far, in order. -/
def console : Stdout (List Nat) where
  putchar := fun o c => some (o ++ [c])

/-- The print context after `print_init` on an empty console. -/
def pctx0 : PrintCtx (List Nat) := { write_error := 0, out := [] }

/-- The character of a digit value: `0-9`, then `A-Z`. -/
def digit_char (d : Nat) : Nat := if d < 10 then 48 + d else 65 + (d - 10)

/-- The digit value of a character `0-9` or `A-Z`. -/
def digit_value (c : Nat) : Nat := if c < 58 then c - 48 else c - 65 + 10

/-- The positional base-`b` numeral of `n`, most significant digit first, with
no leading zero; the single character `0` for zero. -/
def numeral (b n : Nat) : List Nat :=
  if n = 0 then [48] else (Nat.digits b n).reverse.map digit_char

/-- A string of digit characters read as a base-`b` numeral, most significant
digit first. -/
def read_numeral (b : Nat) (s : List Nat) : Nat :=
  s.foldl (fun acc c => acc * b + digit_value c) 0

/-- The `k` lowest base-`b` digits of `r`, least significant first, padded
with zeros. -/
def low_digits (b : Nat) : Nat → Nat → List Nat
  | 0, _ => []
  | k + 1, r => r % b :: low_digits b k (r / b)

/-! ## Register access lemmas -/

theorem addr_bits : ∀ a < 128, ((a ||| 0x80) % 256) &&& 0x80 ≠ 0 ∧
    ((a ||| 0x80) % 256) &&& 0x7f = a ∧ (a &&& 0x7f) &&& 0x80 = 0 ∧ a &&& 0x7f = a := by
  decide

theorem write_register_writes (d : Device σ) (s : St σ) (a v : Nat) (h : a < 128) :
    (write_register d s a v).writes = s.writes ++ [(a, v % 256)] := by
  obtain ⟨h1, h2, -, -⟩ := addr_bits a h
  simp [write_register, lora_single_transfer, h1, h2]

theorem write_register_ctx (d : Device σ) (s : St σ) (a v : Nat) :
    (write_register d s a v).ctx = s.ctx := by
  unfold write_register lora_single_transfer
  split <;> rfl

theorem write_register_chip (d : Device σ) (s : St σ) (a v : Nat) (h : a < 128) :
    (write_register d s a v).chip = (d.xfer s.chip ((a ||| 0x80) % 256) (v % 256)).2 := by
  obtain ⟨h1, -, -, -⟩ := addr_bits a h
  simp [write_register, lora_single_transfer, h1]

theorem read_register_writes (d : Device σ) (s : St σ) (a : Nat) (h : a < 128) :
    (read_register d s a).2.writes = s.writes := by
  obtain ⟨-, -, h3, -⟩ := addr_bits a h
  simp [read_register, lora_single_transfer, h3]

theorem read_register_ctx (d : Device σ) (s : St σ) (a : Nat) :
    (read_register d s a).2.ctx = s.ctx := by
  unfold read_register lora_single_transfer
  split <;> rfl

theorem read_register_lt (d : Device σ) (s : St σ) (a : Nat) :
    (read_register d s a).1 < 256 := by
  unfold read_register lora_single_transfer
  split <;> exact Nat.mod_lt _ (by decide)

theorem read_register_chip (d : Device σ) (s : St σ) (a : Nat) (h : a < 128) :
    (read_register d s a).2.chip = (d.xfer s.chip a 0).2 := by
  obtain ⟨-, -, h3, h4⟩ := addr_bits a h
  have h5 : a &&& 128 = 0 := by rw [h4] at h3; exact h3
  simp [read_register, lora_single_transfer, h4, h5]

theorem read_register_val (d : Device σ) (s : St σ) (a : Nat) (h : a < 128) :
    (read_register d s a).1 = (d.xfer s.chip a 0).1 % 256 := by
  obtain ⟨-, -, h3, h4⟩ := addr_bits a h
  have h5 : a &&& 128 = 0 := by rw [h4] at h3; exact h3
  simp [read_register, lora_single_transfer, h4, h5]

/-! ## Frequency -/

theorem frf_bytes (frf : Nat) :
    (frf >>> 16) % 256 * 2 ^ 16 + (frf >>> 8) % 256 * 2 ^ 8 + (frf >>> 0) % 256
      = frf % 2 ^ 24 := by
  simp only [Nat.shiftRight_eq_div_pow]
  omega

theorem frf_word (f : Nat) (h : f < 2 ^ 32) :
    ((f <<< 19) % 2 ^ 64) / 32000000 = f * 2 ^ 19 / 32000000 := by
  rw [Nat.shiftLeft_eq, Nat.mod_eq_of_lt]
  omega

/-- C1 (as amended): for every 32-bit frequency `f`, `lora_set_frequency`
writes exactly three bytes, to REG_FRF_MSB, REG_FRF_MID and REG_FRF_LSB, and
they reconstruct `floor(f * 2^19 / 32000000)` modulo `2^24`; the
reconstruction is exact whenever `f < 1024000000`. -/
theorem set_frequency_frf (d : Device σ) (s : St σ) (f : Nat) (hf : f < 2 ^ 32) :
    ∃ msb mid lsb, msb < 256 ∧ mid < 256 ∧ lsb < 256 ∧
      (lora_set_frequency d s f).writes
        = s.writes ++ [(REG_FRF_MSB, msb), (REG_FRF_MID, mid), (REG_FRF_LSB, lsb)] ∧
      msb * 2 ^ 16 + mid * 2 ^ 8 + lsb = (f * 2 ^ 19 / 32000000) % 2 ^ 24 ∧
      (f < 1024000000 → msb * 2 ^ 16 + mid * 2 ^ 8 + lsb = f * 2 ^ 19 / 32000000) := by
  have hb := frf_bytes (f * 2 ^ 19 / 32000000)
  refine ⟨((f * 2 ^ 19 / 32000000) >>> 16) % 256, ((f * 2 ^ 19 / 32000000) >>> 8) % 256,
    ((f * 2 ^ 19 / 32000000) >>> 0) % 256, Nat.mod_lt _ (by decide), Nat.mod_lt _ (by decide),
    Nat.mod_lt _ (by decide), ?_, hb, ?_⟩
  · simp only [lora_set_frequency, frf_word f hf]
    rw [write_register_writes _ _ _ _ (by decide), write_register_writes _ _ _ _ (by decide),
      write_register_writes _ _ _ _ (by decide)]
    simp
  · intro hlt
    rw [hb]
    apply Nat.mod_eq_of_lt
    omega

/-- Witness of `set_frequency_frf` at 915 MHz on the zeroed register-file chip. -/
theorem set_frequency_frf_witness :
    ∃ msb mid lsb, msb < 256 ∧ mid < 256 ∧ lsb < 256 ∧
      (lora_set_frequency regfile st0 915000000).writes
        = st0.writes ++ [(REG_FRF_MSB, msb), (REG_FRF_MID, mid), (REG_FRF_LSB, lsb)] ∧
      msb * 2 ^ 16 + mid * 2 ^ 8 + lsb = (915000000 * 2 ^ 19 / 32000000) % 2 ^ 24 ∧
      (915000000 < 1024000000 →
        msb * 2 ^ 16 + mid * 2 ^ 8 + lsb = 915000000 * 2 ^ 19 / 32000000) :=
  set_frequency_frf regfile st0 915000000 (by decide)

/-- C1 as stated fails: at `f = 1024000000`, a 32-bit value, the word
`floor(f * 2^19 / 32000000)` is `2^24`, the three bytes written are all
zero, and they reconstruct `0`. -/
theorem set_frequency_frf_counterexample :
    (1024000000 : Nat) < 2 ^ 32 ∧
    (lora_set_frequency regfile st0 1024000000).writes
      = [(REG_FRF_MSB, 0), (REG_FRF_MID, 0), (REG_FRF_LSB, 0)] ∧
    0 * 2 ^ 16 + 0 * 2 ^ 8 + 0 ≠ 1024000000 * 2 ^ 19 / 32000000 := by
  refine ⟨by decide, ?_, by decide⟩
  decide

/-! ## Spreading factor and bandwidth -/

/-- The two outcomes of `set_ldo_flag`: it stops at the division without
having written, or it returns after one write to REG_MODEM_CONFIG_3. -/
theorem set_ldo_flag_cases (d : Device σ) (s : St σ) :
    (∃ t, set_ldo_flag d s = Except.error t ∧ t.writes = s.writes ∧ t.ctx = s.ctx) ∨
    (∃ t w, set_ldo_flag d s = Except.ok t ∧
      t.writes = s.writes ++ [(REG_MODEM_CONFIG_3, w)] ∧ w < 256 ∧ t.ctx = s.ctx) := by
  unfold set_ldo_flag
  simp only [get_signal_bandwidth, get_spreading_factor]
  split
  · left
    refine ⟨_, rfl, ?_, ?_⟩
    · rw [read_register_writes _ _ _ (by decide), read_register_writes _ _ _ (by decide)]
    · rw [read_register_ctx, read_register_ctx]
  · right
    exact ⟨_, _, rfl,
      by rw [write_register_writes _ _ _ _ (by decide), read_register_writes _ _ _ (by decide),
        read_register_writes _ _ _ (by decide), read_register_writes _ _ _ (by decide)],
      Nat.mod_lt _ (by decide),
      by rw [write_register_ctx, read_register_ctx, read_register_ctx, read_register_ctx]⟩

/-- Whatever it reads, `set_ldo_flag` writes at most REG_MODEM_CONFIG_3. -/
theorem set_ldo_flag_writes (d : Device σ) (s : St σ) :
    ∃ tail, (reached (set_ldo_flag d s)).writes = s.writes ++ tail ∧
      ∀ x ∈ tail, x.1 = REG_MODEM_CONFIG_3 := by
  rcases set_ldo_flag_cases d s with ⟨t, ht, hw, -⟩ | ⟨t, w, ht, hw, -, -⟩
  · exact ⟨[], by simp [ht, reached, hw], by simp⟩
  · exact ⟨[(REG_MODEM_CONFIG_3, w)], by simp [ht, reached, hw], by simp⟩

set_option maxRecDepth 100000 in
theorem nibble_table : ∀ l < 16, ∀ x < 16, (l ||| ((x <<< 4) &&& 0xf0)) / 16 = x ∧
    (l ||| ((x <<< 4) &&& 0xf0)) < 256 ∧ (l ||| (x <<< 4)) / 16 = x ∧
    (l ||| (x <<< 4)) < 256 := by
  decide

theorem sf_nibble (v x : Nat) (hx : x < 16) :
    ((v &&& 0x0f) ||| ((x <<< 4) &&& 0xf0)) / 16 = x ∧
    ((v &&& 0x0f) ||| ((x <<< 4) &&& 0xf0)) < 256 := by
  have h : v &&& 0x0f < 16 := Nat.lt_succ_of_le Nat.and_le_right
  have := nibble_table _ h x hx
  exact ⟨this.1, this.2.1⟩

theorem bw_nibble (v x : Nat) (hx : x < 16) :
    ((v &&& 0x0f) ||| (x <<< 4)) / 16 = x ∧ ((v &&& 0x0f) ||| (x <<< 4)) < 256 := by
  have h : v &&& 0x0f < 16 := Nat.lt_succ_of_le Nat.and_le_right
  have := nibble_table _ h x hx
  exact ⟨this.2.2.1, this.2.2.2⟩

/-- C2: for every requested spreading factor `sf`, `lora_set_spreading_factor`
first writes detection-optimize and detection-threshold (0xC5 and 0x0C when
`clamp(sf, 6, 12)` is 6, 0xC3 and 0x0A otherwise), then writes
REG_MODEM_CONFIG_2 with a byte whose upper nibble is `clamp(sf, 6, 12)`;
the only writes after that go to REG_MODEM_CONFIG_3 (the low-data-rate
recompute). -/
theorem set_spreading_factor_writes (d : Device σ) (s : St σ) (sf : Int) :
    ∃ v tail, v < 256 ∧ ((v / 16 : Nat) : Int) = max 6 (min sf 12) ∧
      (reached (lora_set_spreading_factor d s sf)).writes
        = s.writes ++
          [(REG_DETECTION_OPTIMIZE, if max 6 (min sf 12) = 6 then 0xc5 else 0xc3),
           (REG_DETECTION_THRESHOLD, if max 6 (min sf 12) = 6 then 0x0c else 0x0a),
           (REG_MODEM_CONFIG_2, v)] ++ tail ∧
      ∀ x ∈ tail, x.1 = REG_MODEM_CONFIG_3 := by
  have hc : (if sf < 6 then (6 : Int) else if sf > 12 then 12 else sf) = max 6 (min sf 12) := by
    split_ifs <;> omega
  have hr : 6 ≤ max 6 (min sf 12) ∧ max 6 (min sf 12) ≤ 12 := by omega
  generalize max 6 (min sf 12) = c at hc hr
  unfold lora_set_spreading_factor
  simp only [hc]
  obtain ⟨tail, ht, htail⟩ := set_ldo_flag_writes d
    (write_register d
      (read_register d
        (if c = 6 then
          write_register d (write_register d s REG_DETECTION_OPTIMIZE 0xc5)
            REG_DETECTION_THRESHOLD 0x0c
        else
          write_register d (write_register d s REG_DETECTION_OPTIMIZE 0xc3)
            REG_DETECTION_THRESHOLD 0x0a) REG_MODEM_CONFIG_2).2
      REG_MODEM_CONFIG_2
      (((read_register d
        (if c = 6 then
          write_register d (write_register d s REG_DETECTION_OPTIMIZE 0xc5)
            REG_DETECTION_THRESHOLD 0x0c
        else
          write_register d (write_register d s REG_DETECTION_OPTIMIZE 0xc3)
            REG_DETECTION_THRESHOLD 0x0a) REG_MODEM_CONFIG_2).1 &&& 0x0f) |||
        ((c.toNat <<< 4) &&& 0xf0)))
  have hn := sf_nibble (read_register d
        (if c = 6 then
          write_register d (write_register d s REG_DETECTION_OPTIMIZE 0xc5)
            REG_DETECTION_THRESHOLD 0x0c
        else
          write_register d (write_register d s REG_DETECTION_OPTIMIZE 0xc3)
            REG_DETECTION_THRESHOLD 0x0a) REG_MODEM_CONFIG_2).1 c.toNat (by omega)
  refine ⟨_, tail, hn.2, ?_, ?_, htail⟩
  · rw [hn.1]; omega
  · rw [ht, write_register_writes _ _ _ _ (by decide), read_register_writes _ _ _ (by decide),
      Nat.mod_eq_of_lt hn.2]
    split_ifs <;>
      simp [write_register_writes _ _ _ _ (show REG_DETECTION_OPTIMIZE < 128 by decide),
        write_register_writes _ _ _ _ (show REG_DETECTION_THRESHOLD < 128 by decide)]

/-- The index written by `lora_set_signal_bandwidth` is the least one whose
threshold covers the request, and 9 above 250 kHz. -/
theorem bw_index_spec (sbw : Nat) :
    bw_index sbw < 10 ∧
    (∀ j, j < bw_index sbw → bw_threshold.getD j 0 < sbw) ∧
    (sbw ≤ 500000 → sbw ≤ bw_threshold.getD (bw_index sbw) 0) ∧
    (250000 < sbw → bw_index sbw = 9) := by
  unfold bw_index
  split_ifs
  all_goals refine ⟨by decide, ?_, ?_, ?_⟩
  all_goals first
    | (intro j hj
       interval_cases j <;>
         simp only [bw_threshold, List.getD_cons_zero, List.getD_cons_succ] <;> omega)
    | (intro h
       simp only [bw_threshold, List.getD_cons_zero, List.getD_cons_succ] <;> omega)
    | (intro h; omega)

/-- C3: for every bandwidth request `sbw`, `lora_set_signal_bandwidth`
writes REG_MODEM_CONFIG_1 with a byte whose upper nibble is the smallest
index `i` in `0..9` with `sbw <= threshold[i]`, and index 9 for every request
above 250000 (also above 500000); the only writes after that go to
REG_MODEM_CONFIG_3. -/
theorem set_signal_bandwidth_index (d : Device σ) (s : St σ) (sbw : Nat) :
    ∃ v tail, v < 256 ∧
      (reached (lora_set_signal_bandwidth d s sbw)).writes
        = s.writes ++ [(REG_MODEM_CONFIG_1, v)] ++ tail ∧
      (∀ x ∈ tail, x.1 = REG_MODEM_CONFIG_3) ∧
      v / 16 < 10 ∧
      (∀ j, j < v / 16 → bw_threshold.getD j 0 < sbw) ∧
      (sbw ≤ 500000 → sbw ≤ bw_threshold.getD (v / 16) 0) ∧
      (250000 < sbw → v / 16 = 9) := by
  unfold lora_set_signal_bandwidth
  obtain ⟨h10, hspec⟩ := bw_index_spec sbw
  have hn := bw_nibble (read_register d s REG_MODEM_CONFIG_1).1 (bw_index sbw) (by omega)
  obtain ⟨tail, ht, htail⟩ := set_ldo_flag_writes d
    (write_register d (read_register d s REG_MODEM_CONFIG_1).2 REG_MODEM_CONFIG_1
      (((read_register d s REG_MODEM_CONFIG_1).1 &&& 0x0f) ||| (bw_index sbw <<< 4)))
  refine ⟨_, tail, hn.2, ?_, htail, ?_⟩
  · simp only []
    rw [ht, write_register_writes _ _ _ _ (by decide), read_register_writes _ _ _ (by decide),
      Nat.mod_eq_of_lt hn.2]
  · rw [hn.1]
    exact ⟨h10, hspec⟩

/-! ## Transmit power -/

theorem lora_set_ocp_writes_140 (d : Device σ) (s : St σ) :
    (lora_set_ocp d s 140).writes = s.writes ++ [(REG_OCP, 0x31)] := by
  unfold lora_set_ocp
  rw [write_register_writes _ _ _ _ (by decide)]
  rfl

theorem lora_set_ocp_writes_100 (d : Device σ) (s : St σ) :
    (lora_set_ocp d s 100).writes = s.writes ++ [(REG_OCP, 0x2B)] := by
  unfold lora_set_ocp
  rw [write_register_writes _ _ _ _ (by decide)]
  rfl

theorem pa_nibble : ∀ x < 16, (0x70 ||| x) % 256 = 0x70 ||| x ∧ (0x70 ||| x) % 16 = x ∧
    (0x80 ||| x) % 256 = 0x80 ||| x ∧ (0x80 ||| x) % 16 = x := by
  decide

/-- C4: for every integer `level`, `lora_set_tx_power` on the RFO pin writes
only REG_PA_CONFIG = 0x70 | clamp(level, 0, 14) (neither REG_PA_DAC nor
REG_OCP); on the PA_BOOST pin with `level > 17` it writes REG_PA_DAC = 0x87,
REG_OCP = 0x31 (140 mA) and REG_PA_CONFIG = 0x80 | (min(level, 20) - 5); with
`level <= 17` it writes REG_PA_DAC = 0x84, REG_OCP = 0x2B (100 mA) and
REG_PA_CONFIG = 0x80 | (max(level, 2) - 2).  In each case the low nibble of
the REG_PA_CONFIG byte is the encoded level, a value in `0..15`. -/
theorem set_tx_power_encoding (d : Device σ) (s : St σ) (level : Int) :
    ((lora_set_tx_power d s level PA_OUTPUT_RFO_PIN).writes
        = s.writes ++ [(REG_PA_CONFIG, 0x70 ||| (max 0 (min level 14)).toNat)] ∧
      (0x70 ||| (max 0 (min level 14)).toNat) % 16 = (max 0 (min level 14)).toNat ∧
      (max 0 (min level 14)).toNat ≤ 14) ∧
    (17 < level →
      (lora_set_tx_power d s level PA_OUTPUT_PA_BOOST_PIN).writes
        = s.writes ++ [(REG_PA_DAC, 0x87), (REG_OCP, 0x31),
            (REG_PA_CONFIG, 0x80 ||| (min level 20 - 5).toNat)] ∧
      (0x80 ||| (min level 20 - 5).toNat) % 16 = (min level 20 - 5).toNat ∧
      (min level 20 - 5).toNat ≤ 15) ∧
    (level ≤ 17 →
      (lora_set_tx_power d s level PA_OUTPUT_PA_BOOST_PIN).writes
        = s.writes ++ [(REG_PA_DAC, 0x84), (REG_OCP, 0x2B),
            (REG_PA_CONFIG, 0x80 ||| (max level 2 - 2).toNat)] ∧
      (0x80 ||| (max level 2 - 2).toNat) % 16 = (max level 2 - 2).toNat ∧
      (max level 2 - 2).toNat ≤ 15) := by
  refine ⟨?_, ?_, ?_⟩
  · have hc : (if level < 0 then (0 : Int) else if level > 14 then 14 else level)
        = max 0 (min level 14) := by
      split_ifs <;> omega
    have hb : (max 0 (min level 14)).toNat ≤ 14 := by omega
    have hn := pa_nibble _ (show (max 0 (min level 14)).toNat < 16 by omega)
    refine ⟨?_, hn.2.1, hb⟩
    simp only [lora_set_tx_power, if_true, hc]
    rw [write_register_writes _ _ _ _ (by decide), hn.1]
  · intro h
    have hc : (if level > 20 then (20 : Int) else level) - 3 - 2 = min level 20 - 5 := by
      split_ifs <;> omega
    have hb : (min level 20 - 5).toNat ≤ 15 := by omega
    have hn := pa_nibble _ (show (min level 20 - 5).toNat < 16 by omega)
    refine ⟨?_, hn.2.2.2, hb⟩
    have hp : ¬ (PA_OUTPUT_RFO_PIN = PA_OUTPUT_PA_BOOST_PIN) := by decide
    simp only [lora_set_tx_power, if_neg hp, if_pos h, hc]
    rw [write_register_writes _ _ _ _ (by decide), lora_set_ocp_writes_140,
      write_register_writes _ _ _ _ (by decide)]
    simp [hn.2.2.1, PA_BOOST]
  · intro h
    have hc : (if level < 2 then (2 : Int) else level) - 2 = max level 2 - 2 := by
      split_ifs <;> omega
    have hb : (max level 2 - 2).toNat ≤ 15 := by omega
    have hn := pa_nibble _ (show (max level 2 - 2).toNat < 16 by omega)
    refine ⟨?_, hn.2.2.2, hb⟩
    have hp : ¬ (PA_OUTPUT_RFO_PIN = PA_OUTPUT_PA_BOOST_PIN) := by decide
    have h17 : ¬ (level > 17) := by omega
    simp only [lora_set_tx_power, if_neg hp, if_neg h17, hc]
    rw [write_register_writes _ _ _ _ (by decide), lora_set_ocp_writes_100,
      write_register_writes _ _ _ _ (by decide)]
    simp [hn.2.2.1, PA_BOOST]

/-- Witness of `set_tx_power_encoding` at level 25: clamped to 14 on the RFO
pin, and to 20 (nibble 15 with the high-power sequence) on the PA_BOOST pin. -/
theorem set_tx_power_encoding_witness :
    (lora_set_tx_power regfile st0 25 PA_OUTPUT_RFO_PIN).writes = [(REG_PA_CONFIG, 0x7e)] ∧
    (lora_set_tx_power regfile st0 25 PA_OUTPUT_PA_BOOST_PIN).writes
      = [(REG_PA_DAC, 0x87), (REG_OCP, 0x31), (REG_PA_CONFIG, 0x8f)] :=
  ⟨(set_tx_power_encoding regfile st0 25).1.1,
   ((set_tx_power_encoding regfile st0 25).2.1 (by decide)).1⟩

/-! ## Low-data-rate optimisation -/

/-- C5 (the code at the failing input): with spreading factor 7 and
bandwidth 125 kHz set in either order on the zeroed register-file chip, the
low-data-rate bit of REG_MODEM_CONFIG_3 is set, although the symbol lasts
1.024 ms, not more than 16 ms; the bit is in fact set for every spreading
factor in `6..12` with every one of the ten bandwidths. -/
theorem ldo_flag_set_at_sf7_bw125k :
    ldo_bit (set_sf_then_bw regfile st0 7 125000) = some 0x08 ∧
    ldo_bit (set_bw_then_sf regfile st0 125000 7) = some 0x08 ∧
    ¬ (1000 * 2 ^ 7 > 16 * 125000) ∧
    (∀ sf ∈ [6, 7, 8, 9, 10, 11, 12], ∀ bw ∈ bw_threshold,
      ldo_bit (set_sf_then_bw regfile st0 (Int.ofNat sf) bw) = some 0x08 ∧
      ldo_bit (set_bw_then_sf regfile st0 bw (Int.ofNat sf)) = some 0x08) := by
  decide

/-! ## Initialisation -/

theorem regfile_read (s : St Chip) (a : Nat) (h : a < 128) (h0 : a ≠ REG_FIFO) :
    read_register regfile s a = (s.chip.regs a % 256, s) := by
  obtain ⟨-, -, h3, h4⟩ := addr_bits a h
  have h5 : a &&& 128 = 0 := by rw [h4] at h3; exact h3
  simp [read_register, lora_single_transfer, regfile, Chip.xfer, h4, h5, h0]

theorem regfile_write (s : St Chip) (a v : Nat) (h : a < 128) (h0 : a ≠ REG_FIFO) :
    write_register regfile s a v
      = { ctx := s.ctx,
          chip := { regs := setAt s.chip.regs a (v % 256), fifo := s.chip.fifo },
          writes := s.writes ++ [(a, v % 256)] } := by
  obtain ⟨h1, h2, -, -⟩ := addr_bits a h
  simp [write_register, lora_single_transfer, regfile, Chip.xfer, h1, h2, h0]

theorem regfile_read_fifo (s : St Chip) :
    read_register regfile s REG_FIFO
      = (s.chip.fifo (s.chip.regs REG_FIFO_ADDR_PTR) % 256,
         { ctx := s.ctx,
           chip := { regs := setAt s.chip.regs REG_FIFO_ADDR_PTR
                      ((s.chip.regs REG_FIFO_ADDR_PTR + 1) % 256),
                     fifo := s.chip.fifo },
           writes := s.writes }) := by
  simp [read_register, lora_single_transfer, regfile, Chip.xfer, REG_FIFO]

theorem regfile_write_fifo (s : St Chip) (v : Nat) :
    write_register regfile s REG_FIFO v
      = { ctx := s.ctx,
          chip := { regs := setAt s.chip.regs REG_FIFO_ADDR_PTR
                      ((s.chip.regs REG_FIFO_ADDR_PTR + 1) % 256),
                    fifo := setAt s.chip.fifo (s.chip.regs REG_FIFO_ADDR_PTR) (v % 256) },
          writes := s.writes ++ [(REG_FIFO, v % 256)] } := by
  have e : (128 : Nat) &&& 127 = 0 := by decide
  simp [write_register, lora_single_transfer, regfile, Chip.xfer, REG_FIFO, e]

theorem setAt_same (m : Nat → Nat) (a v : Nat) : setAt m a v a = v := by
  simp [setAt]

theorem setAt_other (m : Nat → Nat) (a v x : Nat) (h : x ≠ a) : setAt m a v x = m x := by
  simp [setAt, h]

/-! ## Starting a packet -/

theorem tx_mode_bits : (0x83 : Nat) &&& MODE_TX = MODE_TX := by decide

/-- C7: whenever the byte read from REG_OP_MODE is Transmit (0x83),
`lora_begin_packet` returns false, issues no register write and leaves the
driver context as it was; the chip has seen the one read frame of the mode
register only.  In particular, on the register-file chip, directly after
`lora_end_packet` with `async = true` (the mode register then still holds
0x83) `lora_begin_packet` returns false and the whole state, register file
and context, is exactly the state before the call. -/
theorem begin_packet_while_transmitting :
    (∀ (τ : Type) (d : Device τ) (s : St τ) (implicit_header : Bool),
      (d.xfer s.chip REG_OP_MODE 0).1 % 256 = 0x83 →
      (lora_begin_packet d s implicit_header).1 = false ∧
      (lora_begin_packet d s implicit_header).2.writes = s.writes ∧
      (lora_begin_packet d s implicit_header).2.ctx = s.ctx ∧
      (lora_begin_packet d s implicit_header).2.chip = (d.xfer s.chip REG_OP_MODE 0).2) ∧
    (∀ (s : St Chip) (fuel : Nat) (implicit_header : Bool),
      ∃ t, lora_end_packet regfile fuel s true = some (true, t) ∧
        t.chip.regs REG_OP_MODE = 0x83 ∧
        lora_begin_packet regfile t implicit_header = (false, t)) := by
  refine ⟨?_, ?_⟩
  · intro τ d s ih h
    have hv := read_register_val d s REG_OP_MODE (by decide)
    rw [h] at hv
    have ht : is_transmitting d s = (true, (read_register d s REG_OP_MODE).2) := by
      unfold is_transmitting
      simp only [hv, tx_mode_bits, if_true]
    unfold lora_begin_packet
    simp only [ht, if_true]
    exact ⟨trivial, read_register_writes _ _ _ (by decide), read_register_ctx _ _ _,
      read_register_chip _ _ _ (by decide)⟩
  · intro s fuel ih
    refine ⟨write_register regfile
      (if (true && decide (s.ctx.dio0_pin > 0)) = true then
        write_register regfile s REG_DIO_MAPPING_1 0x40 else s)
      REG_OP_MODE (MODE_LONG_RANGE_MODE ||| MODE_TX), ?_, ?_, ?_⟩
    · unfold lora_end_packet
      simp only [Bool.not_true, Bool.false_eq_true, if_false]
    · split_ifs <;>
        simp [regfile_write, REG_OP_MODE, REG_DIO_MAPPING_1, REG_FIFO, setAt,
          MODE_TX, MODE_LONG_RANGE_MODE]
    · have hm : ∀ t : St Chip, t.chip.regs REG_OP_MODE = 0x83 →
          lora_begin_packet regfile t ih = (false, t) := by
        intro t ht
        unfold lora_begin_packet is_transmitting
        rw [regfile_read _ _ (by decide) (by decide), ht]
        simp [tx_mode_bits]
      apply hm
      split_ifs <;>
        simp [regfile_write, REG_OP_MODE, REG_DIO_MAPPING_1, REG_FIFO, setAt,
          MODE_TX, MODE_LONG_RANGE_MODE]

/-- Witness of `begin_packet_while_transmitting`: the register file whose
mode register holds 0x83. -/
theorem begin_packet_while_transmitting_witness :
    (lora_begin_packet regfile st_tx false).1 = false ∧
    (lora_begin_packet regfile st_tx false).2.writes = st_tx.writes ∧
    (lora_begin_packet regfile st_tx false).2.ctx = st_tx.ctx ∧
    (lora_begin_packet regfile st_tx false).2.chip = (regfile.xfer st_tx.chip REG_OP_MODE 0).2 :=
  begin_packet_while_transmitting.1 Chip regfile st_tx false (by decide)

/-- C8 as stated fails: with the mode register at CAD (0x87), a defined mode
other than Transmit, `lora_begin_packet` returns false and writes nothing,
because `0x87 & MODE_TX` equals `MODE_TX`. -/
theorem begin_packet_cad_counterexample :
    st_cad.chip.regs REG_OP_MODE = 0x87 ∧
    (lora_begin_packet regfile st_cad false).1 = false ∧
    (lora_begin_packet regfile st_cad false).2.writes = [] := by
  decide

theorem ready_mode_bits :
    (0x80 : Nat) % 256 &&& MODE_TX ≠ MODE_TX ∧ (0x81 : Nat) % 256 &&& MODE_TX ≠ MODE_TX ∧
    (0x85 : Nat) % 256 &&& MODE_TX ≠ MODE_TX ∧ (0x86 : Nat) % 256 &&& MODE_TX ≠ MODE_TX := by
  decide

set_option maxRecDepth 100000 in
theorem header_bit : ∀ v < 256, (v ||| 0x01) % 256 = v ||| 0x01 ∧ (v ||| 0x01) % 2 = 1 ∧
    (v &&& 0xfe) % 256 = v &&& 0xfe ∧ (v &&& 0xfe) % 2 = 0 := by
  decide

/-- On the register-file chip, `lora_begin_packet` from a mode register
without both transmit bits set. -/
theorem begin_packet_regfile (s : St Chip) (implicit_header : Bool)
    (hmode : s.chip.regs REG_OP_MODE % 256 &&& MODE_TX ≠ MODE_TX) :
    (lora_begin_packet regfile s implicit_header).1 = true ∧
    (lora_begin_packet regfile s implicit_header).2.writes
      = s.writes ++
        (if s.chip.regs REG_IRQ_FLAGS % 256 &&& IRQ_TX_DONE_MASK ≠ 0
          then [(REG_IRQ_FLAGS, 0x08)] else []) ++
        [(REG_OP_MODE, 0x81),
         (REG_MODEM_CONFIG_1,
           if implicit_header then s.chip.regs REG_MODEM_CONFIG_1 % 256 ||| 0x01
           else s.chip.regs REG_MODEM_CONFIG_1 % 256 &&& 0xfe),
         (REG_FIFO_ADDR_PTR, 0), (REG_PAYLOAD_LENGTH, 0)] ∧
    (lora_begin_packet regfile s implicit_header).2.chip.regs REG_OP_MODE = 0x81 ∧
    (lora_begin_packet regfile s implicit_header).2.chip.regs REG_MODEM_CONFIG_1 % 2
      = (if implicit_header then 1 else 0) ∧
    (lora_begin_packet regfile s implicit_header).2.chip.regs REG_FIFO_ADDR_PTR = 0 ∧
    (lora_begin_packet regfile s implicit_header).2.chip.regs REG_PAYLOAD_LENGTH = 0 := by
  have hh := header_bit (s.chip.regs REG_MODEM_CONFIG_1 % 256) (Nat.mod_lt _ (by decide))
  unfold lora_begin_packet is_transmitting
  rw [regfile_read _ _ (by decide) (by decide)]
  simp only [if_neg hmode]
  rw [regfile_read _ _ (by decide) (by decide)]
  by_cases hq : s.chip.regs REG_IRQ_FLAGS % 256 &&& IRQ_TX_DONE_MASK ≠ 0
  all_goals cases implicit_header
  all_goals simp only [REG_IRQ_FLAGS, IRQ_TX_DONE_MASK, REG_MODEM_CONFIG_1] at hq hh
  all_goals simp [hq, lora_idle, implicit_header_mode, explicit_header_mode, regfile_read,
      regfile_write, setAt, REG_OP_MODE, REG_IRQ_FLAGS, REG_MODEM_CONFIG_1, REG_FIFO_ADDR_PTR,
      REG_PAYLOAD_LENGTH, REG_FIFO, IRQ_TX_DONE_MASK, MODE_LONG_RANGE_MODE, MODE_STDBY,
      hh.1, hh.2.1, hh.2.2.1, hh.2.2.2]

/-- C8 (as amended): on the register-file chip, for every register state
whose operating mode is Sleep (0x80), Standby (0x81), RX-continuous (0x85) or
RX-single (0x86), `lora_begin_packet(implicit_header)` returns true; it first
writes 0x08 to REG_IRQ_FLAGS if and only if a latent transmit-done flag was
set; then it writes REG_OP_MODE = 0x81, REG_MODEM_CONFIG_1 with bit 0 set to
`implicit_header`, REG_FIFO_ADDR_PTR = 0 and REG_PAYLOAD_LENGTH = 0, and
these four registers hold those values afterwards. -/
theorem begin_packet_ready (s : St Chip) (implicit_header : Bool)
    (hm : s.chip.regs REG_OP_MODE = 0x80 ∨ s.chip.regs REG_OP_MODE = 0x81 ∨
      s.chip.regs REG_OP_MODE = 0x85 ∨ s.chip.regs REG_OP_MODE = 0x86) :
    (lora_begin_packet regfile s implicit_header).1 = true ∧
    (lora_begin_packet regfile s implicit_header).2.writes
      = s.writes ++
        (if s.chip.regs REG_IRQ_FLAGS % 256 &&& IRQ_TX_DONE_MASK ≠ 0
          then [(REG_IRQ_FLAGS, 0x08)] else []) ++
        [(REG_OP_MODE, 0x81),
         (REG_MODEM_CONFIG_1,
           if implicit_header then s.chip.regs REG_MODEM_CONFIG_1 % 256 ||| 0x01
           else s.chip.regs REG_MODEM_CONFIG_1 % 256 &&& 0xfe),
         (REG_FIFO_ADDR_PTR, 0), (REG_PAYLOAD_LENGTH, 0)] ∧
    (lora_begin_packet regfile s implicit_header).2.chip.regs REG_OP_MODE = 0x81 ∧
    (lora_begin_packet regfile s implicit_header).2.chip.regs REG_MODEM_CONFIG_1 % 2
      = (if implicit_header then 1 else 0) ∧
    (lora_begin_packet regfile s implicit_header).2.chip.regs REG_FIFO_ADDR_PTR = 0 ∧
    (lora_begin_packet regfile s implicit_header).2.chip.regs REG_PAYLOAD_LENGTH = 0 := by
  have hbits := ready_mode_bits
  apply begin_packet_regfile
  rcases hm with h | h | h | h <;> rw [h]
  · exact hbits.1
  · exact hbits.2.1
  · exact hbits.2.2.1
  · exact hbits.2.2.2

/-- Witness of `begin_packet_ready`: Standby with a latent transmit-done flag. -/
theorem begin_packet_ready_witness :
    (lora_begin_packet regfile st_latent true).1 = true ∧
    (lora_begin_packet regfile st_latent true).2.writes
      = [(REG_IRQ_FLAGS, 0x08), (REG_OP_MODE, 0x81), (REG_MODEM_CONFIG_1, 0x01),
         (REG_FIFO_ADDR_PTR, 0), (REG_PAYLOAD_LENGTH, 0)] :=
  ⟨(begin_packet_ready st_latent true (Or.inr (Or.inl (by decide)))).1,
   (begin_packet_ready st_latent true (Or.inr (Or.inl (by decide)))).2.1⟩

/-! ## Writing the payload -/

/-- The write loop of `lora_write`: one REG_FIFO write per byte, in order. -/
theorem fifo_loop_writes (d : Device σ) (l : List Nat) (s : St σ) :
    (l.foldl (fun t b => write_register d t REG_FIFO b) s).writes
      = s.writes ++ l.map (fun b => (REG_FIFO, b % 256)) ∧
    (l.foldl (fun t b => write_register d t REG_FIFO b) s).ctx = s.ctx := by
  induction l generalizing s with
  | nil => simp
  | cons b l ih =>
    simp only [List.foldl_cons, List.map_cons]
    rw [(ih _).1, (ih _).2, write_register_writes _ _ _ _ (by decide), write_register_ctx]
    simp

theorem map_bytes (l : List Nat) (hb : ∀ b ∈ l, b < 256) :
    l.map (fun b => (REG_FIFO, b % 256)) = l.map (fun b => (REG_FIFO, b)) := by
  apply List.map_congr_left
  intro b hmem
  rw [Nat.mod_eq_of_lt (hb b hmem)]

/-- C9: for every current payload length `L` (the byte read from
REG_PAYLOAD_LENGTH) and every buffer of `n` bytes, `lora_write` returns
`min(n, 255 - L)`, writes exactly that many leading bytes of the buffer to
REG_FIFO in order, and then writes REG_PAYLOAD_LENGTH = L + min(n, 255 - L),
which is at most 255.  The buffer is an object of the 32-bit target, so
`n + 255` fits `size_t`. -/
theorem write_truncates (d : Device σ) (s : St σ) (buffer : List Nat)
    (hb : ∀ b ∈ buffer, b < 256) (hsz : buffer.length + 255 < 2 ^ SIZE_BITS) :
    (lora_write d s buffer buffer.length).1
      = min buffer.length (255 - (d.xfer s.chip REG_PAYLOAD_LENGTH 0).1 % 256) ∧
    (lora_write d s buffer buffer.length).2.writes
      = s.writes ++
        (buffer.take (min buffer.length (255 - (d.xfer s.chip REG_PAYLOAD_LENGTH 0).1 % 256))).map
          (fun b => (REG_FIFO, b)) ++
        [(REG_PAYLOAD_LENGTH, (d.xfer s.chip REG_PAYLOAD_LENGTH 0).1 % 256 +
          min buffer.length (255 - (d.xfer s.chip REG_PAYLOAD_LENGTH 0).1 % 256))] ∧
    (d.xfer s.chip REG_PAYLOAD_LENGTH 0).1 % 256 +
      min buffer.length (255 - (d.xfer s.chip REG_PAYLOAD_LENGTH 0).1 % 256) ≤ 255 ∧
    (lora_write d s buffer buffer.length).2.ctx = s.ctx := by
  have hv := read_register_val d s REG_PAYLOAD_LENGTH (by decide)
  have hL : (d.xfer s.chip REG_PAYLOAD_LENGTH 0).1 % 256 < 256 := Nat.mod_lt _ (by decide)
  generalize (d.xfer s.chip REG_PAYLOAD_LENGTH 0).1 % 256 = L at hv hL
  simp only [SIZE_BITS] at hsz
  have hsize : (if (L + buffer.length) % 2 ^ SIZE_BITS > MAX_PKT_LENGTH then
      MAX_PKT_LENGTH - L else buffer.length) = min buffer.length (255 - L) := by
    simp only [SIZE_BITS, MAX_PKT_LENGTH]
    rw [Nat.mod_eq_of_lt (by omega)]
    split_ifs <;> omega
  have hle : L + min buffer.length (255 - L) ≤ 255 := by omega
  unfold lora_write
  simp only [hv, hsize]
  refine ⟨trivial, ?_, hle, ?_⟩
  · rw [write_register_writes _ _ _ _ (by decide), (fifo_loop_writes d _ _).1,
      read_register_writes _ _ _ (by decide), Nat.mod_eq_of_lt (by omega),
      map_bytes _ (fun b hmem => hb b (List.mem_of_mem_take hmem))]
  · rw [write_register_ctx, (fifo_loop_writes d _ _).2, read_register_ctx]

/-- Witness of `write_truncates`: five bytes written on top of a payload
length of 252 are cut to three. -/
theorem write_truncates_witness :
    (lora_write regfile
      { st0 with chip := { chip0 with regs := setAt chip0.regs REG_PAYLOAD_LENGTH 252 } }
      [1, 2, 3, 4, 5] 5).1 = 3 ∧
    (lora_write regfile
      { st0 with chip := { chip0 with regs := setAt chip0.regs REG_PAYLOAD_LENGTH 252 } }
      [1, 2, 3, 4, 5] 5).2.writes
      = [(REG_FIFO, 1), (REG_FIFO, 2), (REG_FIFO, 3), (REG_PAYLOAD_LENGTH, 255)] :=
  ⟨(write_truncates regfile
      { st0 with chip := { chip0 with regs := setAt chip0.regs REG_PAYLOAD_LENGTH 252 } }
      [1, 2, 3, 4, 5] (by decide) (by decide)).1,
   (write_truncates regfile
      { st0 with chip := { chip0 with regs := setAt chip0.regs REG_PAYLOAD_LENGTH 252 } }
      [1, 2, 3, 4, 5] (by decide) (by decide)).2.1⟩

/-! ## Round trip through the FIFO -/

/-- The write loop on the register-file chip: from pointer `p` the bytes land
at `p, p + 1, ...`, the rest of the FIFO memory is untouched. -/
theorem fifo_loop_memory (l : List Nat) (t : St Chip) (p : Nat)
    (hp : t.chip.regs REG_FIFO_ADDR_PTR = p) (hlen : p + l.length ≤ 255) :
    (∀ j, j < l.length →
      (l.foldl (fun u b => write_register regfile u REG_FIFO b) t).chip.fifo (p + j)
        = l.getD j 0 % 256) ∧
    (∀ x, x < p →
      (l.foldl (fun u b => write_register regfile u REG_FIFO b) t).chip.fifo x
        = t.chip.fifo x) := by
  induction l generalizing t p with
  | nil => simp
  | cons b l ih =>
    simp only [List.length_cons] at hlen
    simp only [List.foldl_cons]
    have hq : (write_register regfile t REG_FIFO b).chip.regs REG_FIFO_ADDR_PTR = p + 1 := by
      rw [regfile_write_fifo]
      simp only [setAt, if_true, hp]
      exact Nat.mod_eq_of_lt (by omega)
    obtain ⟨h1, h2⟩ := ih (write_register regfile t REG_FIFO b) (p + 1) hq (by omega)
    have hcell : ∀ x, (write_register regfile t REG_FIFO b).chip.fifo x
        = if x = p then b % 256 else t.chip.fifo x := by
      intro x
      rw [regfile_write_fifo]
      simp only [setAt, hp]
    refine ⟨?_, ?_⟩
    · intro j hj
      cases j with
      | zero =>
        rw [Nat.add_zero, h2 p (by omega), hcell]
        simp
      | succ j =>
        have := h1 j (by simpa using hj)
        rw [List.getD_cons_succ, ← this]
        congr 1
        omega
    · intro x hx
      rw [h2 x (by omega), hcell, if_neg (by omega)]

theorem toInt8_step (i n : Nat) (hi : i < n) (hn : n ≤ 255) :
    ((n : Int) - toInt8 i ≠ 0) ∧ toInt8 (toInt8 i + 1) = toInt8 ((i + 1 : Nat) : Int) := by
  unfold toInt8
  omega

/-- The read loop on the register-file chip: with the cursor at `i` and the
FIFO pointer at `i`, `l.length` calls of `lora_read` return the bytes the FIFO
memory holds from `i` on. -/
theorem read_times_memory (l : List Nat) (t : St Chip) (i n : Nat)
    (hidx : t.ctx.packet_index = toInt8 i) (hp : t.chip.regs REG_FIFO_ADDR_PTR = i)
    (hn : t.chip.regs REG_RX_NB_BYTES = n) (hn255 : n ≤ 255) (hlen : i + l.length ≤ n)
    (hb : ∀ b ∈ l, b < 256)
    (hmem : ∀ j, j < l.length → t.chip.fifo (i + j) = l.getD j 0) :
    (read_times regfile l.length t).1 = l.map Int.ofNat := by
  induction l generalizing t i with
  | nil => rfl
  | cons b l ih =>
    simp only [List.length_cons] at hlen
    obtain ⟨hav, hnext⟩ := toInt8_step i n (by omega) hn255
    have hb0 : t.chip.fifo i = b := by simpa using hmem 0 (by simp)
    have hread : lora_read regfile t
        = ((b : Int),
           { ctx := { t.ctx with packet_index := toInt8 ((i + 1 : Nat) : Int) },
             chip := { regs := setAt t.chip.regs REG_FIFO_ADDR_PTR (i + 1),
                       fifo := t.chip.fifo },
             writes := t.writes }) := by
      unfold lora_read lora_available
      rw [regfile_read _ _ (by decide) (by decide)]
      simp only [hn, Nat.mod_eq_of_lt (show n < 256 by omega), hidx, if_neg hav]
      rw [regfile_read_fifo]
      simp only [hp, hb0, hnext, Nat.mod_eq_of_lt (hb b (by simp)),
        Nat.mod_eq_of_lt (show i + 1 < 256 by omega)]
    simp only [List.length_cons, read_times, hread, List.map_cons]
    rw [ih _ (i + 1) rfl (by simp [setAt])
      (by simp only [setAt]; rw [if_neg (by decide)]; exact hn)
      (by omega) (fun c hc => hb c (by simp [hc]))]
    · rfl
    · intro j hj
      have := hmem (j + 1) (by simpa using hj)
      rw [List.getD_cons_succ] at this
      show t.chip.fifo (i + 1 + j) = _
      rw [Nat.add_assoc, Nat.add_comm 1 j]
      exact this

/-- On the register-file chip, `lora_write` of at most 255 bytes into a
packet just begun (pointer and payload length zero) takes them all and puts
them at the start of the FIFO memory. -/
theorem write_regfile_fresh (t : St Chip) (bytes : List Nat) (hN : bytes.length ≤ 255)
    (hp : t.chip.regs REG_FIFO_ADDR_PTR = 0) (hl : t.chip.regs REG_PAYLOAD_LENGTH = 0) :
    (lora_write regfile t bytes bytes.length).1 = bytes.length ∧
    ∀ j, j < bytes.length →
      (lora_write regfile t bytes bytes.length).2.chip.fifo j = bytes.getD j 0 % 256 := by
  have hsize : (if (0 + bytes.length) % 2 ^ SIZE_BITS > MAX_PKT_LENGTH then
      MAX_PKT_LENGTH - 0 else bytes.length) = bytes.length := by
    simp only [SIZE_BITS, MAX_PKT_LENGTH]
    rw [Nat.mod_eq_of_lt (by omega)]
    split_ifs <;> omega
  unfold lora_write
  rw [regfile_read _ _ (by decide) (by decide)]
  simp only [hl, Nat.zero_mod, hsize, List.take_length]
  refine ⟨trivial, ?_⟩
  intro j hj
  rw [regfile_write _ _ _ (by decide) (by decide)]
  have := (fifo_loop_memory bytes t 0 hp (by omega)).1 j hj
  simpa using this

/-- On the register-file chip, `lora_parse_packet(0)` when the IRQ flags show
receive-done without CRC error: the cursor is reset, the length is
REG_RX_NB_BYTES, the FIFO pointer is REG_FIFO_RX_CURRENT_ADDR, and the FIFO
memory and REG_RX_NB_BYTES are untouched. -/
theorem parse_packet_regfile_rx (t : St Chip)
    (hrx : t.chip.regs REG_IRQ_FLAGS % 256 &&& IRQ_RX_DONE_MASK ≠ 0)
    (hcrc : t.chip.regs REG_IRQ_FLAGS % 256 &&& IRQ_PAYLOAD_CRC_ERROR_MASK = 0) :
    (lora_parse_packet regfile t 0).1 = ((t.chip.regs REG_RX_NB_BYTES % 256 : Nat) : Int) ∧
    (lora_parse_packet regfile t 0).2.ctx.packet_index = 0 ∧
    (lora_parse_packet regfile t 0).2.chip.regs REG_FIFO_ADDR_PTR
      = t.chip.regs REG_FIFO_RX_CURRENT_ADDR % 256 ∧
    (lora_parse_packet regfile t 0).2.chip.regs REG_RX_NB_BYTES
      = t.chip.regs REG_RX_NB_BYTES ∧
    (lora_parse_packet regfile t 0).2.chip.fifo = t.chip.fifo := by
  unfold lora_parse_packet
  rw [regfile_read _ _ (by decide) (by decide)]
  simp only [lt_self_iff_false, if_false, gt_iff_lt]
  rw [if_pos ⟨hrx, hcrc⟩]
  simp [explicit_header_mode, lora_idle, regfile_read, regfile_write, setAt, REG_OP_MODE,
    REG_IRQ_FLAGS, REG_MODEM_CONFIG_1, REG_FIFO_ADDR_PTR, REG_RX_NB_BYTES,
    REG_FIFO_RX_CURRENT_ADDR, REG_PAYLOAD_LENGTH, REG_FIFO]

/-- C10: round trip over the register-file chip, whose REG_FIFO accesses read
or write the FIFO memory at REG_FIFO_ADDR_PTR and then increment the pointer.
For every sequence `bytes` of `N <= 255` bytes, `lora_begin_packet` (from a
mode other than Transmit) succeeds and `lora_write(bytes)` takes all `N`
bytes; after a receive-done event of matching length (any chip state `c` with
the same FIFO memory, the RX-done flag set, no CRC error, REG_RX_NB_BYTES = N
and REG_FIFO_RX_CURRENT_ADDR = 0), `lora_parse_packet(0)` returns `N` and `N`
successive `lora_read` calls return the elements of `bytes` in order. -/
theorem fifo_round_trip (s : St Chip) (bytes : List Nat) (implicit_header : Bool) (c : Chip)
    (hb : ∀ b ∈ bytes, b < 256) (hN : bytes.length ≤ 255)
    (hmode : s.chip.regs REG_OP_MODE % 256 &&& MODE_TX ≠ MODE_TX)
    (hfifo : c.fifo
      = (lora_write regfile (lora_begin_packet regfile s implicit_header).2
          bytes bytes.length).2.chip.fifo)
    (hrx : c.regs REG_IRQ_FLAGS % 256 &&& IRQ_RX_DONE_MASK ≠ 0)
    (hcrc : c.regs REG_IRQ_FLAGS % 256 &&& IRQ_PAYLOAD_CRC_ERROR_MASK = 0)
    (hnb : c.regs REG_RX_NB_BYTES = bytes.length)
    (hcur : c.regs REG_FIFO_RX_CURRENT_ADDR = 0) :
    (lora_begin_packet regfile s implicit_header).1 = true ∧
    (lora_write regfile (lora_begin_packet regfile s implicit_header).2
      bytes bytes.length).1 = bytes.length ∧
    (lora_parse_packet regfile
      { (lora_write regfile (lora_begin_packet regfile s implicit_header).2
          bytes bytes.length).2 with chip := c } 0).1 = (bytes.length : Int) ∧
    (read_times regfile bytes.length
      (lora_parse_packet regfile
        { (lora_write regfile (lora_begin_packet regfile s implicit_header).2
            bytes bytes.length).2 with chip := c } 0).2).1 = bytes.map Int.ofNat := by
  obtain ⟨hbegin, -, -, -, hptr, hlen⟩ := begin_packet_regfile s implicit_header hmode
  obtain ⟨hw, hmem⟩ :=
    write_regfile_fresh (lora_begin_packet regfile s implicit_header).2 bytes hN hptr hlen
  obtain ⟨hret, hidx, hp, hn, hf⟩ := parse_packet_regfile_rx
    { (lora_write regfile (lora_begin_packet regfile s implicit_header).2
        bytes bytes.length).2 with chip := c } hrx hcrc
  simp only [hnb, hcur, Nat.zero_mod] at hret hp hn
  refine ⟨hbegin, hw, ?_, ?_⟩
  · rw [hret, Nat.mod_eq_of_lt (by omega)]
  · apply read_times_memory bytes _ 0 bytes.length (by rw [hidx]; rfl) hp hn hN (by omega) hb
    intro j hj
    rw [hf]
    simp only [Nat.zero_add]
    rw [hfifo, hmem j hj, Nat.mod_eq_of_lt]
    have hget : bytes.getD j 0 = bytes[j] := by
      simp [List.getD_eq_getElem?_getD, List.getElem?_eq_getElem hj]
    rw [hget]
    exact hb _ (List.getElem_mem hj)

/-- Witness of `fifo_round_trip`: three bytes through the zeroed
register-file chip and a simulated receive-done event. -/
theorem fifo_round_trip_witness :
    (lora_parse_packet regfile
      { st_written with chip := rx_done_event 3 st_written.chip } 0).1 = 3 ∧
    (read_times regfile 3
      (lora_parse_packet regfile
        { st_written with chip := rx_done_event 3 st_written.chip } 0).2).1
      = [0x48, 0x69, 0x21] :=
  ⟨(fifo_round_trip st0 [0x48, 0x69, 0x21] false (rx_done_event 3 st_written.chip)
      (by decide) (by decide) (by decide) rfl (by decide) (by decide) (by decide)
      (by decide)).2.2.1,
   (fifo_round_trip st0 [0x48, 0x69, 0x21] false (rx_done_event 3 st_written.chip)
      (by decide) (by decide) (by decide) rfl (by decide) (by decide) (by decide)
      (by decide)).2.2.2⟩

/-! ## The read cursor -/

set_option maxRecDepth 1000000 in
/-- C11 (the code at the failing input): with REG_RX_NB_BYTES = 128 and the
cursor at 0 on the register-file chip, 128 calls of `lora_read` all return a
FIFO byte; the `int8_t` cursor is then -128, `lora_available` gives 256, not
0, and the 129th `lora_read` returns a FIFO byte, not -1, and moves the
cursor to -127. -/
theorem cursor_wraps_at_128 :
    (read_times regfile 128 st_rx128).1 = List.replicate 128 0 ∧
    (read_times regfile 128 st_rx128).2.ctx.packet_index = -128 ∧
    (lora_available regfile (read_times regfile 128 st_rx128).2).1 = 256 ∧
    (lora_read regfile (read_times regfile 128 st_rx128).2).1 = 0 ∧
    (lora_read regfile (read_times regfile 128 st_rx128).2).2.ctx.packet_index = -127 := by
  decide

theorem setAt_restore (m : Nat → Nat) (a x : Nat) : setAt (setAt m a x) a (m a) = m := by
  funext y
  unfold setAt
  split
  · next h => rw [h]
  · rfl

theorem available_regfile (s : St Chip) :
    lora_available regfile s
      = (((s.chip.regs REG_RX_NB_BYTES % 256 : Nat) : Int) - s.ctx.packet_index, s) := by
  simp only [lora_available]
  rw [regfile_read _ REG_RX_NB_BYTES (by decide) (by decide)]

/-- On the register-file chip with the FIFO pointer a byte, a `lora_peek`
with data available returns the FIFO byte under the pointer and gives back
the state it started from, the write of the saved pointer appended to the
ghost list. -/
theorem peek_regfile (s : St Chip) (hav : (lora_available regfile s).1 ≠ 0)
    (hp : s.chip.regs REG_FIFO_ADDR_PTR < 256) :
    lora_peek regfile s
      = (((s.chip.fifo (s.chip.regs REG_FIFO_ADDR_PTR) % 256 : Nat) : Int),
         { s with writes := s.writes ++
            [(REG_FIFO_ADDR_PTR, s.chip.regs REG_FIFO_ADDR_PTR)] }) := by
  have hav2 : ¬ ((lora_available regfile s).1 = 0) := hav
  simp only [lora_peek, if_neg hav2]
  rw [available_regfile, regfile_read _ REG_FIFO_ADDR_PTR (by decide) (by decide),
    regfile_read_fifo, regfile_write _ REG_FIFO_ADDR_PTR _ (by decide) (by decide)]
  simp only [Nat.mod_eq_of_lt hp, Nat.mod_mod, setAt_restore]

/-- C12: on the register-file chip, whose REG_FIFO reads increment
REG_FIFO_ADDR_PTR, for every state with `lora_available() != 0` (the pointer
register holding a byte): two consecutive `lora_peek` calls return the same
byte, which is the byte the next `lora_read` returns; after each `lora_peek`
the values of `packet_index`, of REG_FIFO_ADDR_PTR and of `lora_available()`
are the same as before it, and so is the whole chip state. -/
theorem peek_keeps_cursor (s : St Chip) (hav : (lora_available regfile s).1 ≠ 0)
    (hp : s.chip.regs REG_FIFO_ADDR_PTR < 256) :
    (lora_peek regfile (lora_peek regfile s).2).1 = (lora_peek regfile s).1 ∧
    (lora_read regfile (lora_peek regfile s).2).1 = (lora_peek regfile s).1 ∧
    (lora_read regfile (lora_peek regfile (lora_peek regfile s).2).2).1
      = (lora_peek regfile s).1 ∧
    (lora_peek regfile s).2.ctx.packet_index = s.ctx.packet_index ∧
    (lora_peek regfile s).2.chip.regs REG_FIFO_ADDR_PTR = s.chip.regs REG_FIFO_ADDR_PTR ∧
    (lora_available regfile (lora_peek regfile s).2).1 = (lora_available regfile s).1 ∧
    (lora_peek regfile (lora_peek regfile s).2).2.ctx.packet_index = s.ctx.packet_index ∧
    (lora_peek regfile (lora_peek regfile s).2).2.chip.regs REG_FIFO_ADDR_PTR
      = s.chip.regs REG_FIFO_ADDR_PTR ∧
    (lora_available regfile (lora_peek regfile (lora_peek regfile s).2).2).1
      = (lora_available regfile s).1 ∧
    (lora_peek regfile s).2.chip = s.chip ∧
    (lora_peek regfile (lora_peek regfile s).2).2.chip = s.chip := by
  have h1 := peek_regfile s hav hp
  have hav1 : (lora_available regfile (lora_peek regfile s).2).1 = (lora_available regfile s).1 := by
    rw [h1]; rfl
  have h2 := peek_regfile (lora_peek regfile s).2 (by rw [hav1]; exact hav) (by rw [h1]; exact hp)
  have hread : ∀ t : St Chip, t.ctx = s.ctx → t.chip = s.chip →
      (lora_read regfile t).1 = ((s.chip.fifo (s.chip.regs REG_FIFO_ADDR_PTR) % 256 : Nat) : Int) := by
    intro t hc hch
    have hav3 : ¬ ((lora_available regfile t).1 = 0) := by
      have : (lora_available regfile t).1 = (lora_available regfile s).1 := by
        rw [available_regfile, available_regfile, hc, hch]
      rw [this]; exact hav
    simp only [lora_read, if_neg hav3]
    rw [available_regfile, regfile_read_fifo, hch]
  rw [h2, h1]
  refine ⟨rfl, hread _ rfl rfl, hread _ rfl rfl, rfl, rfl, rfl, rfl, rfl, rfl, rfl, rfl⟩
/-- Witness of `peek_keeps_cursor`: a packet of 128 bytes announced, cursor
and pointer at 0. -/
theorem peek_keeps_cursor_witness :
    (lora_peek regfile (lora_peek regfile st_rx128).2).1 = (lora_peek regfile st_rx128).1 ∧
    (lora_read regfile (lora_peek regfile st_rx128).2).1 = (lora_peek regfile st_rx128).1 :=
  ⟨(peek_keeps_cursor st_rx128 (by decide) (by decide)).1,
   (peek_keeps_cursor st_rx128 (by decide) (by decide)).2.1⟩

/-! ## Receiving -/

theorem and_ff (x : Nat) : (x &&& 0xff) % 256 = x % 256 := by
  have : x &&& 0xff = x % 256 := Nat.and_pow_two_sub_one_eq_mod x 8
  rw [this, Nat.mod_mod]

theorem mode_values : (MODE_LONG_RANGE_MODE ||| MODE_STDBY) % 256 = 0x81 ∧
    (MODE_LONG_RANGE_MODE ||| MODE_SLEEP) % 256 = 0x80 ∧
    (MODE_LONG_RANGE_MODE ||| MODE_TX) % 256 = 0x83 ∧
    (MODE_LONG_RANGE_MODE ||| MODE_RX_SINGLE) % 256 = 0x86 ∧
    (MODE_LONG_RANGE_MODE ||| MODE_RX_SINGLE) = 0x86 := by
  decide

/-- C13: on the register-file chip, for every register state and every
`size`: when the IRQ-flags snapshot has receive-done (0x40) set and
payload-CRC-error (0x20) clear, `lora_parse_packet` resets `packet_index` to
0, returns REG_PAYLOAD_LENGTH in implicit-header mode and REG_RX_NB_BYTES in
explicit-header mode, sets REG_FIFO_ADDR_PTR to the value of
REG_FIFO_RX_CURRENT_ADDR and leaves REG_OP_MODE = 0x81 (Standby); in every
other case it returns 0 and leaves `packet_index` unchanged. -/
theorem parse_packet_result (s : St Chip) (size : Int) :
    (s.chip.regs REG_IRQ_FLAGS % 256 &&& IRQ_RX_DONE_MASK ≠ 0 ∧
      s.chip.regs REG_IRQ_FLAGS % 256 &&& IRQ_PAYLOAD_CRC_ERROR_MASK = 0 →
      (lora_parse_packet regfile s size).2.ctx.packet_index = 0 ∧
      ((lora_parse_packet regfile s size).2.ctx.implicit_header_mode ≠ 0 →
        (lora_parse_packet regfile s size).1
          = (((lora_parse_packet regfile s size).2.chip.regs REG_PAYLOAD_LENGTH % 256 : Nat) : Int)) ∧
      ((lora_parse_packet regfile s size).2.ctx.implicit_header_mode = 0 →
        (lora_parse_packet regfile s size).1
          = (((lora_parse_packet regfile s size).2.chip.regs REG_RX_NB_BYTES % 256 : Nat) : Int) ∧
        (lora_parse_packet regfile s size).2.chip.regs REG_RX_NB_BYTES
          = s.chip.regs REG_RX_NB_BYTES) ∧
      (lora_parse_packet regfile s size).2.chip.regs REG_FIFO_ADDR_PTR
        = s.chip.regs REG_FIFO_RX_CURRENT_ADDR % 256 ∧
      (lora_parse_packet regfile s size).2.chip.regs REG_FIFO_RX_CURRENT_ADDR
        = s.chip.regs REG_FIFO_RX_CURRENT_ADDR ∧
      (lora_parse_packet regfile s size).2.chip.regs REG_OP_MODE = 0x81) ∧
    (¬ (s.chip.regs REG_IRQ_FLAGS % 256 &&& IRQ_RX_DONE_MASK ≠ 0 ∧
      s.chip.regs REG_IRQ_FLAGS % 256 &&& IRQ_PAYLOAD_CRC_ERROR_MASK = 0) →
      (lora_parse_packet regfile s size).1 = 0 ∧
      (lora_parse_packet regfile s size).2.ctx.packet_index = s.ctx.packet_index) := by
  refine ⟨?_, ?_⟩
  · intro hpk
    unfold lora_parse_packet
    rw [regfile_read _ REG_IRQ_FLAGS (by decide) (by decide)]
    simp only [if_pos hpk]
    by_cases hs : size > 0
    · simp [hs, implicit_header_mode, lora_idle, regfile_read, regfile_write, setAt, REG_OP_MODE,
        REG_IRQ_FLAGS, REG_MODEM_CONFIG_1, REG_FIFO_ADDR_PTR, REG_RX_NB_BYTES,
        REG_FIFO_RX_CURRENT_ADDR, REG_PAYLOAD_LENGTH, REG_FIFO, mode_values.1]
    · simp [hs, explicit_header_mode, lora_idle, regfile_read, regfile_write, setAt, REG_OP_MODE,
        REG_IRQ_FLAGS, REG_MODEM_CONFIG_1, REG_FIFO_ADDR_PTR, REG_RX_NB_BYTES,
        REG_FIFO_RX_CURRENT_ADDR, REG_PAYLOAD_LENGTH, REG_FIFO, mode_values.1]
  · intro hpk
    unfold lora_parse_packet
    rw [regfile_read _ REG_IRQ_FLAGS (by decide) (by decide)]
    simp only [if_neg hpk]
    by_cases hs : size > 0
    · simp only [hs, if_true]
      constructor
      · split <;> rfl
      · split <;>
          simp [implicit_header_mode, regfile_read, regfile_write, REG_OP_MODE,
            REG_IRQ_FLAGS, REG_MODEM_CONFIG_1, REG_FIFO_ADDR_PTR,
            REG_PAYLOAD_LENGTH, REG_FIFO]
    · simp only [hs, if_false]
      constructor
      · split <;> rfl
      · split <;>
          simp [explicit_header_mode, regfile_read, regfile_write, REG_OP_MODE,
            REG_IRQ_FLAGS, REG_MODEM_CONFIG_1, REG_FIFO_ADDR_PTR,
            REG_PAYLOAD_LENGTH, REG_FIFO]
/-- Witness of `parse_packet_result`: receive-done without CRC error. -/
theorem parse_packet_result_witness :
    (lora_parse_packet regfile st_rxdone 0).2.ctx.packet_index = 0 ∧
    (lora_parse_packet regfile st_rxdone 0).2.chip.regs REG_OP_MODE = 0x81 ∧
    (lora_parse_packet regfile st_latent 0).1 = 0 :=
  ⟨((parse_packet_result st_rxdone 0).1 (by decide)).1,
   ((parse_packet_result st_rxdone 0).1 (by decide)).2.2.2.2.2,
   ((parse_packet_result st_latent 0).2 (by decide)).1⟩

theorem append_split_two {α : Type} (l m : List α) (x y : α) :
    ∃ pre, l ++ (m ++ [x, y]) = pre ++ [x, y] :=
  ⟨l ++ m, by simp⟩

/-- C14 as stated fails: with no packet available and the mode register at
RX-continuous (0x85), `lora_parse_packet` writes RX-single (0x86) to
REG_OP_MODE. -/
theorem parse_packet_rx_continuous_counterexample :
    st_rxcont.chip.regs REG_OP_MODE = 0x85 ∧
    st_rxcont.chip.regs REG_IRQ_FLAGS &&& IRQ_RX_DONE_MASK = 0 ∧
    (lora_parse_packet regfile st_rxcont 0).1 = 0 ∧
    (lora_parse_packet regfile st_rxcont 0).2.chip.regs REG_OP_MODE = 0x86 := by
  decide

/-- C14 (as amended): on the register-file chip, when no packet is available
(the IRQ snapshot lacks receive-done or has the CRC-error bit): if the
operating-mode register shows RX-single (0x86), `lora_parse_packet` leaves it
and REG_FIFO_ADDR_PTR unchanged and writes neither; if it shows any other
value, in particular Standby (0x81) or RX-continuous (0x85), the call resets
REG_FIFO_ADDR_PTR to 0 and writes RX-single (0x86), as its last two writes. -/
theorem parse_packet_arms_receiver (s : St Chip) (size : Int)
    (hno : ¬ (s.chip.regs REG_IRQ_FLAGS % 256 &&& IRQ_RX_DONE_MASK ≠ 0 ∧
      s.chip.regs REG_IRQ_FLAGS % 256 &&& IRQ_PAYLOAD_CRC_ERROR_MASK = 0)) :
    (s.chip.regs REG_OP_MODE % 256 = 0x86 →
      (lora_parse_packet regfile s size).2.chip.regs REG_OP_MODE = s.chip.regs REG_OP_MODE ∧
      (lora_parse_packet regfile s size).2.chip.regs REG_FIFO_ADDR_PTR
        = s.chip.regs REG_FIFO_ADDR_PTR ∧
      ∃ tail, (lora_parse_packet regfile s size).2.writes = s.writes ++ tail ∧
        ∀ x ∈ tail, x.1 ≠ REG_OP_MODE ∧ x.1 ≠ REG_FIFO_ADDR_PTR) ∧
    (s.chip.regs REG_OP_MODE % 256 ≠ 0x86 →
      (lora_parse_packet regfile s size).2.chip.regs REG_FIFO_ADDR_PTR = 0 ∧
      (lora_parse_packet regfile s size).2.chip.regs REG_OP_MODE = 0x86 ∧
      ∃ pre, (lora_parse_packet regfile s size).2.writes
        = pre ++ [(REG_FIFO_ADDR_PTR, 0), (REG_OP_MODE, 0x86)]) := by
  have hmv := mode_values
  refine ⟨?_, ?_⟩
  · intro hm
    unfold lora_parse_packet
    rw [regfile_read _ REG_IRQ_FLAGS (by decide) (by decide)]
    simp only [if_neg hno]
    by_cases hs : size > 0
    · simp only [hs, if_true, implicit_header_mode]
      rw [regfile_read _ REG_MODEM_CONFIG_1 (by decide) (by decide),
        regfile_write _ REG_MODEM_CONFIG_1 _ (by decide) (by decide),
        regfile_write _ REG_PAYLOAD_LENGTH _ (by decide) (by decide),
        regfile_write _ REG_IRQ_FLAGS _ (by decide) (by decide),
        regfile_read _ REG_OP_MODE (by decide) (by decide)]
      simp only [setAt, hmv.2.2.2.2]
      simp [REG_OP_MODE, REG_IRQ_FLAGS, REG_MODEM_CONFIG_1, REG_FIFO_ADDR_PTR,
        REG_PAYLOAD_LENGTH] at hm ⊢
      simp only [hm, if_true, setAt]
      refine ⟨by simp, by simp, _, rfl, ?_⟩
      intro a b h
      simp only [List.mem_cons, Prod.mk.injEq, List.mem_singleton, List.not_mem_nil,
        or_false] at h
      omega
    · simp only [hs, if_false, explicit_header_mode]
      rw [regfile_read _ REG_MODEM_CONFIG_1 (by decide) (by decide),
        regfile_write _ REG_MODEM_CONFIG_1 _ (by decide) (by decide),
        regfile_write _ REG_IRQ_FLAGS _ (by decide) (by decide),
        regfile_read _ REG_OP_MODE (by decide) (by decide)]
      simp only [setAt, hmv.2.2.2.2]
      simp [REG_OP_MODE, REG_IRQ_FLAGS, REG_MODEM_CONFIG_1, REG_FIFO_ADDR_PTR,
        REG_PAYLOAD_LENGTH] at hm ⊢
      simp only [hm, if_true, setAt]
      refine ⟨by simp, by simp, _, rfl, ?_⟩
      intro a b h
      simp only [List.mem_cons, Prod.mk.injEq, List.mem_singleton, List.not_mem_nil,
        or_false] at h
      omega
  · intro hm
    unfold lora_parse_packet
    rw [regfile_read _ REG_IRQ_FLAGS (by decide) (by decide)]
    simp only [if_neg hno]
    by_cases hs : size > 0
    · simp only [hs, if_true, implicit_header_mode]
      rw [regfile_read _ REG_MODEM_CONFIG_1 (by decide) (by decide),
        regfile_write _ REG_MODEM_CONFIG_1 _ (by decide) (by decide),
        regfile_write _ REG_PAYLOAD_LENGTH _ (by decide) (by decide),
        regfile_write _ REG_IRQ_FLAGS _ (by decide) (by decide),
        regfile_read _ REG_OP_MODE (by decide) (by decide)]
      simp only [setAt, hmv.2.2.2.2]
      simp [REG_OP_MODE, REG_IRQ_FLAGS, REG_MODEM_CONFIG_1, REG_FIFO_ADDR_PTR,
        REG_PAYLOAD_LENGTH] at hm ⊢
      simp [hm, regfile_write, setAt, REG_OP_MODE, REG_FIFO_ADDR_PTR, REG_FIFO]
      exact append_split_two s.writes [_, _, _] _ _
    · simp only [hs, if_false, explicit_header_mode]
      rw [regfile_read _ REG_MODEM_CONFIG_1 (by decide) (by decide),
        regfile_write _ REG_MODEM_CONFIG_1 _ (by decide) (by decide),
        regfile_write _ REG_IRQ_FLAGS _ (by decide) (by decide),
        regfile_read _ REG_OP_MODE (by decide) (by decide)]
      simp only [setAt, hmv.2.2.2.2]
      simp [REG_OP_MODE, REG_IRQ_FLAGS, REG_MODEM_CONFIG_1, REG_FIFO_ADDR_PTR,
        REG_PAYLOAD_LENGTH] at hm ⊢
      simp [hm, regfile_write, setAt, REG_OP_MODE, REG_FIFO_ADDR_PTR, REG_FIFO]
      exact append_split_two s.writes [_, _] _ _
/-- Witness of `parse_packet_arms_receiver`: Standby, no receive-done flag. -/
theorem parse_packet_arms_receiver_witness :
    (lora_parse_packet regfile st_latent 0).2.chip.regs REG_FIFO_ADDR_PTR = 0 ∧
    (lora_parse_packet regfile st_latent 0).2.chip.regs REG_OP_MODE = 0x86 :=
  ⟨((parse_packet_arms_receiver st_latent 0 (by decide)).2 (by decide)).1,
   ((parse_packet_arms_receiver st_latent 0 (by decide)).2 (by decide)).2.1⟩

/-- C15 as stated fails: with `size = 256` the byte programmed into
REG_PAYLOAD_LENGTH is `256 & 0xff = 0`, and the packet detected by that call
is reported with length 0, not 256. -/
theorem parse_packet_size_256_counterexample :
    (lora_parse_packet regfile st_rxdone 256).2.writes
      = [(REG_MODEM_CONFIG_1, 0x01), (REG_PAYLOAD_LENGTH, 0), (REG_IRQ_FLAGS, 0x40),
         (REG_FIFO_ADDR_PTR, 0), (REG_OP_MODE, 0x81)] ∧
    (lora_parse_packet regfile st_rxdone 256).2.chip.regs REG_PAYLOAD_LENGTH = 0 ∧
    (lora_parse_packet regfile st_rxdone 256).1 = 0 := by
  decide

/-- C15 (as amended): on the register-file chip, for every `size > 0`,
`lora_parse_packet(size)` sets the context flag to 1 and bit 0 of
REG_MODEM_CONFIG_1, and programs REG_PAYLOAD_LENGTH with `size mod 256`
(`size` itself when `size <= 255`), which no later write of the call changes;
a packet detected by that call is reported with length `size mod 256`.  For
every `size <= 0` it sets the flag to 0, clears bit 0 and does not write
REG_PAYLOAD_LENGTH. -/
theorem parse_packet_header_mode (s : St Chip) (size : Int) :
    (size > 0 →
      (lora_parse_packet regfile s size).2.ctx.implicit_header_mode = 1 ∧
      (lora_parse_packet regfile s size).2.chip.regs REG_MODEM_CONFIG_1 % 2 = 1 ∧
      (lora_parse_packet regfile s size).2.chip.regs REG_PAYLOAD_LENGTH = size.toNat % 256 ∧
      (∃ tail, (lora_parse_packet regfile s size).2.writes
          = s.writes ++ [(REG_MODEM_CONFIG_1, s.chip.regs REG_MODEM_CONFIG_1 % 256 ||| 0x01),
              (REG_PAYLOAD_LENGTH, size.toNat % 256)] ++ tail ∧
        ∀ x ∈ tail, x.1 ≠ REG_PAYLOAD_LENGTH ∧ x.1 ≠ REG_MODEM_CONFIG_1) ∧
      (s.chip.regs REG_IRQ_FLAGS % 256 &&& IRQ_RX_DONE_MASK ≠ 0 ∧
        s.chip.regs REG_IRQ_FLAGS % 256 &&& IRQ_PAYLOAD_CRC_ERROR_MASK = 0 →
        (lora_parse_packet regfile s size).1 = size % 256 ∧
        (size ≤ 255 → (lora_parse_packet regfile s size).1 = size))) ∧
    (size ≤ 0 →
      (lora_parse_packet regfile s size).2.ctx.implicit_header_mode = 0 ∧
      (lora_parse_packet regfile s size).2.chip.regs REG_MODEM_CONFIG_1 % 2 = 0 ∧
      (lora_parse_packet regfile s size).2.chip.regs REG_PAYLOAD_LENGTH
        = s.chip.regs REG_PAYLOAD_LENGTH ∧
      (∃ tail, (lora_parse_packet regfile s size).2.writes
          = s.writes ++ [(REG_MODEM_CONFIG_1, s.chip.regs REG_MODEM_CONFIG_1 % 256 &&& 0xfe)]
            ++ tail ∧
        ∀ x ∈ tail, x.1 ≠ REG_PAYLOAD_LENGTH ∧ x.1 ≠ REG_MODEM_CONFIG_1)) := by
  have hmv := mode_values
  have hh := header_bit (s.chip.regs REG_MODEM_CONFIG_1 % 256) (Nat.mod_lt _ (by decide))
  simp only [REG_MODEM_CONFIG_1] at hh
  refine ⟨?_, ?_⟩
  · intro hs
    have htn : ((size.toNat % 256 : Nat) : Int) = size % 256 := by omega
    unfold lora_parse_packet
    rw [regfile_read _ REG_IRQ_FLAGS (by decide) (by decide)]
    simp only [hs, if_true, implicit_header_mode]
    rw [regfile_read _ REG_MODEM_CONFIG_1 (by decide) (by decide),
      regfile_write _ REG_MODEM_CONFIG_1 _ (by decide) (by decide),
      regfile_write _ REG_PAYLOAD_LENGTH _ (by decide) (by decide),
      regfile_write _ REG_IRQ_FLAGS _ (by decide) (by decide)]
    simp only [and_ff]
    have hmax : size ⊔ 0 = size := sup_of_le_left (le_of_lt hs)
    split
    · next hpk =>
      simp [lora_idle, regfile_read, regfile_write, setAt, REG_OP_MODE, REG_IRQ_FLAGS,
        REG_MODEM_CONFIG_1, REG_FIFO_ADDR_PTR, REG_RX_NB_BYTES, REG_FIFO_RX_CURRENT_ADDR,
        REG_PAYLOAD_LENGTH, REG_FIFO, hmv.1, hh.1, hh.2.1, hmax]
      refine ⟨fun a b h => by omega, fun _ _ _ => by omega⟩
    · next hpk =>
      rw [regfile_read _ REG_OP_MODE (by decide) (by decide)]
      split
      · simp [regfile_write, setAt, REG_OP_MODE, REG_IRQ_FLAGS,
          REG_MODEM_CONFIG_1, REG_FIFO_ADDR_PTR, REG_RX_NB_BYTES, REG_FIFO_RX_CURRENT_ADDR,
          REG_PAYLOAD_LENGTH, REG_FIFO, hmv.2.2.2.1, hh.1, hh.2.1, hmax]
        refine ⟨fun a b h => by omega, fun h1 h2 => ?_⟩
        simp only [REG_IRQ_FLAGS] at hpk
        exact absurd ⟨h1, h2⟩ hpk
      · simp [regfile_write, setAt, REG_OP_MODE, REG_IRQ_FLAGS,
          REG_MODEM_CONFIG_1, REG_FIFO_ADDR_PTR, REG_RX_NB_BYTES, REG_FIFO_RX_CURRENT_ADDR,
          REG_PAYLOAD_LENGTH, REG_FIFO, hh.1, hh.2.1, hmax]
        intro h1 h2
        simp only [REG_IRQ_FLAGS] at hpk
        exact absurd ⟨h1, h2⟩ hpk
  · intro hs
    have hs0 : ¬ (size > 0) := by omega
    unfold lora_parse_packet
    rw [regfile_read _ REG_IRQ_FLAGS (by decide) (by decide)]
    simp only [hs0, if_false, explicit_header_mode]
    rw [regfile_read _ REG_MODEM_CONFIG_1 (by decide) (by decide),
      regfile_write _ REG_MODEM_CONFIG_1 _ (by decide) (by decide),
      regfile_write _ REG_IRQ_FLAGS _ (by decide) (by decide)]
    split
    · simp [lora_idle, regfile_read, regfile_write, setAt, REG_OP_MODE, REG_IRQ_FLAGS,
        REG_MODEM_CONFIG_1, REG_FIFO_ADDR_PTR, REG_RX_NB_BYTES, REG_FIFO_RX_CURRENT_ADDR,
        REG_PAYLOAD_LENGTH, REG_FIFO, hmv.1, hh.2.2.1, hh.2.2.2]
      exact fun a b h => by omega
    · rw [regfile_read _ REG_OP_MODE (by decide) (by decide)]
      split
      · simp [regfile_write, setAt, REG_OP_MODE, REG_IRQ_FLAGS,
          REG_MODEM_CONFIG_1, REG_FIFO_ADDR_PTR, REG_RX_NB_BYTES, REG_FIFO_RX_CURRENT_ADDR,
          REG_PAYLOAD_LENGTH, REG_FIFO, hmv.2.2.2.1, hh.2.2.1, hh.2.2.2]
        exact fun a b h => by omega
      · simp [regfile_write, setAt, REG_OP_MODE, REG_IRQ_FLAGS,
          REG_MODEM_CONFIG_1, REG_FIFO_ADDR_PTR, REG_RX_NB_BYTES, REG_FIFO_RX_CURRENT_ADDR,
          REG_PAYLOAD_LENGTH, REG_FIFO, hh.2.2.1, hh.2.2.2]
/-- Witness of `parse_packet_header_mode`: a packet detected with `size = 5`
is reported with length 5. -/
theorem parse_packet_header_mode_witness :
    (lora_parse_packet regfile st_rxdone 5).2.ctx.implicit_header_mode = 1 ∧
    (lora_parse_packet regfile st_rxdone 5).1 = 5 ∧
    (lora_parse_packet regfile st_rxdone 0).2.ctx.implicit_header_mode = 0 :=
  ⟨((parse_packet_header_mode st_rxdone 5).1 (by decide)).1,
   (((parse_packet_header_mode st_rxdone 5).1 (by decide)).2.2.2.2 (by decide)).2 (by decide),
   ((parse_packet_header_mode st_rxdone 0).2 (by decide)).1⟩

/-! ## RSSI, coding rate, over-current protection -/

theorem lora_set_frequency_ctx (d : Device σ) (s : St σ) (f : Nat) :
    (lora_set_frequency d s f).ctx.frequency = f := by
  simp only [lora_set_frequency, write_register_ctx]

/-- C16: for every frequency `f` and every byte `r` read from
REG_PKT_RSSI_VALUE, after `lora_set_frequency(f)` the function `lora_rssi`
returns `r - 164` when `f < 868000000` and `r - 157` when `f >= 868000000`;
the result lies in the range of the signed 16-bit return type. -/
theorem rssi_offset (d : Device σ) (s : St σ) (f : Nat) :
    ((lora_rssi d (lora_set_frequency d s f)).1
      = ((((d.xfer (lora_set_frequency d s f).chip REG_PKT_RSSI_VALUE 0).1 % 256 : Nat) : Int)
          - (if f < 868000000 then 164 else 157))) ∧
    (f < 868000000 → (lora_rssi d (lora_set_frequency d s f)).1
      = (((d.xfer (lora_set_frequency d s f).chip REG_PKT_RSSI_VALUE 0).1 % 256 : Nat) : Int)
          - 164) ∧
    (868000000 ≤ f → (lora_rssi d (lora_set_frequency d s f)).1
      = (((d.xfer (lora_set_frequency d s f).chip REG_PKT_RSSI_VALUE 0).1 % 256 : Nat) : Int)
          - 157) ∧
    -32768 ≤ (lora_rssi d (lora_set_frequency d s f)).1 ∧
    (lora_rssi d (lora_set_frequency d s f)).1 ≤ 32767 := by
  have hv := read_register_val d (lora_set_frequency d s f) REG_PKT_RSSI_VALUE (by decide)
  have hr : (d.xfer (lora_set_frequency d s f).chip REG_PKT_RSSI_VALUE 0).1 % 256 < 256 :=
    Nat.mod_lt _ (by decide)
  generalize (d.xfer (lora_set_frequency d s f).chip REG_PKT_RSSI_VALUE 0).1 % 256 = r at hv hr
  have hval : (lora_rssi d (lora_set_frequency d s f)).1
      = (r : Int) - (if f < 868000000 then 164 else 157) := by
    simp only [lora_rssi, hv, lora_set_frequency_ctx]
    unfold toInt16
    split_ifs <;> omega
  rw [hval]
  refine ⟨rfl, ?_, ?_, ?_, ?_⟩
  · intro h; rw [if_pos h]
  · intro h; rw [if_neg (by omega)]
  · split_ifs <;> omega
  · split_ifs <;> omega

/-- Witness of `rssi_offset`: raw value 200 at 433 MHz and at 915 MHz. -/
theorem rssi_offset_witness :
    (lora_rssi regfile (lora_set_frequency regfile st_rssi 433000000)).1 = 36 ∧
    (lora_rssi regfile (lora_set_frequency regfile st_rssi 915000000)).1 = 43 :=
  ⟨(rssi_offset regfile st_rssi 433000000).2.1 (by decide),
   (rssi_offset regfile st_rssi 915000000).2.2.1 (by decide)⟩

set_option maxRecDepth 100000 in
theorem cr_field : ∀ v < 256, ∀ c < 5, 1 ≤ c →
    ((v &&& 0xf1) ||| (c <<< 1)) < 256 ∧
    (((v &&& 0xf1) ||| (c <<< 1)) >>> 1) &&& 7 = c ∧
    ((v &&& 0xf1) ||| (c <<< 1)) &&& 0xf1 = v &&& 0xf1 := by
  decide

/-- C17: for every integer `denominator` and every prior value `v` of
REG_MODEM_CONFIG_1 (the byte read), `lora_set_coding_rate4` writes
`(v & 0xF1) | ((clamp(denominator, 5, 8) - 4) << 1)`: the 3-bit field at bit
offset 1 holds `clamp(denominator, 5, 8) - 4` and bits 0 and 4..7 are those
of `v`. -/
theorem set_coding_rate4_field (d : Device σ) (s : St σ) (denominator : Int) :
    ∃ v w, v = (d.xfer s.chip REG_MODEM_CONFIG_1 0).1 % 256 ∧
      (lora_set_coding_rate4 d s denominator).writes = s.writes ++ [(REG_MODEM_CONFIG_1, w)] ∧
      w = (v &&& 0xf1) ||| ((max 5 (min denominator 8) - 4).toNat <<< 1) ∧
      ((w >>> 1) &&& 7 : Nat) = (max 5 (min denominator 8) - 4).toNat ∧
      w &&& 0xf1 = v &&& 0xf1 ∧ w < 256 := by
  have hc : (if denominator < 5 then (5 : Int) else if denominator > 8 then 8 else denominator)
      = max 5 (min denominator 8) := by
    split_ifs <;> omega
  have hr : 1 ≤ (max 5 (min denominator 8) - 4).toNat ∧
      (max 5 (min denominator 8) - 4).toNat < 5 := by omega
  have hv := read_register_val d s REG_MODEM_CONFIG_1 (by decide)
  have hlt : (d.xfer s.chip REG_MODEM_CONFIG_1 0).1 % 256 < 256 := Nat.mod_lt _ (by decide)
  obtain ⟨h1, h2, h3⟩ := cr_field _ hlt _ hr.2 hr.1
  refine ⟨_, _, rfl, ?_, rfl, h2, h3, h1⟩
  simp only [lora_set_coding_rate4, hc]
  rw [write_register_writes _ _ _ _ (by decide), read_register_writes _ _ _ (by decide), hv,
    Nat.mod_eq_of_lt h1]

set_option maxRecDepth 100000 in
theorem ocp_table : ∀ c : Nat, c < 256 → 45 ≤ c →
    (0x20 ||| (0x1F &&&
      (if ((c % 256 : Nat) : Int) ≤ 120 then (Int.tdiv (((c % 256 : Nat) : Int) - 45) 5) % 256
        else if ((c % 256 : Nat) : Int) ≤ 240 then
          (Int.tdiv (((c % 256 : Nat) : Int) + 30) 10) % 256
        else 27).toNat)) % 256
      = 0x20 ||| (if c ≤ 120 then (c - 45) / 5 else if c ≤ 240 then (c + 30) / 10 else 27) ∧
    (if c ≤ 120 then (c - 45) / 5 else if c ≤ 240 then (c + 30) / 10 else 27) ≤ 27 := by
  decide

/-- C18: for every requested current `c` in `45..255` mA, `lora_set_ocp`
writes REG_OCP = 0x20 | t with `t = (c - 45) / 5` when `c <= 120`,
`t = (c + 30) / 10` when `120 < c <= 240` and `t = 27` when `c > 240`; the
trim code is at most 27. -/
theorem set_ocp_encoding (d : Device σ) (s : St σ) (c : Nat) (h45 : 45 ≤ c) (h255 : c ≤ 255) :
    (lora_set_ocp d s c).writes
      = s.writes ++ [(REG_OCP,
          0x20 ||| (if c ≤ 120 then (c - 45) / 5 else if c ≤ 240 then (c + 30) / 10 else 27))] ∧
    (if c ≤ 120 then (c - 45) / 5 else if c ≤ 240 then (c + 30) / 10 else 27) ≤ 27 := by
  obtain ⟨h1, h2⟩ := ocp_table c (by omega) h45
  refine ⟨?_, h2⟩
  unfold lora_set_ocp
  rw [write_register_writes _ _ _ _ (by decide)]
  exact congrArg (fun v => s.writes ++ [(REG_OCP, v)]) h1

/-- Witness of `set_ocp_encoding`: 100 mA gives 0x2B, 140 mA gives 0x31 and
250 mA gives the maximum trim 27 (0x3B). -/
theorem set_ocp_encoding_witness :
    (lora_set_ocp regfile st0 100).writes = [(REG_OCP, 0x2B)] ∧
    (lora_set_ocp regfile st0 140).writes = [(REG_OCP, 0x31)] ∧
    (lora_set_ocp regfile st0 250).writes = [(REG_OCP, 0x3B)] :=
  ⟨(set_ocp_encoding regfile st0 100 (by decide) (by decide)).1,
   (set_ocp_encoding regfile st0 140 (by decide) (by decide)).1,
   (set_ocp_encoding regfile st0 250 (by decide) (by decide)).1⟩


/-! ## The mode register -/

theorem mode_step_refl (I : σ → Prop) (s : St σ) : mode_step I s s :=
  ⟨⟨[], by simp, by simp⟩, id⟩

theorem mode_step_trans {I : σ → Prop} {s t u : St σ} (h1 : mode_step I s t)
    (h2 : mode_step I t u) : mode_step I s u := by
  obtain ⟨⟨l1, e1, p1⟩, i1⟩ := h1
  obtain ⟨⟨l2, e2, p2⟩, i2⟩ := h2
  refine ⟨⟨l1 ++ l2, by rw [e2, e1, List.append_assoc], ?_⟩, fun h => i2 (i1 h)⟩
  intro x hx
  rcases List.mem_append.mp hx with h | h
  · exact p1 x h
  · exact p2 x h

/-- A step that changes the driver context only. -/
theorem mode_step_ctx {I : σ → Prop} {s t : St σ} (h : mode_step I s t) (c : Ctx) :
    mode_step I s { ctx := c, chip := t.chip, writes := t.writes } :=
  mode_step_trans h ⟨⟨[], by simp, by simp⟩, id⟩

theorem mode_step_write {d : Device σ} {I : σ → Prop} (hk : Keeps d I) {s t : St σ}
    (h : mode_step I s t) {a v : Nat} (ha : a < 128)
    (hv : a = REG_OP_MODE → is_mode_value (v % 256) = true) :
    mode_step I s (write_register d t a v) := by
  obtain ⟨-, h2, -, -⟩ := addr_bits a ha
  refine mode_step_trans h ⟨⟨[(a, v % 256)], write_register_writes d t a v ha, ?_⟩, ?_⟩
  · intro x hx
    rw [List.mem_singleton.mp hx]
    exact hv
  · intro hI
    rw [write_register_chip d t a v ha]
    exact hk.frame _ _ _ hI (fun _ h => hv (h2 ▸ h))

theorem mode_step_read {d : Device σ} {I : σ → Prop} (hk : Keeps d I) {s t : St σ}
    (h : mode_step I s t) {a : Nat} (ha : a < 128) :
    mode_step I s (read_register d t a).2 := by
  obtain ⟨-, -, h3, h4⟩ := addr_bits a ha
  refine mode_step_trans h ⟨⟨[], by rw [read_register_writes d t a ha]; simp, by simp⟩, ?_⟩
  intro hI
  rw [read_register_chip d t a ha]
  exact hk.frame _ _ _ hI (fun h => absurd (h4 ▸ h3) h)

theorem mode_step_idle {d : Device σ} {I : σ → Prop} (hk : Keeps d I) {s t : St σ}
    (h : mode_step I s t) : mode_step I s (lora_idle d t) :=
  mode_step_write hk h (by decide) (fun _ => by decide)

theorem mode_step_sleep {d : Device σ} {I : σ → Prop} (hk : Keeps d I) {s t : St σ}
    (h : mode_step I s t) : mode_step I s (lora_sleep d t) :=
  mode_step_write hk h (by decide) (fun _ => by decide)

theorem mode_step_explicit {d : Device σ} {I : σ → Prop} (hk : Keeps d I) {s t : St σ}
    (h : mode_step I s t) : mode_step I s (explicit_header_mode d t) :=
  mode_step_write hk (mode_step_read hk (mode_step_ctx h _) (by decide)) (by decide)
    (fun h => absurd h (by decide))

theorem mode_step_implicit {d : Device σ} {I : σ → Prop} (hk : Keeps d I) {s t : St σ}
    (h : mode_step I s t) : mode_step I s (implicit_header_mode d t) :=
  mode_step_write hk (mode_step_read hk (mode_step_ctx h _) (by decide)) (by decide)
    (fun h => absurd h (by decide))

theorem mode_step_is_transmitting {d : Device σ} {I : σ → Prop} (hk : Keeps d I) {s t : St σ}
    (h : mode_step I s t) : mode_step I s (is_transmitting d t).2 := by
  unfold is_transmitting
  simp only []
  split
  · exact mode_step_read hk h (by decide)
  · split
    · exact mode_step_write hk (mode_step_read hk (mode_step_read hk h (by decide)) (by decide))
        (by decide) (fun h => absurd h (by decide))
    · exact mode_step_read hk (mode_step_read hk h (by decide)) (by decide)

theorem mode_step_set_frequency {d : Device σ} {I : σ → Prop} (hk : Keeps d I) {s t : St σ}
    (h : mode_step I s t) (f : Nat) : mode_step I s (lora_set_frequency d t f) :=
  mode_step_write hk
    (mode_step_write hk
      (mode_step_write hk (mode_step_ctx h _) (by decide) (fun h => absurd h (by decide)))
      (by decide) (fun h => absurd h (by decide)))
    (by decide) (fun h => absurd h (by decide))

theorem mode_step_set_ocp {d : Device σ} {I : σ → Prop} (hk : Keeps d I) {s t : St σ}
    (h : mode_step I s t) (c : Nat) : mode_step I s (lora_set_ocp d t c) :=
  mode_step_write hk h (by decide) (fun h => absurd h (by decide))

theorem mode_step_set_tx_power {d : Device σ} {I : σ → Prop} (hk : Keeps d I) {s t : St σ}
    (h : mode_step I s t) (level pin : Int) :
    mode_step I s (lora_set_tx_power d t level pin) := by
  unfold lora_set_tx_power
  split
  · exact mode_step_write hk h (by decide) (fun h => absurd h (by decide))
  · split
    · exact mode_step_write hk
        (mode_step_set_ocp hk
          (mode_step_write hk h (by decide) (fun h => absurd h (by decide))) _)
        (by decide) (fun h => absurd h (by decide))
    · exact mode_step_write hk
        (mode_step_set_ocp hk
          (mode_step_write hk h (by decide) (fun h => absurd h (by decide))) _)
        (by decide) (fun h => absurd h (by decide))

theorem mode_step_begin {d : Device σ} {I : σ → Prop} (hk : Keeps d I) (s : St σ)
    (f : Nat) : mode_step I s (lora_begin d s f).2 := by
  have h0 : mode_step I s { s with chip := d.reset s.chip } :=
    ⟨⟨[], by simp, by simp⟩, hk.reset _⟩
  have h1 := mode_step_read hk h0 (show REG_VERSION < 128 by decide)
  unfold lora_begin
  simp only []
  split
  · exact h1
  · dsimp only
    apply mode_step_ctx
    apply mode_step_idle hk
    apply mode_step_set_tx_power hk
    apply mode_step_write hk _ (by decide) (fun h => absurd h (by decide))
    apply mode_step_write hk _ (by decide) (fun h => absurd h (by decide))
    apply mode_step_read hk _ (by decide)
    apply mode_step_write hk _ (by decide) (fun h => absurd h (by decide))
    apply mode_step_write hk _ (by decide) (fun h => absurd h (by decide))
    apply mode_step_set_frequency hk
    apply mode_step_sleep hk
    exact h1

theorem mode_step_end {d : Device σ} {I : σ → Prop} (hk : Keeps d I) (s : St σ) :
    mode_step I s (lora_end d s) :=
  mode_step_ctx (mode_step_sleep hk (mode_step_refl I s)) _

theorem mode_step_begin_packet {d : Device σ} {I : σ → Prop} (hk : Keeps d I) (s : St σ)
    (implicit_header : Bool) : mode_step I s (lora_begin_packet d s implicit_header).2 := by
  have h1 := mode_step_is_transmitting hk (mode_step_refl I s)
  unfold lora_begin_packet
  simp only []
  split
  · exact h1
  · dsimp only
    apply mode_step_write hk _ (by decide) (fun h => absurd h (by decide))
    apply mode_step_write hk _ (by decide) (fun h => absurd h (by decide))
    split
    · exact mode_step_implicit hk (mode_step_idle hk h1)
    · exact mode_step_explicit hk (mode_step_idle hk h1)

theorem mode_step_wait_tx_done {d : Device σ} {I : σ → Prop} (hk : Keeps d I) (fuel : Nat) :
    ∀ (s t u : St σ), mode_step I s t → wait_tx_done d fuel t = some u → mode_step I s u := by
  induction fuel with
  | zero => intro s t u _ h; simp [wait_tx_done] at h
  | succ n ih =>
    intro s t u hst h
    have h1 := mode_step_read hk hst (show REG_IRQ_FLAGS < 128 by decide)
    simp only [wait_tx_done] at h
    split at h
    · exact ih _ _ _ h1 h
    · cases h
      exact h1

theorem mode_step_end_packet {d : Device σ} {I : σ → Prop} (hk : Keeps d I) (fuel : Nat)
    (s : St σ) (async : Bool) (r : Bool × St σ)
    (h : lora_end_packet d fuel s async = some r) : mode_step I s r.2 := by
  have h1 : mode_step I s (if (async && decide (s.ctx.dio0_pin > 0)) = true then
      write_register d s REG_DIO_MAPPING_1 0x40 else s) := by
    split
    · exact mode_step_write hk (mode_step_refl I s) (by decide) (fun h => absurd h (by decide))
    · exact mode_step_refl I s
  have h2 : mode_step I s (write_register d _ REG_OP_MODE (MODE_LONG_RANGE_MODE ||| MODE_TX)) :=
    mode_step_write hk h1 (by decide) (fun _ => by decide)
  unfold lora_end_packet at h
  simp only [] at h
  split at h
  · split at h
    · cases h
    · next s3 hw =>
      cases h
      exact mode_step_write hk (mode_step_wait_tx_done hk fuel _ _ _ h2 hw) (by decide)
        (fun h => absurd h (by decide))
  · cases h
    exact h2

theorem mode_step_parse_packet {d : Device σ} {I : σ → Prop} (hk : Keeps d I) (s : St σ)
    (size : Int) : mode_step I s (lora_parse_packet d s size).2 := by
  have h1 := mode_step_read hk (mode_step_refl I s) (show REG_IRQ_FLAGS < 128 by decide)
  have h2 : mode_step I s
      (if size > 0 then
        write_register d (implicit_header_mode d (read_register d s REG_IRQ_FLAGS).2)
          REG_PAYLOAD_LENGTH (size.toNat &&& 0xff)
      else explicit_header_mode d (read_register d s REG_IRQ_FLAGS).2) := by
    split
    · exact mode_step_write hk (mode_step_implicit hk h1) (by decide)
        (fun h => absurd h (by decide))
    · exact mode_step_explicit hk h1
  unfold lora_parse_packet
  simp only []
  generalize (if size > 0 then
      write_register d (implicit_header_mode d (read_register d s REG_IRQ_FLAGS).2)
        REG_PAYLOAD_LENGTH (size.toNat &&& 0xff)
    else explicit_header_mode d (read_register d s REG_IRQ_FLAGS).2) = hdr at h2 ⊢
  have h3 : mode_step I s
      (write_register d hdr REG_IRQ_FLAGS (read_register d s REG_IRQ_FLAGS).1) :=
    mode_step_write hk h2 (by decide) (fun h => absurd h (by decide))
  split
  · dsimp only
    apply mode_step_idle hk
    refine mode_step_write hk ?_ (show REG_FIFO_ADDR_PTR < 128 by decide)
      (fun h => absurd h (by decide))
    refine mode_step_read hk ?_ (show REG_FIFO_RX_CURRENT_ADDR < 128 by decide)
    split
    · exact mode_step_read hk (mode_step_ctx h3 _) (by decide)
    · exact mode_step_read hk (mode_step_ctx h3 _) (by decide)
  · split
    · refine mode_step_write hk ?_ (show REG_OP_MODE < 128 by decide) (fun _ => by decide)
      refine mode_step_write hk ?_ (show REG_FIFO_ADDR_PTR < 128 by decide)
        (fun h => absurd h (by decide))
      exact mode_step_read hk h3 (by decide)
    · exact mode_step_read hk h3 (by decide)

theorem keeps_trivial (d : Device σ) : Keeps d (fun _ => True) :=
  ⟨fun _ _ _ _ _ => trivial, fun _ _ => trivial⟩

/-- The register-file chip keeps "the mode register holds a defined mode
value" across every frame that is not a write of another value to it. -/
theorem keeps_regfile_mode :
    Keeps regfile (fun c => is_mode_value (c.regs REG_OP_MODE) = true) := by
  refine ⟨?_, fun _ h => h⟩
  intro c a v hI hv
  show is_mode_value ((Chip.xfer c a v).2.regs REG_OP_MODE) = true
  unfold Chip.xfer
  simp only []
  split
  · next hw =>
    split
    · simpa [setAt, REG_OP_MODE, REG_FIFO_ADDR_PTR] using hI
    · by_cases ha : a &&& 0x7f = REG_OP_MODE
      · simp only [setAt, ha, if_true]
        exact hv hw ha
      · have ha2 : ¬ (REG_OP_MODE = a &&& 0x7f) := fun h => ha h.symm
        simpa [setAt, ha2] using hI
  · split
    · simpa [setAt, REG_OP_MODE, REG_FIFO_ADDR_PTR] using hI
    · exact hI

/-- C19: every value that `lora_begin`, `lora_end`, `lora_idle`, `lora_sleep`,
`lora_begin_packet`, `lora_end_packet` (whenever it returns, and it returns
when `async` is true) or `lora_parse_packet` writes to REG_OP_MODE is the
long-range flag 0x80 combined with one defined mode code; so on the
register-file chip, from a state whose mode register holds such a value, the
mode register holds such a value after each of these operations. -/
theorem mode_register_invariant :
    (∀ (τ : Type) (d : Device τ) (s : St τ) (f : Nat) (implicit_header async : Bool)
        (size : Int) (fuel : Nat),
      mode_writes_ok s (lora_begin d s f).2 ∧
      mode_writes_ok s (lora_end d s) ∧
      mode_writes_ok s (lora_idle d s) ∧
      mode_writes_ok s (lora_sleep d s) ∧
      mode_writes_ok s (lora_begin_packet d s implicit_header).2 ∧
      (∀ r, lora_end_packet d fuel s async = some r → mode_writes_ok s r.2) ∧
      (∃ r, lora_end_packet d fuel s true = some r) ∧
      mode_writes_ok s (lora_parse_packet d s size).2) ∧
    (∀ (s : St Chip) (f : Nat) (implicit_header async : Bool) (size : Int) (fuel : Nat),
      is_mode_value (s.chip.regs REG_OP_MODE) = true →
      is_mode_value ((lora_begin regfile s f).2.chip.regs REG_OP_MODE) = true ∧
      is_mode_value ((lora_end regfile s).chip.regs REG_OP_MODE) = true ∧
      is_mode_value ((lora_idle regfile s).chip.regs REG_OP_MODE) = true ∧
      is_mode_value ((lora_sleep regfile s).chip.regs REG_OP_MODE) = true ∧
      is_mode_value ((lora_begin_packet regfile s implicit_header).2.chip.regs REG_OP_MODE)
        = true ∧
      (∀ r, lora_end_packet regfile fuel s async = some r →
        is_mode_value (r.2.chip.regs REG_OP_MODE) = true) ∧
      is_mode_value ((lora_parse_packet regfile s size).2.chip.regs REG_OP_MODE) = true) := by
  refine ⟨?_, ?_⟩
  · intro τ d s f ih async size fuel
    have hk := keeps_trivial d
    exact ⟨(mode_step_begin hk s f).1, (mode_step_end hk s).1,
      (mode_step_idle hk (mode_step_refl _ s)).1, (mode_step_sleep hk (mode_step_refl _ s)).1,
      (mode_step_begin_packet hk s ih).1,
      fun r hr => (mode_step_end_packet hk fuel s async r hr).1,
      ⟨_, rfl⟩,
      (mode_step_parse_packet hk s size).1⟩
  · intro s f ih async size fuel hm
    have hk := keeps_regfile_mode
    exact ⟨(mode_step_begin hk s f).2 hm, (mode_step_end hk s).2 hm,
      (mode_step_idle hk (mode_step_refl _ s)).2 hm,
      (mode_step_sleep hk (mode_step_refl _ s)).2 hm,
      (mode_step_begin_packet hk s ih).2 hm,
      fun r hr => (mode_step_end_packet hk fuel s async r hr).2 hm,
      (mode_step_parse_packet hk s size).2 hm⟩

/-- Witness of `mode_register_invariant`: from Standby with a latent
transmit-done flag. -/
theorem mode_register_invariant_witness :
    is_mode_value ((lora_parse_packet regfile st_latent 0).2.chip.regs REG_OP_MODE) = true ∧
    is_mode_value ((lora_begin_packet regfile st_latent false).2.chip.regs REG_OP_MODE)
      = true :=
  ⟨(mode_register_invariant.2 st_latent 0 false false 0 0 (by decide)).2.2.2.2.2.2,
   (mode_register_invariant.2 st_latent 0 false false 0 0 (by decide)).2.2.2.2.1⟩

/-! ## Idle -/

theorem setAt_idem (m : Nat → Nat) (a x v : Nat) : setAt (setAt m a x) a v = setAt m a v := by
  funext y
  unfold setAt
  split <;> rfl

/-- C20: on the register-file chip `lora_idle` leaves REG_OP_MODE = 0x81
(Standby), touches no other register, nor the FIFO memory, nor the driver
context, and a second `lora_idle` right after leaves the whole chip state
equal to the state after the first call. -/
theorem idle_idempotent (s : St Chip) :
    (lora_idle regfile s).chip.regs REG_OP_MODE = 0x81 ∧
    (∀ a, a ≠ REG_OP_MODE → (lora_idle regfile s).chip.regs a = s.chip.regs a) ∧
    (lora_idle regfile s).chip.fifo = s.chip.fifo ∧
    (lora_idle regfile s).ctx = s.ctx ∧
    (lora_idle regfile (lora_idle regfile s)).chip = (lora_idle regfile s).chip ∧
    (lora_idle regfile (lora_idle regfile s)).ctx = (lora_idle regfile s).ctx := by
  have h : ∀ t : St Chip, lora_idle regfile t
      = { ctx := t.ctx, chip := { regs := setAt t.chip.regs REG_OP_MODE 0x81, fifo := t.chip.fifo },
          writes := t.writes ++ [(REG_OP_MODE, 0x81)] } := by
    intro t
    unfold lora_idle
    rw [regfile_write _ REG_OP_MODE _ (by decide) (by decide)]
    rfl
  rw [h (lora_idle regfile s), h s]
  refine ⟨by simp [setAt], ?_, rfl, rfl, ?_, rfl⟩
  · intro a ha
    simp [setAt, ha]
  · simp only [setAt_idem]

/-- Witness of `idle_idempotent`: a register other than the mode register is
left alone. -/
theorem idle_idempotent_witness :
    (lora_idle regfile st_latent).chip.regs REG_IRQ_FLAGS = st_latent.chip.regs REG_IRQ_FLAGS :=
  (idle_idempotent st_latent).2.1 REG_IRQ_FLAGS (by decide)

/-! ## The low-data-rate flag on the register-file chip -/

theorem get_signal_bandwidth_regfile (s : St Chip) :
    get_signal_bandwidth regfile s = (bw_hz (s.chip.regs REG_MODEM_CONFIG_1 % 256 / 16), s) := by
  unfold get_signal_bandwidth
  rw [regfile_read _ REG_MODEM_CONFIG_1 (by decide) (by decide)]
  have hlt : s.chip.regs REG_MODEM_CONFIG_1 % 256 / 16 < 16 := by omega
  simp only [Nat.shiftRight_eq_div_pow, Nat.pow_succ, Nat.pow_zero, Nat.one_mul]
  generalize s.chip.regs REG_MODEM_CONFIG_1 % 256 / (2 * 2 * 2 * 2) = i at hlt
  interval_cases i <;> rfl

theorem get_spreading_factor_regfile (s : St Chip) :
    get_spreading_factor regfile s = (s.chip.regs REG_MODEM_CONFIG_2 % 256 / 16, s) := by
  unfold get_spreading_factor
  rw [regfile_read _ REG_MODEM_CONFIG_2 (by decide) (by decide)]
  simp only [Nat.shiftRight_eq_div_pow]

theorem bw_hz_pos : ∀ i < 10, 7 ≤ bw_hz i / 1000 ∧ bw_hz i ∈ bw_threshold := by
  decide

theorem bw_hz_zero (i : Nat) (h : 10 ≤ i) : bw_hz i = 0 := by
  unfold bw_hz bw_threshold
  rw [List.getD_eq_default]
  simpa using h

set_option maxRecDepth 100000 in
theorem ldo_bits : ∀ c < 256, (c ||| 0x08) % 256 = c ||| 0x08 ∧ (c &&& 0xf7) % 256 = c &&& 0xf7 ∧
    (c ||| 0x08) &&& 0x08 = 0x08 ∧ (c ||| 0x08) &&& 0xf7 = c &&& 0xf7 ∧
    (c &&& 0xf7) &&& 0x08 = 0 ∧ (c &&& 0xf7) &&& 0xf7 = c &&& 0xf7 := by
  decide

theorem ldo_duration_lt (sf bw : Nat) (hsf : sf < 16) :
    (1000 * 2 ^ sf) / (bw / 1000) < 2 ^ 32 := by
  have h1 : (2 : Nat) ^ sf ≤ 2 ^ 15 := Nat.pow_le_pow_right (by decide) (by omega)
  have h2 : (1000 * 2 ^ sf) / (bw / 1000) ≤ 1000 * 2 ^ sf := Nat.div_le_self _ _
  have h3 : 1000 * 2 ^ sf ≤ 1000 * 2 ^ 15 := Nat.mul_le_mul_left _ h1
  have h4 : (1000 : Nat) * 2 ^ 15 < 2 ^ 32 := by decide
  omega

/-- On the register-file chip with a bandwidth index in `0..9`,
`set_ldo_flag` returns and rewrites REG_MODEM_CONFIG_3 with bit 3 set or
cleared by `ldo_condition`. -/
theorem set_ldo_flag_regfile (s : St Chip)
    (hbw : s.chip.regs REG_MODEM_CONFIG_1 % 256 / 16 ≤ 9) :
    set_ldo_flag regfile s
      = Except.ok
          { ctx := s.ctx,
            chip := { regs := setAt s.chip.regs REG_MODEM_CONFIG_3
                        (if ldo_condition (s.chip.regs REG_MODEM_CONFIG_2 % 256 / 16)
                              (bw_hz (s.chip.regs REG_MODEM_CONFIG_1 % 256 / 16)) = true
                          then s.chip.regs REG_MODEM_CONFIG_3 % 256 ||| 0x08
                          else s.chip.regs REG_MODEM_CONFIG_3 % 256 &&& 0xf7),
                      fifo := s.chip.fifo },
            writes := s.writes ++ [(REG_MODEM_CONFIG_3,
                        (if ldo_condition (s.chip.regs REG_MODEM_CONFIG_2 % 256 / 16)
                              (bw_hz (s.chip.regs REG_MODEM_CONFIG_1 % 256 / 16)) = true
                          then s.chip.regs REG_MODEM_CONFIG_3 % 256 ||| 0x08
                          else s.chip.regs REG_MODEM_CONFIG_3 % 256 &&& 0xf7))] } := by
  have hpos := (bw_hz_pos _ (Nat.lt_succ_of_le hbw)).1
  have hne : ¬ (bw_hz (s.chip.regs REG_MODEM_CONFIG_1 % 256 / 16) / 1000 = 0) := by omega
  have hsf : s.chip.regs REG_MODEM_CONFIG_2 % 256 / 16 < 16 := by omega
  have hb := ldo_bits (s.chip.regs REG_MODEM_CONFIG_3 % 256) (Nat.mod_lt _ (by decide))
  unfold set_ldo_flag
  simp only [get_signal_bandwidth_regfile, get_spreading_factor_regfile, if_neg hne]
  rw [regfile_read _ REG_MODEM_CONFIG_3 (by decide) (by decide),
    regfile_write _ REG_MODEM_CONFIG_3 _ (by decide) (by decide)]
  simp only [Nat.shiftLeft_eq, Nat.one_mul, Nat.mod_eq_of_lt (ldo_duration_lt _ _ hsf),
    ldo_condition]
  split <;> simp only [hb.1, hb.2.1]


theorem set_signal_bandwidth_regfile (s : St Chip) (sbw : Nat) :
    lora_set_signal_bandwidth regfile s sbw
      = set_ldo_flag regfile
          { ctx := s.ctx,
            chip := { regs := setAt s.chip.regs REG_MODEM_CONFIG_1
                        ((s.chip.regs REG_MODEM_CONFIG_1 % 256 &&& 0x0f) ||| (bw_index sbw <<< 4)),
                      fifo := s.chip.fifo },
            writes := s.writes ++ [(REG_MODEM_CONFIG_1,
                        (s.chip.regs REG_MODEM_CONFIG_1 % 256 &&& 0x0f) |||
                          (bw_index sbw <<< 4))] } := by
  have hn := bw_nibble (s.chip.regs REG_MODEM_CONFIG_1 % 256) (bw_index sbw)
    (by have := (bw_index_spec sbw).1; omega)
  simp only [lora_set_signal_bandwidth]
  rw [regfile_read _ REG_MODEM_CONFIG_1 (by decide) (by decide),
    regfile_write _ REG_MODEM_CONFIG_1 _ (by decide) (by decide)]
  simp only [Nat.mod_eq_of_lt hn.2]

theorem set_spreading_factor_regfile (s : St Chip) (sf : Int) :
    lora_set_spreading_factor regfile s sf
      = set_ldo_flag regfile
          { ctx := s.ctx,
            chip := { regs := setAt (setAt (setAt s.chip.regs REG_DETECTION_OPTIMIZE
                          (if max 6 (min sf 12) = 6 then 0xc5 else 0xc3))
                          REG_DETECTION_THRESHOLD (if max 6 (min sf 12) = 6 then 0x0c else 0x0a))
                        REG_MODEM_CONFIG_2
                        ((s.chip.regs REG_MODEM_CONFIG_2 % 256 &&& 0x0f) |||
                          (((max 6 (min sf 12)).toNat <<< 4) &&& 0xf0)),
                      fifo := s.chip.fifo },
            writes := s.writes ++
              [(REG_DETECTION_OPTIMIZE, if max 6 (min sf 12) = 6 then 0xc5 else 0xc3),
               (REG_DETECTION_THRESHOLD, if max 6 (min sf 12) = 6 then 0x0c else 0x0a),
               (REG_MODEM_CONFIG_2,
                 (s.chip.regs REG_MODEM_CONFIG_2 % 256 &&& 0x0f) |||
                   (((max 6 (min sf 12)).toNat <<< 4) &&& 0xf0))] } := by
  have hc : (if sf < 6 then (6 : Int) else if sf > 12 then 12 else sf) = max 6 (min sf 12) := by
    split_ifs <;> omega
  have hr : (max 6 (min sf 12)).toNat < 16 := by omega
  have hn := sf_nibble (s.chip.regs REG_MODEM_CONFIG_2 % 256) _ hr
  simp only [REG_MODEM_CONFIG_2] at hn
  unfold lora_set_spreading_factor
  simp only [hc]
  split
  · rw [regfile_write _ REG_DETECTION_OPTIMIZE _ (by decide) (by decide),
      regfile_write _ REG_DETECTION_THRESHOLD _ (by decide) (by decide),
      regfile_read _ REG_MODEM_CONFIG_2 (by decide) (by decide),
      regfile_write _ REG_MODEM_CONFIG_2 _ (by decide) (by decide)]
    simp [setAt, REG_DETECTION_OPTIMIZE, REG_DETECTION_THRESHOLD, REG_MODEM_CONFIG_2,
      Nat.mod_eq_of_lt hn.2]
  · rw [regfile_write _ REG_DETECTION_OPTIMIZE _ (by decide) (by decide),
      regfile_write _ REG_DETECTION_THRESHOLD _ (by decide) (by decide),
      regfile_read _ REG_MODEM_CONFIG_2 (by decide) (by decide),
      regfile_write _ REG_MODEM_CONFIG_2 _ (by decide) (by decide)]
    simp [setAt, REG_DETECTION_OPTIMIZE, REG_DETECTION_THRESHOLD, REG_MODEM_CONFIG_2,
      Nat.mod_eq_of_lt hn.2]

/-- C26: on the register-file chip, for every requested bandwidth `sbw` and
every prior register state, `lora_set_signal_bandwidth` returns (the division
in `set_ldo_flag` is defined), it leaves the bandwidth index `bw_index sbw`,
a value in `0..9`, in the upper nibble of REG_MODEM_CONFIG_1,
`get_signal_bandwidth` then returns the enumerated bandwidth of that index,
one of the ten values, and `bandwidth / 1000` is at least 7. -/
theorem set_signal_bandwidth_division_defined (s : St Chip) (sbw : Nat) :
    ∃ t, lora_set_signal_bandwidth regfile s sbw = Except.ok t ∧
      t.chip.regs REG_MODEM_CONFIG_1 < 256 ∧
      t.chip.regs REG_MODEM_CONFIG_1 / 16 = bw_index sbw ∧
      bw_index sbw ≤ 9 ∧
      (get_signal_bandwidth regfile t).1 = bw_hz (bw_index sbw) ∧
      (get_signal_bandwidth regfile t).1 ∈ bw_threshold ∧
      7 ≤ (get_signal_bandwidth regfile t).1 / 1000 := by
  have h10 := (bw_index_spec sbw).1
  have hn := bw_nibble (s.chip.regs REG_MODEM_CONFIG_1 % 256) (bw_index sbw) (by omega)
  have hpos := bw_hz_pos _ h10
  rw [set_signal_bandwidth_regfile, set_ldo_flag_regfile _
    (by simp only [setAt, if_true]; rw [Nat.mod_eq_of_lt hn.2, hn.1]; omega)]
  refine ⟨_, rfl, ?_, ?_, by omega, ?_⟩
  · simp [setAt, REG_MODEM_CONFIG_1, REG_MODEM_CONFIG_3]
    simpa [REG_MODEM_CONFIG_1] using hn.2
  · simp [setAt, REG_MODEM_CONFIG_1, REG_MODEM_CONFIG_3]
    simpa [REG_MODEM_CONFIG_1] using hn.1
  · have hidx : (setAt (setAt s.chip.regs REG_MODEM_CONFIG_1
          ((s.chip.regs REG_MODEM_CONFIG_1 % 256 &&& 0x0f) ||| (bw_index sbw <<< 4)))
          REG_MODEM_CONFIG_3
          (if ldo_condition
              (setAt s.chip.regs REG_MODEM_CONFIG_1
                ((s.chip.regs REG_MODEM_CONFIG_1 % 256 &&& 0x0f) ||| (bw_index sbw <<< 4))
                REG_MODEM_CONFIG_2 % 256 / 16)
              (bw_hz (setAt s.chip.regs REG_MODEM_CONFIG_1
                ((s.chip.regs REG_MODEM_CONFIG_1 % 256 &&& 0x0f) ||| (bw_index sbw <<< 4))
                REG_MODEM_CONFIG_1 % 256 / 16)) = true
            then setAt s.chip.regs REG_MODEM_CONFIG_1
                ((s.chip.regs REG_MODEM_CONFIG_1 % 256 &&& 0x0f) ||| (bw_index sbw <<< 4))
                REG_MODEM_CONFIG_3 % 256 ||| 0x08
            else setAt s.chip.regs REG_MODEM_CONFIG_1
                ((s.chip.regs REG_MODEM_CONFIG_1 % 256 &&& 0x0f) ||| (bw_index sbw <<< 4))
                REG_MODEM_CONFIG_3 % 256 &&& 0xf7)
          REG_MODEM_CONFIG_1) % 256 / 16 = bw_index sbw := by
      simp only [setAt, if_true, if_neg (show ¬ (REG_MODEM_CONFIG_1 = REG_MODEM_CONFIG_3) by decide)]
      rw [Nat.mod_eq_of_lt hn.2, hn.1]
    rw [get_signal_bandwidth_regfile]
    simp only [hidx]
    exact ⟨trivial, hpos.2, hpos.1⟩


/-- The register REG_MODEM_CONFIG_3 after a `set_ldo_flag` that returned:
bit 3 follows `ldo_condition`, the other seven bits are the old ones. -/
theorem ldo_rewrite (c : Nat) (b : Bool) :
    ((if b = true then c % 256 ||| 0x08 else c % 256 &&& 0xf7) &&& 0x08 = 0x08 ↔ b = true) ∧
    (if b = true then c % 256 ||| 0x08 else c % 256 &&& 0xf7) &&& 0xf7 = c % 256 &&& 0xf7 := by
  have hb := ldo_bits (c % 256) (Nat.mod_lt _ (by decide))
  cases b
  · simp [hb.2.2.2.2.1, hb.2.2.2.2.2]
  · simp [hb.2.2.1, hb.2.2.2.1]

/-- C22: on the register-file chip, in a state whose bandwidth index is in
`0..9`, every `lora_set_spreading_factor` call and every
`lora_set_signal_bandwidth` call returns, and after it bit 3 of
REG_MODEM_CONFIG_3 is 1 exactly when `(1000 * 2^SF) div (BW_Hz div 1000) > 16`
for the spreading factor and the bandwidth held in the registers after the
call, while the other seven bits of REG_MODEM_CONFIG_3 are unchanged. -/
theorem ldo_flag_after_setters (s : St Chip) (sf : Int) (sbw : Nat)
    (hbw : s.chip.regs REG_MODEM_CONFIG_1 % 256 / 16 ≤ 9) :
    (∃ t, lora_set_spreading_factor regfile s sf = Except.ok t ∧
        (t.chip.regs REG_MODEM_CONFIG_3 &&& 0x08 = 0x08 ↔
          (1000 * 2 ^ (t.chip.regs REG_MODEM_CONFIG_2 % 256 / 16))
            / (bw_hz (t.chip.regs REG_MODEM_CONFIG_1 % 256 / 16) / 1000) > 16) ∧
        t.chip.regs REG_MODEM_CONFIG_3 &&& 0xf7
          = s.chip.regs REG_MODEM_CONFIG_3 % 256 &&& 0xf7) ∧
    (∃ t, lora_set_signal_bandwidth regfile s sbw = Except.ok t ∧
        (t.chip.regs REG_MODEM_CONFIG_3 &&& 0x08 = 0x08 ↔
          (1000 * 2 ^ (t.chip.regs REG_MODEM_CONFIG_2 % 256 / 16))
            / (bw_hz (t.chip.regs REG_MODEM_CONFIG_1 % 256 / 16) / 1000) > 16) ∧
        t.chip.regs REG_MODEM_CONFIG_3 &&& 0xf7
          = s.chip.regs REG_MODEM_CONFIG_3 % 256 &&& 0xf7) := by
  refine ⟨?_, ?_⟩
  · rw [set_spreading_factor_regfile, set_ldo_flag_regfile _
      (by simpa [setAt, REG_MODEM_CONFIG_1, REG_MODEM_CONFIG_2, REG_DETECTION_OPTIMIZE,
        REG_DETECTION_THRESHOLD] using hbw)]
    refine ⟨_, rfl, ?_⟩
    simp only [setAt, if_true,
      if_neg (show ¬ (REG_MODEM_CONFIG_3 = REG_MODEM_CONFIG_2) by decide),
      if_neg (show ¬ (REG_MODEM_CONFIG_3 = REG_DETECTION_THRESHOLD) by decide),
      if_neg (show ¬ (REG_MODEM_CONFIG_3 = REG_DETECTION_OPTIMIZE) by decide),
      if_neg (show ¬ (REG_MODEM_CONFIG_2 = REG_MODEM_CONFIG_3) by decide),
      if_neg (show ¬ (REG_MODEM_CONFIG_1 = REG_MODEM_CONFIG_3) by decide),
      if_neg (show ¬ (REG_MODEM_CONFIG_1 = REG_MODEM_CONFIG_2) by decide),
      if_neg (show ¬ (REG_MODEM_CONFIG_1 = REG_DETECTION_THRESHOLD) by decide),
      if_neg (show ¬ (REG_MODEM_CONFIG_1 = REG_DETECTION_OPTIMIZE) by decide)]
    have h := ldo_rewrite (s.chip.regs REG_MODEM_CONFIG_3)
      (ldo_condition
        ((s.chip.regs REG_MODEM_CONFIG_2 % 256 &&& 0x0f |||
          (max 6 (min sf 12)).toNat <<< 4 &&& 0xf0) % 256 / 16)
        (bw_hz (s.chip.regs REG_MODEM_CONFIG_1 % 256 / 16)))
    refine ⟨?_, h.2⟩
    rw [h.1]
    simp [ldo_condition]
  · have h10 := (bw_index_spec sbw).1
    have hn := bw_nibble (s.chip.regs REG_MODEM_CONFIG_1 % 256) (bw_index sbw) (by omega)
    rw [set_signal_bandwidth_regfile, set_ldo_flag_regfile _
      (by simp only [setAt, if_true]; rw [Nat.mod_eq_of_lt hn.2, hn.1]; omega)]
    refine ⟨_, rfl, ?_⟩
    simp only [setAt, if_true,
      if_neg (show ¬ (REG_MODEM_CONFIG_3 = REG_MODEM_CONFIG_1) by decide),
      if_neg (show ¬ (REG_MODEM_CONFIG_2 = REG_MODEM_CONFIG_3) by decide),
      if_neg (show ¬ (REG_MODEM_CONFIG_1 = REG_MODEM_CONFIG_3) by decide),
      if_neg (show ¬ (REG_MODEM_CONFIG_2 = REG_MODEM_CONFIG_1) by decide)]
    have h := ldo_rewrite (s.chip.regs REG_MODEM_CONFIG_3)
      (ldo_condition (s.chip.regs REG_MODEM_CONFIG_2 % 256 / 16)
        (bw_hz ((s.chip.regs REG_MODEM_CONFIG_1 % 256 &&& 0x0f ||| bw_index sbw <<< 4)
          % 256 / 16)))
    refine ⟨?_, h.2⟩
    rw [h.1]
    simp [ldo_condition]

/-- Witness of `ldo_flag_after_setters`: spreading factor 12 and bandwidth
125 kHz on the zeroed register file (bandwidth index 0). -/
theorem ldo_flag_after_setters_witness :
    st0.chip.regs REG_MODEM_CONFIG_1 % 256 / 16 ≤ 9 ∧
    (∃ t, lora_set_spreading_factor regfile st0 12 = Except.ok t ∧
        (t.chip.regs REG_MODEM_CONFIG_3 &&& 0x08 = 0x08 ↔
          (1000 * 2 ^ (t.chip.regs REG_MODEM_CONFIG_2 % 256 / 16))
            / (bw_hz (t.chip.regs REG_MODEM_CONFIG_1 % 256 / 16) / 1000) > 16) ∧
        t.chip.regs REG_MODEM_CONFIG_3 &&& 0xf7
          = st0.chip.regs REG_MODEM_CONFIG_3 % 256 &&& 0xf7) ∧
    (∃ t, lora_set_signal_bandwidth regfile st0 125000 = Except.ok t ∧
        (t.chip.regs REG_MODEM_CONFIG_3 &&& 0x08 = 0x08 ↔
          (1000 * 2 ^ (t.chip.regs REG_MODEM_CONFIG_2 % 256 / 16))
            / (bw_hz (t.chip.regs REG_MODEM_CONFIG_1 % 256 / 16) / 1000) > 16) ∧
        t.chip.regs REG_MODEM_CONFIG_3 &&& 0xf7
          = st0.chip.regs REG_MODEM_CONFIG_3 % 256 &&& 0xf7) :=
  ⟨by decide, ldo_flag_after_setters st0 12 125000 (by decide)⟩

/-! ## Fields that share a register -/

set_option maxRecDepth 100000 in
theorem sign_bits : ∀ m < 256, m &&& 0x7 = m % 8 ∧ (m &&& 0x8 ≠ 0 ↔ 8 ≤ m % 16) := by
  decide

theorem toInt32_id (x : Int) (h1 : -2147483648 ≤ x) (h2 : x < 2147483648) : toInt32 x = x := by
  unfold toInt32
  omega

/-- The arithmetic of `lora_packet_frequency_error` on three bytes: none of
the `int32_t` operations wraps. -/
theorem frequency_error_arith (a b c : Nat) (ha : a < 8) (hb : b < 256) (hc : c < 256) :
    toInt32 (toInt32 (toInt32 (toInt32 (toInt32 (a : Int) * 2 ^ 8) + (b : Int)) * 2 ^ 8)
        + (c : Int)) = ((a * 65536 + b * 256 + c : Nat) : Int) ∧
    toInt32 (((a * 65536 + b * 256 + c : Nat) : Int) - 524288)
      = ((a * 65536 + b * 256 + c : Nat) : Int) - 524288 := by
  have e1 : toInt32 (a : Int) = a := toInt32_id _ (by omega) (by omega)
  have e2 : toInt32 ((a : Int) * 2 ^ 8) = (a : Int) * 256 := toInt32_id _ (by omega) (by omega)
  have e3 : toInt32 ((a : Int) * 256 + (b : Int)) = (a : Int) * 256 + b :=
    toInt32_id _ (by omega) (by omega)
  have e4 : toInt32 (((a : Int) * 256 + (b : Int)) * 2 ^ 8) = (a : Int) * 65536 + (b : Int) * 256 := by
    rw [toInt32_id _ (by omega) (by omega)]; omega
  have e5 : toInt32 ((a : Int) * 65536 + (b : Int) * 256 + (c : Int))
      = (a : Int) * 65536 + (b : Int) * 256 + (c : Int) := toInt32_id _ (by omega) (by omega)
  constructor
  · rw [e1, e2, e3, e4, e5]; push_cast; rfl
  · rw [toInt32_id _ (by omega) (by omega)]

/-- On the register-file chip the four reads of `lora_packet_frequency_error`
leave the state as it is, and the raw value is computed from the three bytes. -/
theorem frequency_error_raw_regfile (s : St Chip) :
    lora_packet_frequency_error_raw regfile s
      = ((((s.chip.regs REG_FREQ_ERROR_MSB % 256 % 8) * 65536
            + s.chip.regs REG_FREQ_ERROR_MID % 256 * 256
            + s.chip.regs REG_FREQ_ERROR_LSB % 256 : Nat) : Int)
          - (if 8 ≤ s.chip.regs REG_FREQ_ERROR_MSB % 256 % 16 then 524288 else 0), s) := by
  have hm : s.chip.regs REG_FREQ_ERROR_MSB % 256 < 256 := Nat.mod_lt _ (by decide)
  have hb := sign_bits _ hm
  have ha := frequency_error_arith (s.chip.regs REG_FREQ_ERROR_MSB % 256 % 8)
    (s.chip.regs REG_FREQ_ERROR_MID % 256) (s.chip.regs REG_FREQ_ERROR_LSB % 256)
    (Nat.mod_lt _ (by decide)) (Nat.mod_lt _ (by decide)) (Nat.mod_lt _ (by decide))
  simp only [lora_packet_frequency_error_raw]
  simp only [regfile_read _ REG_FREQ_ERROR_MSB (by decide) (by decide),
    regfile_read _ REG_FREQ_ERROR_MID (by decide) (by decide),
    regfile_read _ REG_FREQ_ERROR_LSB (by decide) (by decide)]
  rw [hb.1, ha.1]
  by_cases h8 : 8 ≤ s.chip.regs REG_FREQ_ERROR_MSB % 256 % 16
  · rw [if_pos (hb.2.2 h8), if_pos h8, ha.2]
  · rw [if_neg (fun h => h8 (hb.2.1 h)), if_neg h8, sub_zero]

/-- C23: on the register-file chip, for all bytes `msb`, `mid`, `lsb` held in
the three frequency-error registers, the raw integer `lora_packet_frequency_error`
assembles before any scaling is
`((msb & 7) * 65536 + mid * 256 + lsb) - (524288 if bit 3 of msb is set, else 0)`;
it lies in `[-524288, 524287]` and it is the two's-complement value of the
20-bit word made of the low nibble of `msb`, `mid` and `lsb`, so bits 7..4 of
`msb` have no influence. -/
theorem frequency_error_raw_value (s : St Chip) :
    (lora_packet_frequency_error_raw regfile s).1
      = (((s.chip.regs REG_FREQ_ERROR_MSB % 256 &&& 7) * 65536
            + s.chip.regs REG_FREQ_ERROR_MID % 256 * 256
            + s.chip.regs REG_FREQ_ERROR_LSB % 256 : Nat) : Int)
          - (if s.chip.regs REG_FREQ_ERROR_MSB % 256 &&& 8 ≠ 0 then 524288 else 0) ∧
    -524288 ≤ (lora_packet_frequency_error_raw regfile s).1 ∧
    (lora_packet_frequency_error_raw regfile s).1 ≤ 524287 ∧
    (lora_packet_frequency_error_raw regfile s).1
      = twos_complement20 (s.chip.regs REG_FREQ_ERROR_MSB % 16 * 65536
            + s.chip.regs REG_FREQ_ERROR_MID % 256 * 256
            + s.chip.regs REG_FREQ_ERROR_LSB % 256) := by
  have hm : s.chip.regs REG_FREQ_ERROR_MSB % 256 < 256 := Nat.mod_lt _ (by decide)
  have hb := sign_bits _ hm
  have h2 : s.chip.regs REG_FREQ_ERROR_MID % 256 < 256 := Nat.mod_lt _ (by decide)
  have h3 : s.chip.regs REG_FREQ_ERROR_LSB % 256 < 256 := Nat.mod_lt _ (by decide)
  rw [frequency_error_raw_regfile]
  simp only [hb.1, twos_complement20]
  generalize s.chip.regs REG_FREQ_ERROR_MSB = m at *
  generalize s.chip.regs REG_FREQ_ERROR_MID % 256 = b at *
  generalize s.chip.regs REG_FREQ_ERROR_LSB % 256 = c at *
  have hif : (if m % 256 &&& 8 ≠ 0 then (524288 : Int) else 0)
      = if 8 ≤ m % 256 % 16 then 524288 else 0 := by
    by_cases h8 : 8 ≤ m % 256 % 16
    · rw [if_pos (hb.2.2 h8), if_pos h8]
    · rw [if_neg (fun h => h8 (hb.2.1 h)), if_neg h8]
  rw [hif]
  refine ⟨rfl, ?_, ?_, ?_⟩
  · split <;> omega
  · split <;> omega
  · split <;> split <;> omega

/-! ## Over-current protection below 45 mA -/

/-- From 45 mA up the trim code `lora_set_ocp` writes does not decrease when
the requested current grows. -/
theorem set_ocp_monotone_from_45 (d : Device σ) (s : St σ) (c1 c2 : Nat) (h45 : 45 ≤ c1)
    (h12 : c1 ≤ c2) (h255 : c2 ≤ 255) :
    ∃ t1 t2, (lora_set_ocp d s c1).writes = s.writes ++ [(REG_OCP, 0x20 ||| t1)] ∧
      (lora_set_ocp d s c2).writes = s.writes ++ [(REG_OCP, 0x20 ||| t2)] ∧
      t1 ≤ t2 ∧ t2 ≤ 27 := by
  obtain ⟨h1, -⟩ := ocp_table c1 (by omega) h45
  obtain ⟨h2, h3⟩ := ocp_table c2 (by omega) (by omega)
  refine ⟨(if c1 ≤ 120 then (c1 - 45) / 5 else if c1 ≤ 240 then (c1 + 30) / 10 else 27),
    (if c2 ≤ 120 then (c2 - 45) / 5 else if c2 ≤ 240 then (c2 + 30) / 10 else 27), ?_, ?_, ?_, h3⟩
  · unfold lora_set_ocp
    rw [write_register_writes _ _ _ _ (by decide)]
    exact congrArg (fun v => s.writes ++ [(REG_OCP, v)]) h1
  · unfold lora_set_ocp
    rw [write_register_writes _ _ _ _ (by decide)]
    exact congrArg (fun v => s.writes ++ [(REG_OCP, v)]) h2
  · split_ifs <;> omega

/-- C25: the over-current encoding is not monotonic on `0..255`.  A request
of 40 mA makes `lora_set_ocp` write REG_OCP = 0x3F, trim code 31 (the `int`
quotient `(40 - 45) / 5 = -1` stored in a `uint8_t` is 255, masked to 31),
while the larger request of 45 mA writes 0x20, trim code 0; a request of 0 mA
gives trim code 23. -/
theorem set_ocp_below_45_not_monotonic :
    (lora_set_ocp regfile st0 40).writes = [(REG_OCP, 0x3F)] ∧
    (lora_set_ocp regfile st0 45).writes = [(REG_OCP, 0x20)] ∧
    ocp_trim_code 40 = some 31 ∧ ocp_trim_code 45 = some 0 ∧
    ocp_trim_code 0 = some 23 ∧
    ¬ (∀ c1 c2 : Nat, c1 ≤ c2 → c2 ≤ 255 →
        ∀ t1 t2, ocp_trim_code c1 = some t1 → ocp_trim_code c2 = some t2 → t1 ≤ t2) := by
  have h40 : (lora_set_ocp regfile st0 40).writes = [(REG_OCP, 0x3F)] := by decide
  have h45 : (lora_set_ocp regfile st0 45).writes = [(REG_OCP, 0x20)] := by decide
  have h0 : (lora_set_ocp regfile st0 0).writes = [(REG_OCP, 0x37)] := by decide
  have t40 : ocp_trim_code 40 = some 31 := by unfold ocp_trim_code; rw [h40]; decide
  have t45 : ocp_trim_code 45 = some 0 := by unfold ocp_trim_code; rw [h45]; decide
  have t0 : ocp_trim_code 0 = some 23 := by unfold ocp_trim_code; rw [h0]; decide
  refine ⟨h40, h45, t40, t45, t0, ?_⟩
  intro h
  exact absurd (h 40 45 (by decide) (by decide) 31 0 t40 t45) (by decide)

/-! ## The frames of `lora_parse_packet` -/

theorem traced_read_frames (d : Device σ) (s : St (σ × List (Nat × Nat))) (a : Nat)
    (h : a < 128) :
    (read_register (traced d) s a).2.chip.2 = s.chip.2 ++ [(a, 0)] := by
  rw [read_register_chip _ _ _ h]; rfl

theorem traced_write_frames (d : Device σ) (s : St (σ × List (Nat × Nat))) (a v : Nat)
    (h : a < 128) :
    (write_register (traced d) s a v).chip.2 = s.chip.2 ++ [((a ||| 0x80) % 256, v % 256)] := by
  rw [write_register_chip _ _ _ _ h]; rfl

theorem traced_read_val (d : Device σ) (s : St (σ × List (Nat × Nat))) (a : Nat)
    (h : a < 128) :
    (read_register (traced d) s a).1 = (d.xfer s.chip.1 a 0).1 % 256 := by
  rw [read_register_val _ _ _ h]; rfl

theorem traced_read_chip (d : Device σ) (s : St (σ × List (Nat × Nat))) (a : Nat)
    (h : a < 128) :
    (read_register (traced d) s a).2.chip.1 = (d.xfer s.chip.1 a 0).2 := by
  rw [read_register_chip _ _ _ h]; rfl

theorem traced_write_chip (d : Device σ) (s : St (σ × List (Nat × Nat))) (a v : Nat)
    (h : a < 128) :
    (write_register (traced d) s a v).chip.1
      = (d.xfer s.chip.1 ((a ||| 0x80) % 256) (v % 256)).2 := by
  rw [write_register_chip _ _ _ _ h]; rfl

theorem replay_append (d : Device σ) (c : σ) (l1 l2 : List (Nat × Nat)) :
    replay d c (l1 ++ l2) = replay d (replay d c l1) l2 := by
  unfold replay
  rw [List.foldl_append]

/-- The frames, the chip state and the context flag of the header-mode
selection at the top of `lora_parse_packet`. -/
theorem header_selection_frames (d : Device σ) (s : St (σ × List (Nat × Nat))) (size : Int) :
    ∃ hdr, (if size > 0 then
          write_register (traced d) (implicit_header_mode (traced d) s) REG_PAYLOAD_LENGTH
            (size.toNat &&& 0xff)
        else explicit_header_mode (traced d) s).chip.2 = s.chip.2 ++ hdr ∧
      (∀ f ∈ hdr, f.1 &&& 0x7f = REG_MODEM_CONFIG_1 ∨ f.1 = REG_PAYLOAD_LENGTH ||| 0x80) ∧
      (if size > 0 then
          write_register (traced d) (implicit_header_mode (traced d) s) REG_PAYLOAD_LENGTH
            (size.toNat &&& 0xff)
        else explicit_header_mode (traced d) s).ctx.implicit_header_mode
        = (if size > 0 then 1 else 0) ∧
      (if size > 0 then
          write_register (traced d) (implicit_header_mode (traced d) s) REG_PAYLOAD_LENGTH
            (size.toNat &&& 0xff)
        else explicit_header_mode (traced d) s).chip.1 = replay d s.chip.1 hdr := by
  by_cases hs : size > 0
  · simp only [if_pos hs, implicit_header_mode, write_register_ctx, read_register_ctx,
      traced_write_frames _ _ REG_PAYLOAD_LENGTH _ (by decide),
      traced_write_frames _ _ REG_MODEM_CONFIG_1 _ (by decide),
      traced_read_frames _ _ REG_MODEM_CONFIG_1 (by decide),
      traced_write_chip _ _ REG_PAYLOAD_LENGTH _ (by decide),
      traced_write_chip _ _ REG_MODEM_CONFIG_1 _ (by decide),
      traced_read_chip _ _ REG_MODEM_CONFIG_1 (by decide), List.append_assoc]
    refine ⟨_, rfl, ?_, trivial, rfl⟩
    intro f hf
    simp only [List.cons_append, List.nil_append, List.mem_cons, List.mem_singleton,
      List.not_mem_nil, or_false] at hf
    rcases hf with h | h | h <;> subst h <;> simp [REG_MODEM_CONFIG_1, REG_PAYLOAD_LENGTH] <;> decide
  · simp only [if_neg hs, explicit_header_mode, write_register_ctx, read_register_ctx,
      traced_write_frames _ _ REG_MODEM_CONFIG_1 _ (by decide),
      traced_read_frames _ _ REG_MODEM_CONFIG_1 (by decide),
      traced_write_chip _ _ REG_MODEM_CONFIG_1 _ (by decide),
      traced_read_chip _ _ REG_MODEM_CONFIG_1 (by decide), List.append_assoc]
    refine ⟨_, rfl, ?_, trivial, rfl⟩
    intro f hf
    simp only [List.cons_append, List.nil_append, List.mem_cons, List.mem_singleton,
      List.not_mem_nil, or_false] at hf
    rcases hf with h | h <;> subst h <;> simp [REG_MODEM_CONFIG_1, REG_PAYLOAD_LENGTH] <;> decide

theorem frame_not_irq (a v : Nat) (h : a &&& 0x7f ≠ REG_IRQ_FLAGS) :
    ((a, v) : Nat × Nat).1 &&& 0x7f ≠ REG_IRQ_FLAGS := h

theorem replay_one (d : Device σ) (c : σ) (a v : Nat) :
    replay d c [(a, v)] = (d.xfer c a v).2 := rfl

/-- C24 (as amended): for every chip, every `size` and every value of the
flags, the frames `lora_parse_packet` sends are: one read of REG_IRQ_FLAGS
first (its answer is the snapshot), the frames of the header-mode selection
(REG_MODEM_CONFIG_1 and the write of REG_PAYLOAD_LENGTH only), one write of
REG_IRQ_FLAGS with the snapshot as value, and a tail without any frame that
addresses REG_IRQ_FLAGS.  When the snapshot has receive-done set and CRC error
clear the tail is that of the packet branch (length register, current RX
address, FIFO pointer set to the byte just read, Standby).  Otherwise the tail
starts with the one read of REG_OP_MODE, sent to the chip in the state the
frames up to the clear have left it in, and the byte the chip answers decides:
when it is not RX-single (0x86) the writes of REG_FIFO_ADDR_PTR = 0 and
RX-single follow (arm), when it is RX-single nothing follows (wait). -/
theorem parse_packet_irq_snapshot (d : Device σ) (s : St (σ × List (Nat × Nat)))
    (size : Int) :
    ∃ hdr tail,
      (lora_parse_packet (traced d) s size).2.chip.2
        = s.chip.2 ++ [(REG_IRQ_FLAGS, 0)] ++ hdr
            ++ [(REG_IRQ_FLAGS ||| 0x80, (d.xfer s.chip.1 REG_IRQ_FLAGS 0).1 % 256)] ++ tail ∧
      (∀ f ∈ hdr, f.1 &&& 0x7f = REG_MODEM_CONFIG_1 ∨ f.1 = REG_PAYLOAD_LENGTH ||| 0x80) ∧
      (∀ f ∈ hdr ++ tail, f.1 &&& 0x7f ≠ REG_IRQ_FLAGS) ∧
      (if (d.xfer s.chip.1 REG_IRQ_FLAGS 0).1 % 256 &&& IRQ_RX_DONE_MASK ≠ 0 ∧
            (d.xfer s.chip.1 REG_IRQ_FLAGS 0).1 % 256 &&& IRQ_PAYLOAD_CRC_ERROR_MASK = 0 then
          tail = [(if size > 0 then REG_PAYLOAD_LENGTH else REG_RX_NB_BYTES, 0),
                  (REG_FIFO_RX_CURRENT_ADDR, 0),
                  (REG_FIFO_ADDR_PTR ||| 0x80,
                    (d.xfer (replay d s.chip.1 ([(REG_IRQ_FLAGS, 0)] ++ hdr ++
                        [(REG_IRQ_FLAGS ||| 0x80, (d.xfer s.chip.1 REG_IRQ_FLAGS 0).1 % 256),
                         (if size > 0 then REG_PAYLOAD_LENGTH else REG_RX_NB_BYTES, 0)]))
                      REG_FIFO_RX_CURRENT_ADDR 0).1 % 256),
                  (REG_OP_MODE ||| 0x80, MODE_LONG_RANGE_MODE ||| MODE_STDBY)]
        else
          tail = if (d.xfer (replay d s.chip.1 ([(REG_IRQ_FLAGS, 0)] ++ hdr ++
                        [(REG_IRQ_FLAGS ||| 0x80, (d.xfer s.chip.1 REG_IRQ_FLAGS 0).1 % 256)]))
                      REG_OP_MODE 0).1 % 256 ≠ MODE_LONG_RANGE_MODE ||| MODE_RX_SINGLE then
              [(REG_OP_MODE, 0), (REG_FIFO_ADDR_PTR ||| 0x80, 0),
               (REG_OP_MODE ||| 0x80, MODE_LONG_RANGE_MODE ||| MODE_RX_SINGLE)]
            else [(REG_OP_MODE, 0)]) := by
  obtain ⟨hdr, hh, hp, hc, hh1⟩ :=
    header_selection_frames d (read_register (traced d) s REG_IRQ_FLAGS).2 size
  rw [traced_read_frames _ _ REG_IRQ_FLAGS (by decide)] at hh
  rw [traced_read_chip _ _ REG_IRQ_FLAGS (by decide)] at hh1
  have hnot : ∀ f ∈ hdr, f.1 &&& 0x7f ≠ REG_IRQ_FLAGS := by
    intro f hf
    rcases hp f hf with h | h
    · rw [h]; decide
    · rw [h]; decide
  unfold lora_parse_packet
  simp only []
  rw [traced_read_val _ _ REG_IRQ_FLAGS (by decide)]
  generalize (if size > 0 then
      write_register (traced d) (implicit_header_mode (traced d)
        (read_register (traced d) s REG_IRQ_FLAGS).2) REG_PAYLOAD_LENGTH (size.toNat &&& 0xff)
    else explicit_header_mode (traced d) (read_register (traced d) s REG_IRQ_FLAGS).2) = s1
    at hh hc hh1
  have hsnap : (d.xfer s.chip.1 REG_IRQ_FLAGS 0).1 % 256 < 256 := Nat.mod_lt _ (by decide)
  generalize (d.xfer s.chip.1 REG_IRQ_FLAGS 0).1 % 256 = snap at hsnap ⊢
  have h2 : (write_register (traced d) s1 REG_IRQ_FLAGS snap).chip.2
      = s.chip.2 ++ [(REG_IRQ_FLAGS, 0)] ++ hdr ++ [(REG_IRQ_FLAGS ||| 0x80, snap)] := by
    rw [traced_write_frames _ _ REG_IRQ_FLAGS _ (by decide), hh, Nat.mod_eq_of_lt hsnap]; rfl
  have h2c : (write_register (traced d) s1 REG_IRQ_FLAGS snap).ctx.implicit_header_mode
      = if size > 0 then 1 else 0 := by
    rw [write_register_ctx, hc]
  have h2p : (write_register (traced d) s1 REG_IRQ_FLAGS snap).chip.1
      = replay d s.chip.1 ([(REG_IRQ_FLAGS, 0)] ++ hdr ++ [(REG_IRQ_FLAGS ||| 0x80, snap)]) := by
    rw [traced_write_chip _ _ REG_IRQ_FLAGS _ (by decide), hh1, Nat.mod_eq_of_lt hsnap,
      replay_append, replay_append]
    rfl
  generalize write_register (traced d) s1 REG_IRQ_FLAGS snap = s2 at h2 h2c h2p ⊢
  have hpk : ∀ a : Nat, replay d s.chip.1 ([(REG_IRQ_FLAGS, 0)] ++ hdr ++
        [(REG_IRQ_FLAGS ||| 0x80, snap), (a, 0)]) = (d.xfer s2.chip.1 a 0).2 := by
    intro a
    rw [h2p, ← replay_one d _ a 0, ← replay_append]
    simp only [List.append_assoc, List.cons_append, List.nil_append]
  by_cases hP : snap &&& IRQ_RX_DONE_MASK ≠ 0 ∧ snap &&& IRQ_PAYLOAD_CRC_ERROR_MASK = 0
  · simp only [if_pos hP, h2c, lora_idle]
    by_cases hs : size > 0
    · simp only [if_pos hs, if_pos (show (1 : Int) ≠ 0 by decide),
        traced_write_frames _ _ REG_OP_MODE _ (by decide),
        traced_write_frames _ _ REG_FIFO_ADDR_PTR _ (by decide),
        traced_read_frames _ _ REG_FIFO_RX_CURRENT_ADDR (by decide),
        traced_read_frames _ _ REG_PAYLOAD_LENGTH (by decide),
        traced_read_val _ _ REG_FIFO_RX_CURRENT_ADDR (by decide),
        traced_read_chip _ _ REG_PAYLOAD_LENGTH (by decide), h2, Nat.mod_mod]
      refine ⟨hdr, _, ?_, hp, ?_, rfl⟩
      · rw [hpk]
        simp only [List.append_assoc, List.cons_append, List.nil_append]
        rfl
      · intro f hf
        rcases List.mem_append.mp hf with h | h
        · exact hnot f h
        · simp only [List.mem_cons, List.mem_singleton, List.not_mem_nil, or_false] at h
          rcases h with h | h | h | h <;> subst h <;>
            first | decide | exact frame_not_irq _ _ (by decide)
    · simp only [if_neg hs, if_neg (show ¬ ((0 : Int) ≠ 0) by decide),
        traced_write_frames _ _ REG_OP_MODE _ (by decide),
        traced_write_frames _ _ REG_FIFO_ADDR_PTR _ (by decide),
        traced_read_frames _ _ REG_FIFO_RX_CURRENT_ADDR (by decide),
        traced_read_frames _ _ REG_RX_NB_BYTES (by decide),
        traced_read_val _ _ REG_FIFO_RX_CURRENT_ADDR (by decide),
        traced_read_chip _ _ REG_RX_NB_BYTES (by decide), h2, Nat.mod_mod]
      refine ⟨hdr, _, ?_, hp, ?_, rfl⟩
      · rw [hpk]
        simp only [List.append_assoc, List.cons_append, List.nil_append]
        rfl
      · intro f hf
        rcases List.mem_append.mp hf with h | h
        · exact hnot f h
        · simp only [List.mem_cons, List.mem_singleton, List.not_mem_nil, or_false] at h
          rcases h with h | h | h | h <;> subst h <;>
            first | decide | exact frame_not_irq _ _ (by decide)
  · have hmv : (read_register (traced d) s2 REG_OP_MODE).1
        = (d.xfer (replay d s.chip.1 ([(REG_IRQ_FLAGS, 0)] ++ hdr ++
            [(REG_IRQ_FLAGS ||| 0x80, snap)])) REG_OP_MODE 0).1 % 256 := by
      rw [traced_read_val _ _ REG_OP_MODE (by decide), h2p]
    simp only [if_neg hP]
    by_cases hm : (read_register (traced d) s2 REG_OP_MODE).1
        ≠ (MODE_LONG_RANGE_MODE ||| MODE_RX_SINGLE)
    · simp only [if_pos hm,
        traced_write_frames _ _ REG_OP_MODE _ (by decide),
        traced_write_frames _ _ REG_FIFO_ADDR_PTR _ (by decide),
        traced_read_frames _ _ REG_OP_MODE (by decide), h2]
      rw [hmv] at hm
      refine ⟨hdr, _, ?_, hp, ?_, (if_pos hm).symm⟩
      · simp only [List.append_assoc, List.cons_append, List.nil_append]
        rfl
      · intro f hf
        rcases List.mem_append.mp hf with h | h
        · exact hnot f h
        · simp only [List.mem_cons, List.mem_singleton, List.not_mem_nil, or_false] at h
          rcases h with h | h | h <;> subst h <;> decide
    · simp only [if_neg hm, traced_read_frames _ _ REG_OP_MODE (by decide), h2]
      rw [hmv] at hm
      refine ⟨hdr, _, ?_, hp, ?_, (if_neg hm).symm⟩
      · simp only [List.append_assoc, List.cons_append, List.nil_append]
      · intro f hf
        rcases List.mem_append.mp hf with h | h
        · exact hnot f h
        · simp only [List.mem_cons, List.mem_singleton, List.not_mem_nil, or_false] at h
          subst h; decide

/-- Witness of `parse_packet_irq_snapshot` on the traced register file in
Standby. -/
theorem parse_packet_irq_snapshot_witness :
    ∃ hdr tail,
      (lora_parse_packet (traced regfile) st_traced_stdby 0).2.chip.2
        = st_traced_stdby.chip.2 ++ [(REG_IRQ_FLAGS, 0)] ++ hdr
            ++ [(REG_IRQ_FLAGS ||| 0x80,
                  (regfile.xfer st_traced_stdby.chip.1 REG_IRQ_FLAGS 0).1 % 256)] ++ tail ∧
      (∀ f ∈ hdr, f.1 &&& 0x7f = REG_MODEM_CONFIG_1 ∨ f.1 = REG_PAYLOAD_LENGTH ||| 0x80) ∧
      (∀ f ∈ hdr ++ tail, f.1 &&& 0x7f ≠ REG_IRQ_FLAGS) ∧
      (if (regfile.xfer st_traced_stdby.chip.1 REG_IRQ_FLAGS 0).1 % 256 &&& IRQ_RX_DONE_MASK ≠ 0 ∧
            (regfile.xfer st_traced_stdby.chip.1 REG_IRQ_FLAGS 0).1 % 256
              &&& IRQ_PAYLOAD_CRC_ERROR_MASK = 0 then
          tail = [(if (0 : Int) > 0 then REG_PAYLOAD_LENGTH else REG_RX_NB_BYTES, 0),
                  (REG_FIFO_RX_CURRENT_ADDR, 0),
                  (REG_FIFO_ADDR_PTR ||| 0x80,
                    (regfile.xfer (replay regfile st_traced_stdby.chip.1
                        ([(REG_IRQ_FLAGS, 0)] ++ hdr ++
                        [(REG_IRQ_FLAGS ||| 0x80,
                            (regfile.xfer st_traced_stdby.chip.1 REG_IRQ_FLAGS 0).1 % 256),
                         (if (0 : Int) > 0 then REG_PAYLOAD_LENGTH else REG_RX_NB_BYTES, 0)]))
                      REG_FIFO_RX_CURRENT_ADDR 0).1 % 256),
                  (REG_OP_MODE ||| 0x80, MODE_LONG_RANGE_MODE ||| MODE_STDBY)]
        else
          tail = if (regfile.xfer (replay regfile st_traced_stdby.chip.1
                        ([(REG_IRQ_FLAGS, 0)] ++ hdr ++
                        [(REG_IRQ_FLAGS ||| 0x80,
                            (regfile.xfer st_traced_stdby.chip.1 REG_IRQ_FLAGS 0).1 % 256)]))
                      REG_OP_MODE 0).1 % 256 ≠ MODE_LONG_RANGE_MODE ||| MODE_RX_SINGLE then
              [(REG_OP_MODE, 0), (REG_FIFO_ADDR_PTR ||| 0x80, 0),
               (REG_OP_MODE ||| 0x80, MODE_LONG_RANGE_MODE ||| MODE_RX_SINGLE)]
            else [(REG_OP_MODE, 0)]) :=
  parse_packet_irq_snapshot regfile st_traced_stdby 0

/-- C24 as stated fails for the choice between arming the receiver and
waiting: the two traced register files below answer the one read of
REG_IRQ_FLAGS with the same snapshot (0, no packet), yet from Standby (0x81)
`lora_parse_packet` arms the receiver (writes REG_FIFO_ADDR_PTR and RX-single)
and from RX-single (0x86) it waits (no frame after the read of REG_OP_MODE):
that choice is made from the read of REG_OP_MODE, not from the snapshot. -/
theorem parse_packet_branch_counterexample :
    (regfile.xfer st_traced_stdby.chip.1 REG_IRQ_FLAGS 0).1 % 256 = 0 ∧
    (regfile.xfer st_traced_rx.chip.1 REG_IRQ_FLAGS 0).1 % 256 = 0 ∧
    (lora_parse_packet (traced regfile) st_traced_stdby 0).2.chip.2
      = [(0x12, 0), (0x1d, 0), (0x9d, 0), (0x92, 0), (0x01, 0), (0x8d, 0), (0x81, 0x86)] ∧
    (lora_parse_packet (traced regfile) st_traced_rx 0).2.chip.2
      = [(0x12, 0), (0x1d, 0), (0x9d, 0), (0x92, 0), (0x01, 0)] := by
  decide

/-! ## Printing numbers -/

theorem stdout_write_buffer_console (l : List Nat) :
    ∀ ctx : PrintCtx (List Nat),
      stdout_write_buffer console ctx l = (l.length, { ctx with out := ctx.out ++ l }) := by
  induction l with
  | nil => intro ctx; simp [stdout_write_buffer]
  | cons b bs ih =>
    intro ctx
    have h := ih { ctx with out := ctx.out ++ [b] }
    simp only [stdout_write_buffer, console] at h ⊢
    rw [h]
    simp

theorem stdout_write_byte_console (ctx : PrintCtx (List Nat)) (b : Nat) :
    stdout_write_byte console ctx b = (1, { ctx with out := ctx.out ++ [b] }) := by
  simp [stdout_write_byte, console]

/-- The character `print_number` stores for a digit value below 36. -/
theorem digit_char_code (d : Nat) (hd : d < 36) :
    (if d % 256 < 10 then d % 256 + 48 else d % 256 + 65 - 10) % 256 = digit_char d := by
  unfold digit_char
  have h : d % 256 = d := Nat.mod_eq_of_lt (by omega)
  rw [h]
  split <;> omega

theorem digit_value_char (d : Nat) (hd : d < 36) : digit_value (digit_char d) = d := by
  unfold digit_value digit_char
  split <;> split <;> omega

theorem digit_char_range (d : Nat) (hd : d < 36) :
    (48 ≤ digit_char d ∧ digit_char d ≤ 57 ∨ 65 ≤ digit_char d ∧ digit_char d ≤ 90) ∧
    digit_char d ≠ 0 ∧ (digit_char d = 48 → d = 0) := by
  unfold digit_char
  split <;> omega

/-- The numeral of `n` from the numeral of `n / b` and the last digit. -/
theorem numeral_step (b n : Nat) (hb : 2 ≤ b) (hq : n / b ≠ 0) :
    numeral b n = numeral b (n / b) ++ [digit_char (n % b)] := by
  have hn : n ≠ 0 := by
    intro h; rw [h] at hq; simp at hq
  unfold numeral
  rw [if_neg hn, if_neg hq, Nat.digits_def' (by omega) (Nat.pos_of_ne_zero hn)]
  simp

theorem numeral_small (b n : Nat) (hb : 2 ≤ b) (hq : n / b = 0) :
    numeral b n = [digit_char (n % b)] := by
  have hlt : n < b := (Nat.div_eq_zero_iff (by omega)).mp hq
  unfold numeral
  by_cases hn : n = 0
  · rw [if_pos hn, hn]; simp [digit_char]
  · rw [if_neg hn, Nat.digits_of_lt b n hn hlt, Nat.mod_eq_of_lt hlt]; rfl

/-- The do-while loop of `print_number` puts the numeral of `n` in front of
`str`, as soon as `buf` has room for it. -/
theorem print_number_loop_numeral (base : Nat) (hb : 2 ≤ base) (hb36 : base ≤ 36) :
    ∀ room n str, 0 < room → n < base ^ room →
      print_number_loop base room n str = some (numeral base n ++ str) := by
  intro room
  induction room with
  | zero => intro n str h; omega
  | succ room ih =>
    intro n str _ hn
    have hd : n % base < 36 := lt_of_lt_of_le (Nat.mod_lt _ (by omega)) hb36
    simp only [print_number_loop, digit_char_code _ hd]
    by_cases hq : n / base ≠ 0
    · have hq1 : n / base < base ^ room := by
        rw [Nat.div_lt_iff_lt_mul (by omega)]
        rw [Nat.pow_succ] at hn
        exact hn
      have hroom : 0 < room := by
        rcases Nat.eq_zero_or_pos room with h | h
        · rw [h] at hq1; simp at hq1; exact absurd hq1 hq
        · exact h
      rw [if_pos hq, ih _ _ hroom hq1, numeral_step base n hb hq]
      simp
    · rw [if_neg hq, numeral_small base n hb (not_not.mp hq)]
      rfl

theorem numeral_chars (b n : Nat) (hb : 2 ≤ b) (hb36 : b ≤ 36) :
    ∀ c ∈ numeral b n, (48 ≤ c ∧ c ≤ 57 ∨ 65 ≤ c ∧ c ≤ 90) ∧ digit_value c < b ∧ c ≠ 0 := by
  intro c hc
  unfold numeral at hc
  by_cases hn : n = 0
  · rw [if_pos hn] at hc
    simp at hc
    subst hc
    refine ⟨Or.inl (by decide), ?_, by decide⟩
    simp [digit_value]; omega
  · rw [if_neg hn] at hc
    simp only [List.mem_map, List.mem_reverse] at hc
    obtain ⟨d, hd, rfl⟩ := hc
    have hlt : d < b := Nat.digits_lt_base (by omega) hd
    have h36 : d < 36 := by omega
    have hr := digit_char_range d h36
    exact ⟨hr.1, by rw [digit_value_char d h36]; exact hlt, hr.2.1⟩

theorem numeral_no_leading_zero (b n : Nat) (hb : 2 ≤ b) (hb36 : b ≤ 36) (hn : n ≠ 0) :
    (numeral b n).head? ≠ some 48 := by
  unfold numeral
  rw [if_neg hn]
  have hne : Nat.digits b n ≠ [] := Nat.digits_ne_nil_iff_ne_zero.mpr hn
  have hlast := Nat.getLast_digit_ne_zero b hn
  have hmem : (Nat.digits b n).getLast hne ∈ Nat.digits b n := List.getLast_mem hne
  have hlt : (Nat.digits b n).getLast hne < 36 :=
    lt_of_lt_of_le (Nat.digits_lt_base (by omega) hmem) hb36
  rw [List.head?_map, List.head?_reverse, List.getLast?_eq_getLast _ hne]
  simp only [Option.map_some']
  intro h
  exact hlast ((digit_char_range _ hlt).2.2 (Option.some.inj h))

theorem read_digits (b : Nat) (l : List Nat) (h : ∀ d ∈ l, d < 36) :
    read_numeral b (l.reverse.map digit_char) = Nat.ofDigits b l := by
  induction l with
  | nil => simp [read_numeral]
  | cons d l ih =>
    have ih1 := ih (fun x hx => h x (List.mem_cons_of_mem _ hx))
    unfold read_numeral at ih1 ⊢
    rw [List.reverse_cons, List.map_append, List.foldl_append, ih1, Nat.ofDigits_cons]
    simp only [List.map_cons, List.map_nil, List.foldl_cons, List.foldl_nil]
    rw [digit_value_char d (h d (List.mem_cons_self _ _))]
    ring

theorem read_numeral_numeral (b n : Nat) (hb : 2 ≤ b) (hb36 : b ≤ 36) :
    read_numeral b (numeral b n) = n := by
  unfold numeral
  by_cases hn : n = 0
  · rw [if_pos hn, hn]; simp [read_numeral, digit_value]
  · rw [if_neg hn, read_digits b _ (fun d hd =>
      lt_of_lt_of_le (Nat.digits_lt_base (by omega) hd) hb36), Nat.ofDigits_digits]

/-- C27: for every `unsigned long` `n` and every base `b` in `2..36`,
`print_ulong(n, b)` on a console that takes every character returns, appends
to the output the base-`b` numeral of `n` (most significant digit first) and
returns its length.  The numeral uses only the characters `0-9` and `A-Z`,
each of value below `b`; it is the single character `0` when `n = 0` and does
not start with `0` otherwise; read back as a base-`b` numeral it gives `n`. -/
theorem print_ulong_numeral (ctx : PrintCtx (List Nat)) (n b : Nat)
    (hn : n < 2 ^ LONG_BITS) (hb : 2 ≤ b) (hb36 : b ≤ 36) :
    print_ulong console ctx n (b : Int)
      = some ((numeral b n).length, { ctx with out := ctx.out ++ numeral b n }) ∧
    (∀ c ∈ numeral b n, (48 ≤ c ∧ c ≤ 57 ∨ 65 ≤ c ∧ c ≤ 90) ∧ digit_value c < b) ∧
    (n = 0 → numeral b n = [48]) ∧
    (n ≠ 0 → (numeral b n).head? ≠ some 48) ∧
    read_numeral b (numeral b n) = n := by
  have hchars := numeral_chars b n hb hb36
  refine ⟨?_, fun c hc => ⟨(hchars c hc).1, (hchars c hc).2.1⟩, ?_,
    numeral_no_leading_zero b n hb hb36, read_numeral_numeral b n hb hb36⟩
  · have hb0 : ¬ ((b : Int) = 0) := by omega
    have hbb : ((b : Int) % 256).toNat = b := by omega
    have hb256 : b % 256 = b := Nat.mod_eq_of_lt (by omega)
    have hlt : n < b ^ LONG_BITS :=
      lt_of_lt_of_le hn (Nat.pow_le_pow_left hb LONG_BITS)
    unfold print_ulong
    rw [if_neg hb0, hbb]
    unfold print_number
    simp only [hb256, if_neg (show ¬ (b < 2) by omega), Nat.mod_eq_of_lt hn]
    rw [print_number_loop_numeral b hb hb36 LONG_BITS n [0] (by decide) hlt]
    simp only [print_write_str, print_write_buffer]
    rw [List.takeWhile_append_of_pos (fun c hc => by simpa using (hchars c hc).2.2)]
    simp [stdout_write_buffer_console]
  · intro h0
    rw [h0]; simp [numeral]

/-- Witness of `print_ulong_numeral`: 1234 in base 10 and 255 in base 16 on
the empty console. -/
theorem print_ulong_numeral_witness :
    print_ulong console pctx0 1234 10 = some (4, { write_error := 0, out := [49, 50, 51, 52] }) ∧
    numeral 10 1234 = [49, 50, 51, 52] ∧
    print_ulong console pctx0 255 16
      = some ((numeral 16 255).length, { pctx0 with out := pctx0.out ++ numeral 16 255 }) :=
  ⟨by decide, by simp [numeral, digit_char],
   (print_ulong_numeral pctx0 255 16 (by decide) (by decide) (by decide)).1⟩

/-! ## The chunked 64-bit formatter -/

/-- The first loop of `print_ull_number` for the bases `2..36`: it ends with
`th16 = base ^ innerLoops`, a power in `2..65535`. -/
theorem th16_loop_table : ∀ b < 37, 2 ≤ b →
    ∃ k, th16_loop b ((0xFFFF / b) % 65536) 17 1 0 = some (b ^ k, k) ∧
      2 ≤ b ^ k ∧ b ^ k ≤ 65535 := by
  intro b hb h2
  interval_cases b <;> first
    | exact ⟨15, by decide, by decide, by decide⟩
    | exact ⟨10, by decide, by decide, by decide⟩
    | exact ⟨7, by decide, by decide, by decide⟩
    | exact ⟨6, by decide, by decide, by decide⟩
    | exact ⟨5, by decide, by decide, by decide⟩
    | exact ⟨4, by decide, by decide, by decide⟩
    | exact ⟨3, by decide, by decide, by decide⟩

theorem digit_store (b r : Nat) (hb : 2 ≤ b) (hb36 : b ≤ 36) :
    (r - (r / b) * b) % 256 = r % b := by
  have h1 : r - (r / b) * b = r % b := by
    rw [Nat.mod_def, Nat.mul_comm]
  rw [h1]
  exact Nat.mod_eq_of_lt (lt_of_lt_of_le (Nat.mod_lt _ (by omega)) (by omega))

theorem chunk_digits_low (b : Nat) (hb : 2 ≤ b) (hb36 : b ≤ 36) :
    ∀ k r buf, chunk_digits b k r buf = buf ++ low_digits b k r := by
  intro k
  induction k with
  | zero => intro r buf; simp [chunk_digits, low_digits]
  | succ k ih =>
    intro r buf
    simp only [chunk_digits, low_digits, digit_store b r hb hb36, ih]
    simp

theorem low_digits_mod (b : Nat) :
    ∀ k n, low_digits b k (n % b ^ k) = low_digits b k n := by
  intro k
  induction k with
  | zero => intro n; rfl
  | succ k ih =>
    intro n
    simp only [low_digits]
    have h1 : n % b ^ (k + 1) % b = n % b :=
      Nat.mod_mod_of_dvd n (Dvd.intro_left (b ^ k) rfl)
    have h2 : n % b ^ (k + 1) / b = n / b % b ^ k := by
      rw [Nat.pow_succ, Nat.mul_comm, Nat.mod_mul_right_div_self]
    rw [h1, h2, ih]

theorem digits_low (b : Nat) (hb : 2 ≤ b) :
    ∀ k n, n / b ^ k ≠ 0 → Nat.digits b n = low_digits b k n ++ Nat.digits b (n / b ^ k) := by
  intro k
  induction k with
  | zero => intro n _; simp [low_digits]
  | succ k ih =>
    intro n hq
    have hn : 0 < n := by
      rcases Nat.eq_zero_or_pos n with h | h
      · rw [h] at hq; simp at hq
      · exact h
    have hdiv : n / b / b ^ k = n / b ^ (k + 1) := by
      rw [Nat.div_div_eq_div_mul, Nat.pow_succ, Nat.mul_comm]
    rw [Nat.digits_def' (by omega) hn, ih (n / b) (by rw [hdiv]; exact hq), hdiv]
    rfl

/-- The loop `while (n64 > th16)` with `th16 = base ^ innerLoops`: it returns,
and what it stores followed by the digits of the last `n64` are the digits of
the first `n64`, least significant first. -/
theorem ull_chunks_digits (b k : Nat) (hb : 2 ≤ b) (hb36 : b ≤ 36) (hth : 2 ≤ b ^ k)
    (hth16 : b ^ k ≤ 65535) :
    ∀ fuel n buf, n < 2 ^ fuel →
      ∃ m l, ull_chunks b (b ^ k) k (fuel + 1) n buf = some (m, buf ++ l) ∧
        l ++ Nat.digits b m = Nat.digits b n ∧ m ≤ b ^ k := by
  intro fuel
  induction fuel with
  | zero =>
    intro n buf hn
    have h0 : n = 0 := by omega
    refine ⟨0, [], ?_, by rw [h0]; rfl, Nat.zero_le _⟩
    rw [h0]
    simp [ull_chunks]
  | succ fuel ih =>
    intro n buf hn
    by_cases hgt : n > b ^ k
    · have hq : n / b ^ k < 2 ^ fuel := by
        rw [Nat.div_lt_iff_lt_mul (by omega)]
        rw [Nat.pow_succ] at hn
        calc n < 2 ^ fuel * 2 := hn
          _ ≤ 2 ^ fuel * b ^ k := Nat.mul_le_mul_left _ hth
      have hq0 : n / b ^ k ≠ 0 := by
        have : 0 < n / b ^ k := Nat.div_pos (Nat.le_of_lt hgt) (by omega)
        omega
      have hr : (n - n / b ^ k * b ^ k) % 65536 = n % b ^ k := by
        have h1 : n - n / b ^ k * b ^ k = n % b ^ k := by
          rw [Nat.mod_def, Nat.mul_comm]
        rw [h1]
        exact Nat.mod_eq_of_lt (lt_of_lt_of_le (Nat.mod_lt _ (by omega)) (by omega))
      obtain ⟨m, l, h1, h2, h3⟩ := ih (n / b ^ k) (buf ++ low_digits b k n) hq
      refine ⟨m, low_digits b k n ++ l, ?_, ?_, h3⟩
      · rw [ull_chunks, if_pos hgt, hr, chunk_digits_low b hb hb36, low_digits_mod, h1,
          List.append_assoc]
      · rw [List.append_assoc, h2, ← digits_low b hb k n hq0]
    · refine ⟨n, [], ?_, rfl, Nat.le_of_not_gt hgt⟩
      rw [ull_chunks, if_neg hgt, List.append_nil]

/-- The loop `while (n16 > 0)`: it returns and stores the digits of `n16`,
least significant first. -/
theorem n16_loop_digits (b : Nat) (hb : 2 ≤ b) (hb36 : b ≤ 36) :
    ∀ fuel n buf, n < 2 ^ fuel →
      n16_loop b (fuel + 1) n buf = some (buf ++ Nat.digits b n) := by
  intro fuel
  induction fuel with
  | zero =>
    intro n buf hn
    have h0 : n = 0 := by omega
    rw [h0]
    simp [n16_loop]
  | succ fuel ih =>
    intro n buf hn
    by_cases hpos : n > 0
    · have hq : n / b < 2 ^ fuel := by
        rw [Nat.div_lt_iff_lt_mul (by omega)]
        rw [Nat.pow_succ] at hn
        calc n < 2 ^ fuel * 2 := hn
          _ ≤ 2 ^ fuel * b := Nat.mul_le_mul_left _ hb
      rw [n16_loop, if_pos hpos, digit_store b n hb hb36, ih _ _ hq,
        Nat.digits_def' (by omega) hpos, List.append_assoc]
      rfl
    · have h0 : n = 0 := by omega
      rw [h0]
      simp [n16_loop]

theorem print_digits_console (l : List Nat) (h : ∀ d ∈ l, d < 36) :
    ∀ ctx : PrintCtx (List Nat),
      print_digits console ctx l = { ctx with out := ctx.out ++ l.map digit_char } := by
  induction l with
  | nil => intro ctx; simp [print_digits]
  | cons d ds ih =>
    intro ctx
    have hd : d < 36 := h d (List.mem_cons_self _ _)
    have hc : (if d < 10 then 48 + d else 65 + d - 10) % 256 = digit_char d := by
      unfold digit_char
      split <;> omega
    have hr := digit_char_range d hd
    have hm : digit_char d % 256 = digit_char d := Nat.mod_eq_of_lt (by omega)
    simp only [print_digits, print_char, hc, hm, stdout_write_byte_console]
    rw [ih (fun x hx => h x (List.mem_cons_of_mem _ hx))]
    simp

/-- On a console that takes every character, `print_ulonglong(n, b)` with `b`
in `2..36` returns, prints the digits of `n` most significant first, none at
all for `n = 0`, and returns their number. -/
theorem print_ulonglong_digits (ctx : PrintCtx (List Nat)) (n b : Nat) (hn : n < 2 ^ 64)
    (hb : 2 ≤ b) (hb36 : b ≤ 36) :
    print_ulonglong console ctx n (b : Int)
      = some ((Nat.digits b n).length,
          { ctx with out := ctx.out ++ (Nat.digits b n).reverse.map digit_char }) := by
  have hb0 : ¬ ((b : Int) = 0) := by omega
  have hbb : ((b : Int) % 256).toNat = b := by omega
  have hb256 : b % 256 = b := Nat.mod_eq_of_lt (by omega)
  obtain ⟨k, hk, hth, hth16⟩ := th16_loop_table b (by omega) hb
  obtain ⟨m, l, h1, h2, h3⟩ := ull_chunks_digits b k hb hb36 hth hth16 64 n [] hn
  have hm : m % 65536 = m := Nat.mod_eq_of_lt (by omega)
  have h4 : n16_loop b 17 m l = some (l ++ Nat.digits b m) :=
    n16_loop_digits b hb hb36 16 m l (by omega)
  have hlen : ¬ ((Nat.digits b n).length > 64) := by
    have : (Nat.digits b n).length ≤ 64 := by
      by_cases h0 : n = 0
      · rw [h0]; simp
      · rw [Nat.digits_len b n (by omega) h0]
        have := Nat.log_lt_of_lt_pow h0 (lt_of_lt_of_le hn (Nat.pow_le_pow_left hb 64))
        omega
    omega
  unfold print_ulonglong
  rw [if_neg hb0, hbb]
  unfold print_ull_number
  simp only [hb256, if_neg (show ¬ (b < 2) by omega), Nat.mod_eq_of_lt hn, hk, h1, hm, h4,
    List.nil_append, h2, if_neg hlen]
  rw [print_digits_console _ (fun d hd =>
    lt_of_lt_of_le (Nat.digits_lt_base (by omega) (List.mem_reverse.mp hd)) hb36)]

/-- From `n = 1` on the chunked formatter agrees with the simple one: for
every base `b` in `2..36` and every `n` in `1 .. 2^32 - 1`, on a console that
takes every character, `print_ulonglong(n, b)` and `print_ulong(n, b)` return
the same count and leave the same output. -/
theorem print_ulonglong_agrees_from_one (ctx : PrintCtx (List Nat)) (n b : Nat)
    (h1 : 1 ≤ n) (hn : n < 2 ^ LONG_BITS) (hb : 2 ≤ b) (hb36 : b ≤ 36) :
    print_ulonglong console ctx n (b : Int) = print_ulong console ctx n (b : Int) := by
  have hchars := numeral_chars b n hb hb36
  have hb0 : ¬ ((b : Int) = 0) := by omega
  have hbb : ((b : Int) % 256).toNat = b := by omega
  have hb256 : b % 256 = b := Nat.mod_eq_of_lt (by omega)
  have hlt : n < b ^ LONG_BITS :=
    lt_of_lt_of_le hn (Nat.pow_le_pow_left hb LONG_BITS)
  have hnum : numeral b n = (Nat.digits b n).reverse.map digit_char := by
    unfold numeral
    rw [if_neg (by omega)]
  rw [print_ulonglong_digits ctx n b
    (lt_of_lt_of_le hn (by decide)) hb hb36]
  unfold print_ulong
  rw [if_neg hb0, hbb]
  unfold print_number
  simp only [hb256, if_neg (show ¬ (b < 2) by omega), Nat.mod_eq_of_lt hn]
  rw [print_number_loop_numeral b hb hb36 LONG_BITS n [0] (by decide) hlt]
  simp only [print_write_str, print_write_buffer]
  rw [List.takeWhile_append_of_pos (fun c hc => by simpa using (hchars c hc).2.2)]
  simp [stdout_write_buffer_console, hnum]

/-- C28: at `n = 0` the two formatters differ.  On the empty console
`print_ulonglong(0, 10)` prints nothing and returns 0 (neither loop of
`print_ull_number` stores a digit), while `print_ulong(0, 10)` prints the
character `0` and returns 1; the same holds in every base `2..36`. -/
theorem print_ulonglong_zero_prints_nothing :
    print_ulonglong console pctx0 0 10 = some (0, { write_error := 0, out := [] }) ∧
    print_ulong console pctx0 0 10 = some (1, { write_error := 0, out := [48] }) ∧
    print_ulonglong console pctx0 0 10 ≠ print_ulong console pctx0 0 10 ∧
    ∀ b : Nat, b < 37 → 2 ≤ b →
      print_ulonglong console pctx0 0 (b : Int) = some (0, { write_error := 0, out := [] }) ∧
      print_ulong console pctx0 0 (b : Int) = some (1, { write_error := 0, out := [48] }) := by
  refine ⟨by decide, by decide, by decide, ?_⟩
  intro b hb h2
  have h := print_ulonglong_digits pctx0 0 b (by decide) h2 (by omega)
  have h3 := print_number_loop_numeral b h2 (by omega) LONG_BITS 0 [0] (by decide)
    (Nat.pos_pow_of_pos _ (by omega))
  refine ⟨?_, ?_⟩
  · rw [h]; simp [pctx0]
  · have hb0 : ¬ ((b : Int) = 0) := by omega
    have hbb : ((b : Int) % 256).toNat = b := by omega
    have hb256 : b % 256 = b := Nat.mod_eq_of_lt (by omega)
    unfold print_ulong
    rw [if_neg hb0, hbb]
    unfold print_number
    simp only [hb256, if_neg (show ¬ (b < 2) by omega), Nat.zero_mod]
    rw [h3]
    simp [numeral, print_write_str, print_write_buffer, stdout_write_buffer_console, pctx0]

end PicoLora
